import Mathlib

/-!
LTI 1.3 platform (edugoes): validation store, authorization endpoint, token
endpoint and service guards.

A shallow embedding of the Go sources under `be/`.  Storage tables are lists
of rows, a transaction is a pure function from the table to the new table (a
rolled-back transaction returns the table it was given), and the wall clock
read by `time.Now()` / `CURRENT_TIMESTAMP` is an explicit argument `now`
counted in seconds since the Unix epoch.
-/

namespace Edugoes

/-! ## Validation store (`internal/repositories/validation/validation_sqlite.go`) -/

/-- Row of table `client_assertion_jtis` (primary key `jti`); `expires_at` is
the instant whose text the column holds. -/
structure JTIRow where
  jti : String
  client_id : String
  expires_at : Nat
deriving DecidableEq, Repr

/-- Row of table `oidc_states` (primary key `state`, `used` defaults to 0). -/
structure OIDCStateRow where
  state : String
  client_id : String
  target_link_uri : String
  resource_link_id : String
  context_id : String
  expires_at : Nat
  used : Nat
deriving DecidableEq, Repr

/-- The two tables of the validation database. -/
structure ValidationDB where
  client_assertion_jtis : List JTIRow
  oidc_states : List OIDCStateRow
deriving DecidableEq, Repr

/-- The database right after `initSchema`. -/
def emptyDB : ValidationDB := ⟨[], []⟩

/-- Outcome of `TryUseClientAssertionJTI`: the Go pair `(bool, error)`. -/
inductive JTIOutcome where
  | ok (fresh : Bool)
  | err (msg : String)
deriving DecidableEq, Repr

/-- The civil date (year, month, day) of a day count since 1970-01-01 in the
proleptic Gregorian calendar. -/
def civilFromDays (days : Nat) : Nat × Nat × Nat :=
  let z := days + 719468
  let era := z / 146097
  let doe := z % 146097
  let yoe := (doe - doe / 1460 + doe / 36524 - doe / 146096) / 365
  let doy := doe - (365 * yoe + yoe / 4 - yoe / 100)
  let mp := (5 * doy + 2) / 153
  let d := doy - (153 * mp + 2) / 5 + 1
  let m := if mp < 10 then mp + 3 else mp - 9
  (yoe + era * 400 + (if m ≤ 2 then 1 else 0), m, d)

/-- A number in decimal with at least `width` digits, padded with zeros. -/
def padZero (width n : Nat) : String :=
  String.mk (List.replicate (width - (Nat.repr n).length) '0') ++ Nat.repr n

/-- The text `YYYY-MM-DD HH:MM:SS` of a UTC instant given in seconds since
the Unix epoch; a year above 9999 is written with all its digits. -/
def dateTimeText (t : Nat) : String :=
  let date := civilFromDays (t / 86400)
  let secs := t % 86400
  padZero 4 date.1 ++ "-" ++ padZero 2 date.2.1 ++ "-" ++ padZero 2 date.2.2 ++ " "
    ++ padZero 2 (secs / 3600) ++ ":" ++ padZero 2 (secs % 3600 / 60) ++ ":"
    ++ padZero 2 (secs % 60)

/-- The text that the `modernc.org/sqlite` driver stores for the bound
`time.Time` value `exp.UTC()`: the result of `Time.String()`, for an instant
of whole seconds. -/
def goTimeString (t : Nat) : String := dateTimeText t ++ " +0000 UTC"

/-- The value of SQLite `CURRENT_TIMESTAMP` at the instant `now`. -/
def CURRENT_TIMESTAMP (now : Nat) : String := dateTimeText now

/-- The test `expires_at < CURRENT_TIMESTAMP` of the cleanup `DELETE` on a row
written by `TryUseClientAssertionJTI`: both operands are text, so SQLite
compares them byte by byte, that is, as lists of characters. -/
def sqlExpired (expires_at now : Nat) : Bool :=
  decide ((goTimeString expires_at).data < (CURRENT_TIMESTAMP now).data)

/-- Embedding of `SQLiteRepo.TryUseClientAssertionJTI`: inside one transaction delete the
rows with `expires_at < CURRENT_TIMESTAMP`, then insert `(jti, client_id, exp)`.
A failed insert (primary key taken) returns `false, nil` without committing, so
the deferred rollback also undoes the cleanup.  The zero `time.Time` that an
assertion without `exp` yields (year 1) is represented by `exp = 0`; its text
sorts before the timestamp of every later instant, as that of year 1 does. -/
def TryUseClientAssertionJTI(db : ValidationDB) (now : Nat) (jti clientID : String)
    (exp : Nat) : JTIOutcome × ValidationDB :=
  if jti = "" then
    (JTIOutcome.err "empty jti", db)
  else
    let kept := db.client_assertion_jtis.filter (fun r => !sqlExpired r.expires_at now)
    if kept.any (fun r => decide (r.jti = jti)) then
      (JTIOutcome.ok false, db)
    else
      (JTIOutcome.ok true, { db with client_assertion_jtis := kept ++ [⟨jti, clientID, exp⟩] })

/-- Embedding of `SQLiteRepo.CreateOIDCState`: inside one transaction delete the rows with
`expires_at < CURRENT_TIMESTAMP OR used = 1`, then insert the new row with
`used = 0`.  The result is `true` when the Go function returns a nil error; a
failed insert (primary key taken) rolls the whole transaction back. -/
def CreateOIDCState (db : ValidationDB) (now : Nat)
    (state clientID targetLinkURI contextID resourceLinkID : String) (exp : Nat) :
    Bool × ValidationDB :=
  let kept := db.oidc_states.filter (fun r => !(decide (r.expires_at < now) || decide (r.used = 1)))
  if kept.any (fun r => decide (r.state = state)) then
    (false, db)
  else
    (true, { db with oidc_states :=
      kept ++ [⟨state, clientID, targetLinkURI, resourceLinkID, contextID, exp, 0⟩] })

/-- The five data results of `ConsumeOIDCState`, in the order of the Go
signature. -/
structure ConsumeResult where
  clientID : String
  targetLinkURI : String
  resourceLinkID : String
  contextID : String
  ok : Bool
deriving DecidableEq, Repr

/-- The result returned on every rejecting path of `ConsumeOIDCState`. -/
def ConsumeResult.rejected : ConsumeResult := ⟨"", "", "", "", false⟩

/-- Effect of `UPDATE oidc_states SET used = 1 WHERE state = ?` on one row. -/
def markUsed (state : String) (r : OIDCStateRow) : OIDCStateRow :=
  if r.state = state then { r with used := 1 } else r

/-- Embedding of `SQLiteRepo.ConsumeOIDCState`: select the row of `state`; reject when there
is none, when `used == 1` or when `time.Now().After(exp)`; otherwise
`UPDATE oidc_states SET used = 1 WHERE state = ?` and return the row's
columns. -/
def ConsumeOIDCState (db : ValidationDB) (now : Nat) (state : String) :
    ConsumeResult × ValidationDB :=
  match db.oidc_states.find? (fun r => decide (r.state = state)) with
  | none => (ConsumeResult.rejected, db)
  | some row =>
    if row.used = 1 ∨ now > row.expires_at then
      (ConsumeResult.rejected, db)
    else
      (⟨row.client_id, row.target_link_uri, row.resource_link_id, row.context_id, true⟩,
        { db with oidc_states :=
          db.oidc_states.map (markUsed state) })

/-- A call on the OIDC-state half of the validation store, with the clock
reading at which it runs. -/
inductive StateCall where
  | create (now : Nat) (state clientID targetLinkURI contextID resourceLinkID : String)
      (exp : Nat)
  | consume (now : Nat) (state : String)
deriving DecidableEq, Repr

/-- What a call of a history returned: the error-free flag of a create, the
`ok` flag of a consume. -/
inductive StateReturn where
  | created (state : String) (success : Bool)
  | consumed (state : String) (ok : Bool)
deriving DecidableEq, Repr

/-- Run one call of a history. -/
def stepCall (db : ValidationDB) : StateCall → StateReturn × ValidationDB
  | .create now s c t x r e =>
    let res := CreateOIDCState db now s c t x r e
    (.created s res.1, res.2)
  | .consume now s =>
    let res := ConsumeOIDCState db now s
    (.consumed s res.1.ok, res.2)

/-- Run a sequential history, collecting what every call returned. -/
def runCalls (db : ValidationDB) : List StateCall → List StateReturn
  | [] => []
  | c :: cs => (stepCall db c).1 :: runCalls (stepCall db c).2 cs

/-- Number of `ConsumeOIDCState(s)` calls of a trace that returned ok=true. -/
def consumeSuccesses (s : String) (tr : List StateReturn) : Nat :=
  tr.countP (fun r => decide (r = StateReturn.consumed s true))

/-- Number of `CreateOIDCState(s, …)` calls of a trace that returned no error. -/
def createSuccesses (s : String) (tr : List StateReturn) : Nat :=
  tr.countP (fun r => decide (r = StateReturn.created s true))

/-- Whether the table still holds a row of `s` that no consume has marked. -/
def hasUnused (db : ValidationDB) (s : String) : Bool :=
  db.oidc_states.any (fun r => decide (r.state = s) && !decide (r.used = 1))

/-- The row that the `SELECT … WHERE state = ?` of `ConsumeOIDCState` loads. -/
def selectState (db : ValidationDB) (s : String) : Option OIDCStateRow :=
  db.oidc_states.find? (fun r => decide (r.state = s))

/-- The clock reading of a call. -/
def StateCall.now : StateCall → Nat
  | .create now _ _ _ _ _ _ => now
  | .consume now _ => now

/-- Whether a call is a `ConsumeOIDCState` of the state `s`. -/
def StateCall.isConsumeOf (s : String) : StateCall → Bool
  | .create _ _ _ _ _ _ _ => false
  | .consume _ t => decide (t = s)

/-- The database a sequential history leaves. -/
def execCalls (db : ValidationDB) : List StateCall → ValidationDB
  | [] => db
  | c :: cs => execCalls (stepCall db c).2 cs

/-! ## Go standard library and jwx, as far as the handlers use them -/

/-- Embedding of `url.Values.Get`: the first value stored under `key`, or the
empty string. -/
def valuesGet (vs : List (String × String)) (key : String) : String :=
  match vs.find? (fun p => decide (p.1 = key)) with
  | some p => p.2
  | none => ""

/-- Embedding of `firstNonEmpty` of `handler_oidc.go`. -/
def firstNonEmpty : List String → String
  | [] => ""
  | v :: vs => if v ≠ "" then v else firstNonEmpty vs

/-- Embedding of `unicode.IsSpace`. -/
def isSpace (c : Char) : Bool :=
  let n := c.toNat
  n = 0x20 || (0x09 ≤ n && n ≤ 0x0D) || n = 0x85 || n = 0xA0 || n = 0x1680
    || (0x2000 ≤ n && n ≤ 0x200A) || n = 0x2028 || n = 0x2029 || n = 0x202F
    || n = 0x205F || n = 0x3000

/-- Loop of `strings.Fields`: `cur` holds the characters of the field being
read, last one first. -/
def fieldsLoop (cur : List Char) : List Char → List String
  | [] => if cur = [] then [] else [String.mk cur.reverse]
  | c :: cs =>
    if isSpace c then
      if cur = [] then fieldsLoop [] cs else String.mk cur.reverse :: fieldsLoop [] cs
    else fieldsLoop (c :: cur) cs

/-- Embedding of `strings.Fields`: the maximal runs of non-space characters. -/
def Fields (s : String) : List String := fieldsLoop [] s.data

/-- Embedding of `strings.Join`. -/
def Join : List String → String → String
  | [], _ => ""
  | [a], _ => a
  | a :: b :: rest, sep => a ++ sep ++ Join (b :: rest) sep

/-- Embedding of `strings.TrimSpace`. -/
def TrimSpace (s : String) : String :=
  String.mk ((s.data.dropWhile isSpace).reverse.dropWhile isSpace).reverse

/-- The test `strings.HasPrefix(strings.ToLower(auth), "bearer ")`.  Only ASCII
letters lower-case to the letters of `bearer`, so lowering the first seven
characters in ASCII decides it. -/
def hasBearerPrefix (auth : String) : Bool :=
  (auth.data.take 7).map Char.toLower == "bearer ".data

/-- The token text `strings.TrimSpace(auth[len("Bearer "):])`. -/
def bearerToken (auth : String) : String := TrimSpace (String.mk (auth.data.drop 7))

/-- The fields of a parsed `url.URL` that the handlers read. -/
structure URL where
  Scheme : String
  Host : String
  Path : String
deriving DecidableEq, Repr

/-- Embedding of `getScheme` of `net/url`: `none` is the error "missing protocol
scheme", otherwise the scheme (possibly empty) and the rest. -/
def getScheme (whole : List Char) : List Char → List Char → Option (List Char × List Char)
  | _, [] => some ([], whole)
  | seen, c :: cs =>
    if c.isAlpha then getScheme whole (seen ++ [c]) cs
    else if c.isDigit || c = '+' || c = '-' || c = '.' then
      if seen = [] then some ([], whole) else getScheme whole (seen ++ [c]) cs
    else if c = ':' then
      if seen = [] then none else some (seen, cs)
    else some ([], whole)

/-- A model of `url.Parse` for scheme, host and path: the fragment and the
query are cut off, control characters and a colon in the first segment of a
scheme-less relative path are errors, a rootless path after a scheme is opaque,
and the authority after `//` gives the host (the part after the last `@`).
Percent-decoding and the validation of host, port and user info are not
modelled. -/
def urlParse (raw : String) : Option URL :=
  let u := raw.data.takeWhile (fun c => c != '#')
  if u.any (fun c => decide (c.toNat < 0x20) || decide (c.toNat = 0x7F)) then none
  else if u = ['*'] then some ⟨"", "", "*"⟩
  else
    match getScheme u [] u with
    | none => none
    | some (scheme, rest0) =>
      let scheme := scheme.map Char.toLower
      let rest := rest0.takeWhile (fun c => c != '?')
      if rest.head? ≠ some '/' then
        if scheme ≠ [] then some ⟨String.mk scheme, "", ""⟩
        else if (rest.takeWhile (fun c => c != '/')).contains ':' then none
        else some ⟨"", "", String.mk rest⟩
      else if (scheme ≠ [] ∨ rest.take 3 ≠ ['/', '/', '/']) ∧ rest.take 2 = ['/', '/'] then
        let authority := (rest.drop 2).takeWhile (fun c => c != '/')
        let path := (rest.drop 2).dropWhile (fun c => c != '/')
        let host := ((authority.reverse.takeWhile (fun c => c != '@')).reverse)
        some ⟨String.mk scheme, String.mk host, String.mk path⟩
      else some ⟨String.mk scheme, "", String.mk rest⟩

/-- Value of a private JWT claim as the guards inspect it: a Go `string`, a
`[]string`, a `[]any` (each element a string or something else), or any other
type. -/
inductive ClaimValue where
  | str (s : String)
  | strs (xs : List String)
  | items (xs : List (Option String))
  | other
deriving DecidableEq, Repr

/-- A decoded JWT: `signer` names the key whose signature the token carries;
`exp`, `iat` and `nbf` are 0 when the claim is absent (the zero `time.Time`). -/
structure JWT where
  signer : String
  iss : String
  sub : String
  aud : List String
  exp : Nat
  iat : Nat
  nbf : Nat
  jti : String
  scope : Option ClaimValue
deriving DecidableEq, Repr

/-- Embedding of `jwt.Validate` of jwx v2 with the default clock and no skew:
each of `exp`, `iat`, `nbf` is checked only when present. -/
def jwtValidate (now : Nat) (t : JWT) : Bool :=
  (t.exp = 0 || decide (now < t.exp)) && (t.iat = 0 || decide (t.iat ≤ now))
    && (t.nbf = 0 || decide (t.nbf ≤ now))

/-- Embedding of `jwt.ParseString` / `jwt.Parse` of jwx v2 with a key or key
set: the compact serialisation is decoded by `wire` (`none` for a malformed
token), the signature must come from one of `keys`, validation is on by
default, and `jwt.WithAudience(a)` requires `a` among the `aud` values. -/
def jwtParse (wire : String → Option JWT) (now : Nat) (raw : String) (keys : List String)
    (audience : Option String) : Option JWT :=
  match wire raw with
  | none => none
  | some t =>
    if keys.contains t.signer && jwtValidate now t
        && (match audience with
            | none => true
            | some a => t.aud.contains a) then some t
    else none

/-! ## Platform configuration and registries -/

/-- The `Handler` fields and process environment the handlers read: the
platform issuer, `PUBLIC_BASE_URL`, and the signing key after `keys.Init()`
(`none` when initialisation failed). -/
structure Platform where
  issuer : String
  publicBaseURL : String
  signingKey : Option String
deriving DecidableEq, Repr

/-- Embedding of `Tool` of `pkg/repositories/lti`. -/
structure Tool where
  ID : Int
  Name : String
  ClientID : String
  AuthURL : String
  TargetLinkURL : String
  TargetLaunchURL : String
  KeySetURL : String
deriving DecidableEq, Repr

/-- Embedding of `GetToolByClientID` on the tool table. -/
def GetToolByClientID (tools : List Tool) (clientID : String) : Option Tool :=
  tools.find? (fun t => decide (t.ClientID = clientID))

/-- Embedding of `GetLineItemIDByResourceLinkID` on table `line_item_mappings`
(`line_item_id`, `resource_link_id`): 0 when there is no row. -/
def GetLineItemIDByResourceLinkID (mappings : List (Int × String)) (resourceLinkID : String) :
    Int :=
  match mappings.find? (fun m => decide (m.2 = resourceLinkID)) with
  | some m => m.1
  | none => 0

/-! ## Service guards (`handler_ags_auth.go`, `handler_nrps_auth.go`) -/

/-- What a guard middleware did with a request: wrote an error response, or
called `next.ServeHTTP`. -/
inductive GuardResult where
  | reject (status : Nat) (wwwAuthenticate : Option String) (body : String)
  | next
deriving DecidableEq, Repr

/-- Inner loop of the AGS scope check: scan `parts` for `need`, stop at the
first hit. -/
def agsInnerLoop (need : String) : List String → Bool
  | [] => false
  | have_ :: rest => if have_ = need then true else agsInnerLoop need rest

/-- Outer loop of the AGS scope check: try the required scopes in order and
stop as soon as `ok` is set. -/
def agsOuterLoop (parts : List String) : List String → Bool
  | [] => false
  | need :: rest => if agsInnerLoop need parts then true else agsOuterLoop parts rest

/-- The `scope` claim read by `scopeStr, _ := scopes.(string)`: the string
itself, and the empty string for an absent claim or any other type. -/
def agsScopeStr (t : JWT) : String :=
  match t.scope with
  | some (ClaimValue.str s) => s
  | _ => ""

/-- Embedding of `Handler.agsRequireScopes(required...)` applied to a request with the given
`Authorization` header. -/
def agsRequireScopes (wire : String → Option JWT) (h : Platform) (required : List String)
    (now : Nat) (auth : String) : GuardResult :=
  if auth = "" ∨ hasBearerPrefix auth = false then
    GuardResult.reject 401
      (some "Bearer realm=\"lti-ags\", error=\"invalid_request\", error_description=\"missing bearer token\"")
      "missing bearer token"
  else
    let tokStr := bearerToken auth
    match h.signingKey with
    | none => GuardResult.reject 500 none "server keys not initialized"
    | some pub =>
      match jwtParse wire now tokStr [pub] (some (h.issuer ++ "/api")) with
      | none =>
        GuardResult.reject 401
          (some "Bearer realm=\"lti-ags\", error=\"invalid_token\", error_description=\"expired or invalid token\"")
          "invalid or expired token"
      | some tok =>
        let scopeStr := agsScopeStr tok
        let ok :=
          if scopeStr ≠ "" ∧ required.length = 0 then true
          else if scopeStr ≠ "" then agsOuterLoop (Fields scopeStr) required
          else false
        if ok = false then
          GuardResult.reject 403
            (some ("Bearer realm=\"lti-ags\", error=\"insufficient_scope\", scope=\""
              ++ Join required " " ++ "\""))
            "insufficient_scope"
        else GuardResult.next

/-- The set `have` that `hasAllScopes` builds from the scope claim, as the list
of its keys. -/
def scopeSet : ClaimValue → List String
  | ClaimValue.str s => Fields s
  | ClaimValue.strs xs => xs
  | ClaimValue.items xs => xs.filterMap id
  | ClaimValue.other => []

/-- Embedding of `hasAllScopes`: every required scope is a key of the set. -/
def hasAllScopes (scopeClaim : ClaimValue) (required : List String) : Bool :=
  required.all (fun req => (scopeSet scopeClaim).contains req)

/-- Embedding of `requireBearerScopes`: the NRPS check; `GuardResult.next` stands for the
result `true`, after which `nrpsRequireScopes` calls the handler. -/
def requireBearerScopes (wire : String → Option JWT) (h : Platform) (required : List String)
    (now : Nat) (auth : String) : GuardResult :=
  if auth = "" ∨ hasBearerPrefix auth = false then
    GuardResult.reject 401 (some "Bearer realm=\"NRPS\"") "missingAuthorization"
  else
    let tokenStr := bearerToken auth
    match h.signingKey with
    | none => GuardResult.reject 500 none "serverKeyInitFailed"
    | some pub =>
      match jwtParse wire now tokenStr [pub] none with
      | none => GuardResult.reject 401 (some "Bearer error=\"invalid_token\"") "invalidToken"
      | some tok =>
        let scopesOK :=
          match tok.scope with
          | some v => hasAllScopes v required
          | none => false
        if scopesOK = false then
          GuardResult.reject 403 (some "Bearer error=\"insufficient_scope\"") "insufficientScope"
        else GuardResult.next

/-- Embedding of `Handler.nrpsRequireScopes(scopes...)`. -/
def nrpsRequireScopes (wire : String → Option JWT) (h : Platform) (scopes : List String)
    (now : Nat) (auth : String) : GuardResult :=
  requireBearerScopes wire h scopes now auth

/-! ## Authorization endpoint (`handler_oidc.go`) -/

/-- The parts of an `*http.Request` that `oidcAuth` reads: `r.Form` after
`ParseForm`, `r.URL.Query()`, and the request cookies as name/value pairs. -/
structure Request where
  form : List (String × String)
  query : List (String × String)
  cookies : List (String × String)
deriving DecidableEq, Repr

/-- A request parameter as `oidcAuth` reads it:
`firstNonEmpty(r.Form.Get(key), r.URL.Query().Get(key))`. -/
def formValue (r : Request) (key : String) : String :=
  firstNonEmpty [valuesGet r.form key, valuesGet r.query key]

/-- Embedding of `r.Cookie(name)`: the first cookie of that name, if any. -/
def requestCookie (r : Request) (name : String) : Option (String × String) :=
  r.cookies.find? (fun c => decide (c.1 = name))

/-- The AGS endpoint claim of an id_token. -/
structure AGSEndpointClaim where
  lineitem : String
  lineitems : String
  scope : List String
deriving DecidableEq, Repr

/-- The NRPS claim of an id_token. -/
structure NRPSClaim where
  context_memberships_url : String
  service_versions : List String
deriving DecidableEq, Repr

/-- One entry of the LTI services claim. -/
structure ServiceEntry where
  endpoint : String
  scope : List String
deriving DecidableEq, Repr

/-- The deep linking settings claim. -/
structure DeepLinkingSettings where
  deep_link_return_url : String
  data : String
  accept_types : List String
  accept_presentation_document_targets : List String
  accept_multiple : Bool
deriving DecidableEq, Repr

/-- The claims of the id_token that `oidcAuth` builds and signs. -/
structure IdToken where
  kid : String
  iss : String
  sub : String
  aud : List String
  iat : Nat
  exp : Nat
  nonce : String
  version : String
  message_type : String
  deployment_id : String
  target_link_uri : String
  roles : List String
  name : Option String
  email : Option String
  resource_link_id : Option String
  ags_endpoint : Option AGSEndpointClaim
  nrps : Option NRPSClaim
  services : List ServiceEntry
  deep_linking_settings : Option DeepLinkingSettings
deriving DecidableEq, Repr

/-- What `oidcAuth` wrote: the status, the `http.Error` text (empty for the
form page), whether the `lti_corr` cookie was cleared, and, on the form page,
the form action, the echoed `state` and the signed id_token. -/
structure AuthResponse where
  status : Nat
  body : String
  clearsCookie : Bool
  formAction : String
  formState : String
  idToken : Option IdToken
deriving DecidableEq, Repr

/-- An `http.Error` response of `oidcAuth`. -/
def authError (status : Nat) (body : String) (cleared : Bool) : AuthResponse :=
  ⟨status, body, cleared, "", "", none⟩

/-- The four AGS scopes advertised in id_tokens. -/
def agsScopes : List String :=
  ["https://purl.imsglobal.org/spec/lti-ags/scope/lineitem.readonly",
   "https://purl.imsglobal.org/spec/lti-ags/scope/lineitem",
   "https://purl.imsglobal.org/spec/lti-ags/scope/result.readonly",
   "https://purl.imsglobal.org/spec/lti-ags/scope/score"]

/-- The claim construction of `oidcAuth` (everything between the redirect
check and the signature); `rnd` is the value of `anonSub()`, `lh` the
`login_hint` parameter. -/
def buildIdToken (h : Platform) (mappings : List (Int × String)) (kid : String) (now : Nat)
    (rnd lh : String) (clientID nonce ltiMessageHint : String)
    (targetLinkUri resourceLinkID contextID : String) : IdToken :=
  let deep := decide (ltiMessageHint = "deep_linking")
  let subject := if lh ≠ "" then lh else rnd
  let email := if lh ≠ "" ∧ lh.data.contains '@' then lh else ""
  let fullName0 := if lh ≠ "" then "Haries Efrika" else ""
  let roles :=
    if resourceLinkID ≠ "" then
      ["http://purl.imsglobal.org/vocab/lis/v2/institution/person#Student"]
    else ["http://purl.imsglobal.org/vocab/lis/v2/institution/person#Instructor"]
  let fullName := if resourceLinkID ≠ "" then "Student Efrika" else fullName0
  let ctx := if contextID = "" then "dev-context" else contextID
  let base := if h.publicBaseURL ≠ "" then h.publicBaseURL else h.issuer
  let id := GetLineItemIDByResourceLinkID mappings resourceLinkID
  let lineItemId := if resourceLinkID ≠ "" ∧ id > 0 then Nat.repr id.toNat else ""
  { kid := kid
    iss := h.issuer
    sub := subject
    aud := [clientID]
    iat := now
    exp := now + 300
    nonce := nonce
    version := "1.3.0"
    message_type := if deep then "LtiDeepLinkingRequest" else "LtiResourceLinkRequest"
    deployment_id := "dev-deployment"
    target_link_uri := targetLinkUri
    roles := roles
    name := if fullName ≠ "" then some fullName else none
    email := if email ≠ "" then some email else none
    resource_link_id := if deep then none else some resourceLinkID
    ags_endpoint :=
      if deep then none
      else some
        { lineitem := base ++ "/api/ags/contexts/" ++ ctx ++ "/lineitems/" ++ lineItemId
          lineitems := base ++ "/api/ags/contexts/" ++ ctx ++ "/lineitems"
          scope := agsScopes }
    nrps :=
      if deep then none
      else some
        { context_memberships_url := base ++ "/api/nrps/contexts/" ++ ctx ++ "/members"
          service_versions := ["2.0"] }
    services :=
      if deep then []
      else
        [ { endpoint := base ++ "/oauth2/token", scope := agsScopes },
          { endpoint := base ++ "/api/nrps/contexts/" ++ ctx ++ "/members"
            scope := ["https://purl.imsglobal.org/spec/lti-nrps/scope/contextmembership.readonly"] } ]
    deep_linking_settings :=
      if deep then some
        { deep_link_return_url := h.issuer ++ "/api/deeplink/return"
          data := contextID
          accept_types := ["ltiResourceLink"]
          accept_presentation_document_targets := ["iframe", "window"]
          accept_multiple := false }
      else none }

/-- The redirect URL that `oidcAuth` allows for a tool: `target_link_url` for
a deep-linking launch, else `target_launch_url`, and `auth_url` when that
choice is empty. -/
def allowedRedirect (tool : Tool) (ltiMessageHint : String) : String :=
  let allowed :=
    if ltiMessageHint = "deep_linking" then tool.TargetLinkURL else tool.TargetLaunchURL
  if allowed = "" then tool.AuthURL else allowed

/-- Embedding of `Handler.oidcAuth` with a configured validation repository. `parse` is
`url.Parse`, `tools` the tool table, `mappings` the line-item mapping table,
`rnd` the value `anonSub()` would draw.  Storage errors are not modelled. -/
def oidcAuth (parse : String → Option URL) (h : Platform) (tools : List Tool)
    (mappings : List (Int × String)) (db : ValidationDB) (now : Nat) (rnd : String)
    (r : Request) : AuthResponse × ValidationDB :=
  let clientID := formValue r "client_id"
  let redirectURI := formValue r "redirect_uri"
  let rawState := formValue r "state"
  let nonce := formValue r "nonce"
  let ltiMessageHint := formValue r "lti_message_hint"
  if clientID = "" ∨ redirectURI = "" then
    (authError 400 "missing client_id or redirect_uri" false, db)
  else
    match requestCookie r "lti_corr" with
    | none => (authError 401 "missing correlation cookie" false, db)
    | some corrCookie =>
      if corrCookie.2 = "" then (authError 401 "missing correlation cookie" false, db)
      else
        let res := ConsumeOIDCState db now corrCookie.2
        if res.1.ok = false then
          (authError 401 "invalid or expired correlation state" false, res.2)
        else if res.1.clientID ≠ "" ∧ res.1.clientID ≠ clientID then
          (authError 401 "client_id mismatch" true, res.2)
        else
          match GetToolByClientID tools clientID with
          | none => (authError 400 "unknown client_id" true, res.2)
          | some tool =>
            match parse redirectURI with
            | none => (authError 400 "invalid redirect_uri" true, res.2)
            | some reqURI =>
              match parse (allowedRedirect tool ltiMessageHint) with
              | none =>
                (authError 500 "server misconfig: tool redirect url invalid" true, res.2)
              | some allowedURI =>
                if reqURI.Scheme ≠ allowedURI.Scheme ∨ reqURI.Host ≠ allowedURI.Host
                    ∨ reqURI.Path ≠ allowedURI.Path then
                  (authError 400 "redirect_uri not allowed for this client" true, res.2)
                else
                  match h.signingKey with
                  | none => (authError 500 "failed to initialize keys" true, res.2)
                  | some kid =>
                    (⟨200, "", true, redirectURI, rawState,
                      some (buildIdToken h mappings kid now rnd (formValue r "login_hint")
                        clientID nonce ltiMessageHint res.1.targetLinkURI
                        res.1.resourceLinkID res.1.contextID)⟩, res.2)

/-! ## Token endpoint (`handler_oauth2.go`) -/

/-- What `oauth2Token` wrote: the status, the RFC 6749 `error` code and
description of `writeOAuthError` (empty on success), and on success the claims
of the signed access token and the echoed scope. -/
structure TokenResponse where
  status : Nat
  error : String
  errorDescription : String
  accessToken : Option JWT
  scope : String
deriving DecidableEq, Repr

/-- Embedding of `writeOAuthError`. -/
def writeOAuthError (status : Nat) (code desc : String) : TokenResponse :=
  ⟨status, code, desc, none, ""⟩

/-- The client id after the unverified peek into the assertion payload: a
missing `client_id` is inferred from `iss`, then from `sub`. -/
def inferClientID (wire : String → Option JWT) (clientID clientAssertion : String) : String :=
  if clientAssertion ≠ "" then
    match wire clientAssertion with
    | none => clientID
    | some t =>
      let c1 := if clientID = "" ∧ t.iss ≠ "" then t.iss else clientID
      if c1 = "" ∧ t.sub ≠ "" then t.sub else c1
  else clientID

/-- The closure `parseWithSet`: full validation against a key set with the
token endpoint as audience. -/
def parseWithSet (wire : String → Option JWT) (h : Platform) (now : Nat)
    (clientAssertion : String) (set : List String) : Option JWT :=
  jwtParse wire now clientAssertion set (some (h.issuer ++ "/api/oauth2/token"))

/-- Primary path of the tool resolution: the tool registered under the known
client id, when its JWKS can be fetched and validates the assertion. -/
def primaryTool (wire : String → Option JWT) (jwks : String → Option (List String))
    (h : Platform) (tools : List Tool) (now : Nat) (clientID clientAssertion : String) :
    Option (Tool × JWT) :=
  if clientID ≠ "" then
    match GetToolByClientID tools clientID with
    | none => none
    | some t =>
      match jwks t.KeySetURL with
      | none => none
      | some set =>
        match parseWithSet wire h now clientAssertion set with
        | none => none
        | some tok => some (t, tok)
  else none

/-- Fallback discovery: the first registered tool, in `ListTools` order, with
a JWKS URL whose key set validates the assertion. -/
def discoverTool (wire : String → Option JWT) (jwks : String → Option (List String))
    (h : Platform) (now : Nat) (clientAssertion : String) : List Tool → Option (Tool × JWT)
  | [] => none
  | t :: ts =>
    if t.KeySetURL = "" then discoverTool wire jwks h now clientAssertion ts
    else
      match jwks t.KeySetURL with
      | none => discoverTool wire jwks h now clientAssertion ts
      | some set =>
        match parseWithSet wire h now clientAssertion set with
        | none => discoverTool wire jwks h now clientAssertion ts
        | some tok => some (t, tok)

/-- The tool and parsed assertion after both resolution steps. -/
def resolveTool (wire : String → Option JWT) (jwks : String → Option (List String))
    (h : Platform) (tools : List Tool) (now : Nat) (clientID clientAssertion : String) :
    Option (Tool × JWT) :=
  match primaryTool wire jwks h tools now clientID clientAssertion with
  | some res => some res
  | none => discoverTool wire jwks h now clientAssertion tools

/-- The part of `oauth2Token` after the assertion has been parsed against the
resolved tool: the iss/sub check, the jti replay check, and the issuance. -/
def issueForTool (h : Platform) (db : ValidationDB) (now : Nat) (rnd scope : String)
    (tool : Tool) (parsed : JWT) : TokenResponse × ValidationDB :=
  let iss := parsed.iss
  let sub := parsed.sub
  if tool.ClientID ≠ "" ∧ iss ≠ tool.ClientID ∧ sub ≠ tool.ClientID then
    (writeOAuthError 401 "invalid_client"
      "client_assertion iss/sub do not match registered client_id", db)
  else if tool.ClientID = "" ∧ iss = "" ∧ sub = "" then
    (writeOAuthError 401 "invalid_client" "client_assertion missing iss/sub", db)
  else
    let effectiveClientID :=
      if tool.ClientID ≠ "" then tool.ClientID else if sub ≠ "" then sub else iss
    let jti := parsed.jti
    if jti = "" then
      (writeOAuthError 401 "invalid_client" "client_assertion missing jti", db)
    else
      let exp := parsed.exp
      let res := TryUseClientAssertionJTI db now jti effectiveClientID exp
      match res.1 with
      | JTIOutcome.err _ => (writeOAuthError 500 "server_error" "repository error", res.2)
      | JTIOutcome.ok false =>
        (writeOAuthError 401 "invalid_client" "client_assertion replay detected", res.2)
      | JTIOutcome.ok true =>
        match h.signingKey with
        | none => (writeOAuthError 500 "server_error" "failed to initialize keys", res.2)
        | some kid =>
          (⟨200, "", "",
            some { signer := kid, iss := h.issuer, sub := effectiveClientID,
                   aud := [h.issuer ++ "/api"], exp := now + 60, iat := now, nbf := 0,
                   jti := rnd, scope := some (ClaimValue.str scope) },
            scope⟩, res.2)

/-- Embedding of `Handler.oauth2Token` with a configured validation repository.  `form` is
`r.Form` (`none` when `ParseForm` fails), `jwks` is `jwksCache.Get` during this
request, `rnd` the value `anonSub()` would draw.  The description of the
refusal of an unreadable form is `invalid form: ` followed by the text of the
error; that text is left out. -/
def oauth2Token (wire : String → Option JWT) (jwks : String → Option (List String))
    (h : Platform) (tools : List Tool) (db : ValidationDB) (now : Nat) (rnd : String)
    (form : Option (List (String × String))) : TokenResponse × ValidationDB :=
  match form with
  | none => (writeOAuthError 400 "invalid_request" "invalid form", db)
  | some f =>
    let grantType := valuesGet f "grant_type"
    let scope := valuesGet f "scope"
    let clientAssertionType := valuesGet f "client_assertion_type"
    let clientAssertion := valuesGet f "client_assertion"
    let clientID := inferClientID wire (valuesGet f "client_id") clientAssertion
    if grantType ≠ "client_credentials" then
      (writeOAuthError 400 "unsupported_grant_type" "grant_type must be client_credentials", db)
    else if scope = "" then
      (writeOAuthError 400 "invalid_request" "missing scope", db)
    else if clientAssertionType ≠ "urn:ietf:params:oauth:client-assertion-type:jwt-bearer" then
      (writeOAuthError 400 "invalid_request" "invalid client_assertion_type", db)
    else if clientAssertion = "" then
      (writeOAuthError 400 "invalid_request" "missing client_assertion", db)
    else
      match resolveTool wire jwks h tools now clientID clientAssertion with
      | none =>
        (writeOAuthError 401 "invalid_client"
          "unable to validate client_assertion against any registered tool", db)
      | some (tool, _) =>
        match jwks tool.KeySetURL with
        | none => (writeOAuthError 502 "invalid_client" "failed to fetch client JWKS", db)
        | some set =>
          match parseWithSet wire h now clientAssertion set with
          | none => (writeOAuthError 401 "invalid_client" "invalid client_assertion", db)
          | some parsed => issueForTool h db now rnd scope tool parsed

/-- The value of a hexadecimal digit, as `unhex` of `net/url`. -/
def hexVal (c : Char) : Option Nat :=
  if '0' ≤ c ∧ c ≤ '9' then some (c.toNat - 48)
  else if 'a' ≤ c ∧ c ≤ 'f' then some (c.toNat - 87)
  else if 'A' ≤ c ∧ c ≤ 'F' then some (c.toNat - 55)
  else none

/-- A model of `url.QueryUnescape`: `+` is a space, `%XX` the byte with that
hexadecimal code, and a `%` that is not followed by two hexadecimal digits is
an error (`none`).  A decoded byte is taken as the character of that code,
which is exact for ASCII. -/
def QueryUnescape : List Char → Option (List Char)
  | [] => some []
  | '%' :: a :: b :: rest =>
    match hexVal a, hexVal b, QueryUnescape rest with
    | some x, some y, some out => some (Char.ofNat (16 * x + y) :: out)
    | _, _, _ => none
  | '%' :: _ => none
  | '+' :: rest => (QueryUnescape rest).map (fun out => ' ' :: out)
  | c :: rest => (QueryUnescape rest).map (fun out => c :: out)

/-- The parts of a query between the `&` separators; `cur` holds the current
part, last character first. -/
def splitAmp (cur : List Char) : List Char → List (List Char)
  | [] => [cur.reverse]
  | c :: cs => if c = '&' then cur.reverse :: splitAmp [] cs else splitAmp (c :: cur) cs

/-- A model of `url.ParseQuery`: the key/value pairs in order, and whether
an error was returned.  A part with a semicolon or with a bad escape is
skipped and makes the error, an empty part is skipped, and the parts after an
error are still read. -/
def ParseQuery (query : String) : List (String × String) × Bool :=
  (splitAmp [] query.data).foldl (fun (acc : List (String × String) × Bool) part =>
    if part.contains ';' then (acc.1, true)
    else if part = [] then acc
    else
      match QueryUnescape (part.takeWhile (fun c => c != '=')),
          QueryUnescape ((part.dropWhile (fun c => c != '=')).drop 1) with
      | some k, some v => (acc.1 ++ [(String.mk k, String.mk v)], acc.2)
      | _, _ => (acc.1, true)) ([], false)

/-- The parts of a token request that `r.ParseForm()` reads: `r.URL.RawQuery`
and the body of a POST with content type
`application/x-www-form-urlencoded`. -/
structure TokenRequest where
  rawQuery : String
  body : String
deriving DecidableEq, Repr

/-- A model of `r.ParseForm()`: the values of `r.Form` (those of the body
before those of the URL query) and whether an error was returned. -/
def ParseForm (r : TokenRequest) : List (String × String) × Bool :=
  ((ParseQuery r.body).1 ++ (ParseQuery r.rawQuery).1,
    (ParseQuery r.body).2 || (ParseQuery r.rawQuery).2)

/-- Embedding of `Handler.oauth2Token` from the request on: `r.ParseForm()` and, when it
returns no error, the handler on `r.Form`. -/
def oauth2TokenRequest (wire : String → Option JWT) (jwks : String → Option (List String))
    (h : Platform) (tools : List Tool) (db : ValidationDB) (now : Nat) (rnd : String)
    (r : TokenRequest) : TokenResponse × ValidationDB :=
  oauth2Token wire jwks h tools db now rnd
    (if (ParseForm r).2 then none else some (ParseForm r).1)

/-! ## AGS store (`internal/repositories/scores/sqlite/scores_sqlite.go`) -/

/-- A Go `float64` as the store carries it: only stored, compared with zero
and returned, so a finite value is modelled by the rational it denotes. -/
abbrev Float64 := ℚ

/-- Embedding of `Score` of `pkg/repositories/scores`: the payload of a score
post. -/
structure Score where
  UserID : String
  Timestamp : Nat
  ScoreGiven : Option Float64
  ScoreMaximum : Option Float64
  Comment : String
  ActivityProgress : String
  GradingProgress : String
deriving DecidableEq, Repr

/-- Row of table `results` (unique on `line_item_id, context_id, user_id`); the
surrogate `id` column is never selected and is left out. -/
structure ResultRow where
  line_item_id : Int
  context_id : String
  user_id : String
  result_score : Option Float64
  result_maximum : Option Float64
  comment : String
  timestamp : Nat
  activity_progress : String
  grading_progress : String
deriving DecidableEq, Repr

/-- Embedding of `Result` of `pkg/repositories/scores`. -/
structure Result where
  UserID : String
  ResultScore : Option Float64
  ResultMaximum : Option Float64
  Comment : String
  Timestamp : Nat
  ActivityProgress : String
  GradingProgress : String
deriving DecidableEq, Repr

/-- Whether a result row has the key `(line_item_id, context_id, user_id)`. -/
def resultKeyIs (k : Int × String × String) (r : ResultRow) : Bool :=
  decide (r.line_item_id = k.1) && decide (r.context_id = k.2.1) && decide (r.user_id = k.2.2)

/-- Embedding of `SQLiteRepo.UpsertResultFromScore`: `INSERT … ON CONFLICT
(line_item_id, context_id, user_id) DO UPDATE SET` the six payload columns. -/
def UpsertResultFromScore (rows : List ResultRow) (lineItemID : Int) (contextID : String)
    (s : Score) : List ResultRow :=
  if rows.any (resultKeyIs (lineItemID, contextID, s.UserID)) then
    rows.map (fun r =>
      if resultKeyIs (lineItemID, contextID, s.UserID) r then
        { r with result_score := s.ScoreGiven, result_maximum := s.ScoreMaximum,
                 comment := s.Comment, timestamp := s.Timestamp,
                 activity_progress := s.ActivityProgress,
                 grading_progress := s.GradingProgress }
      else r)
  else
    rows ++ [⟨lineItemID, contextID, s.UserID, s.ScoreGiven, s.ScoreMaximum, s.Comment,
      s.Timestamp, s.ActivityProgress, s.GradingProgress⟩]

/-- Insertion of a result into a list ordered by `user_id`, for `ORDER BY
user_id ASC`. -/
def insertByUser (x : Result) : List Result → List Result
  | [] => [x]
  | y :: ys => if x.UserID ≤ y.UserID then x :: y :: ys else y :: insertByUser x ys

/-- Embedding of `SQLiteRepo.ListResultsByLineItem`. -/
def ListResultsByLineItem (rows : List ResultRow) (lineItemID : Int) (contextID : String) :
    List Result :=
  ((rows.filter (fun r => decide (r.line_item_id = lineItemID) &&
      decide (r.context_id = contextID))).map (fun r =>
    (⟨r.user_id, r.result_score, r.result_maximum, r.comment, r.timestamp,
      r.activity_progress, r.grading_progress⟩ : Result))).foldr insertByUser []

/-- One `UpsertResultFromScore` call of a history. -/
structure UpsertCall where
  lineItemID : Int
  contextID : String
  score : Score
deriving DecidableEq, Repr

/-- The key a call writes. -/
def UpsertCall.key (c : UpsertCall) : Int × String × String :=
  (c.lineItemID, c.contextID, c.score.UserID)

/-- The row that carries exactly the payload of a call. -/
def UpsertCall.row (c : UpsertCall) : ResultRow :=
  ⟨c.lineItemID, c.contextID, c.score.UserID, c.score.ScoreGiven, c.score.ScoreMaximum,
    c.score.Comment, c.score.Timestamp, c.score.ActivityProgress, c.score.GradingProgress⟩

/-- Run a sequence of upserts on a results table. -/
def runUpserts (rows : List ResultRow) : List UpsertCall → List ResultRow
  | [] => rows
  | c :: cs => runUpserts (UpsertResultFromScore rows c.lineItemID c.contextID c.score) cs

/-- The last call of a sequence that writes the key `k`, if any. -/
def lastCallFor (k : Int × String × String) : List UpsertCall → Option UpsertCall
  | [] => none
  | c :: cs =>
    match lastCallFor k cs with
    | some d => some d
    | none => if c.key = k then some c else none

/-- Embedding of `SQLiteRepo.CreateLineItemMapping` on table
`line_item_mappings`, whose two columns are each `UNIQUE`: the result is `true`
when the insert returned no error. -/
def CreateLineItemMapping (mappings : List (Int × String)) (lineItemID : Int)
    (resourceLinkID : String) : Bool × List (Int × String) :=
  if mappings.any (fun m => decide (m.1 = lineItemID) || decide (m.2 = resourceLinkID)) then
    (false, mappings)
  else (true, mappings ++ [(lineItemID, resourceLinkID)])

/-- Run a sequence of `CreateLineItemMapping` calls. -/
def runMappings (mappings : List (Int × String)) : List (Int × String) → List (Int × String)
  | [] => mappings
  | c :: cs => runMappings (CreateLineItemMapping mappings c.1 c.2).2 cs

/-- Embedding of `LineItem` of `pkg/repositories/scores`, also the row of table
`line_items`. -/
structure LineItem where
  ID : Int
  ContextID : String
  Label : String
  ResourceID : String
  ResourceLinkID : String
  Tag : String
  ScoreMaximum : Float64
  StartAt : Option Nat
  EndAt : Option Nat
  CreatedAt : Nat
  UpdatedAt : Nat
deriving DecidableEq, Repr

/-- Embedding of `SQLiteRepo.GetLineItem`: the row with that id in that
context, `none` for `sql.ErrNoRows`. -/
def GetLineItem (items : List LineItem) (id : Int) (contextID : String) : Option LineItem :=
  items.find? (fun r => decide (r.ID = id) && decide (r.ContextID = contextID))

/-- Embedding of `SQLiteRepo.UpdateLineItem`: `UPDATE line_items SET … WHERE
id = ? AND context_id = ?`; the statement returns no error whether or not a
row matched, and `li.UpdatedAt` is set. -/
def UpdateLineItem (items : List LineItem) (now : Nat) (li : LineItem) :
    LineItem × List LineItem :=
  ({ li with UpdatedAt := now },
    items.map (fun r =>
      if r.ID = li.ID ∧ r.ContextID = li.ContextID then
        { r with Label := li.Label, ResourceID := li.ResourceID,
                 ResourceLinkID := li.ResourceLinkID, Tag := li.Tag,
                 ScoreMaximum := li.ScoreMaximum, StartAt := li.StartAt, EndAt := li.EndAt,
                 UpdatedAt := now }
      else r))

/-- Embedding of `SQLiteRepo.DeleteLineItem`: the result is `false` for
`sql.ErrNoRows` (no row affected). -/
def DeleteLineItem (items : List LineItem) (id : Int) (contextID : String) :
    Bool × List LineItem :=
  let rest := items.filter (fun r => !(decide (r.ID = id) && decide (r.ContextID = contextID)))
  if items.length - rest.length = 0 then (false, rest) else (true, rest)

/-- The row id that an `INTEGER PRIMARY KEY AUTOINCREMENT` table gives the
next insert: one more than the largest of the ids in the table and the value
`seq` kept in `sqlite_sequence`. -/
def nextRowID (seq : Int) (ids : List Int) : Int := ids.foldl max seq + 1

/-- Embedding of `SQLiteRepo.CreateLineItem`: the new id, the table with the
inserted row, and the new `sqlite_sequence` value.  `created_at` and
`updated_at` are the time of the call. -/
def CreateLineItem (items : List LineItem) (seq : Int) (now : Nat) (li : LineItem) :
    Int × List LineItem × Int :=
  let id := nextRowID seq (items.map (fun r => r.ID))
  (id, items ++ [{ li with ID := id, CreatedAt := now, UpdatedAt := now }], id)

/-- Insertion of a line item into a list ordered by id, for `ORDER BY id ASC`. -/
def insertByID (x : LineItem) : List LineItem → List LineItem
  | [] => [x]
  | y :: ys => if x.ID ≤ y.ID then x :: y :: ys else y :: insertByID x ys

/-- Embedding of `SQLiteRepo.ListLineItems`. -/
def ListLineItems (items : List LineItem) (contextID : String) : List LineItem :=
  (items.filter (fun r => decide (r.ContextID = contextID))).foldr insertByID []

/-! ## AGS line-item endpoints (`handler_ags.go`) -/

/-- Value of a run of decimal digits, `none` when a character is no digit or
the run is empty. -/
def digitsValue : List Char → Option Nat
  | [] => none
  | cs => if cs.all Char.isDigit then some (cs.foldl (fun n c => 10 * n + (c.toNat - 48)) 0)
          else none

/-- Embedding of `strconv.ParseInt(s, 10, 64)`: an optional sign, decimal
digits, and the value within the range of `int64`; `none` for an error. -/
def ParseInt (s : String) : Option Int :=
  match s.data with
  | '-' :: ds =>
    match digitsValue ds with
    | some n => if n ≤ 2 ^ 63 then some (-(n : Int)) else none
    | none => none
  | '+' :: ds =>
    match digitsValue ds with
    | some n => if n < 2 ^ 63 then some (n : Int) else none
    | none => none
  | ds =>
    match digitsValue ds with
    | some n => if n < 2 ^ 63 then some (n : Int) else none
    | none => none

/-- Embedding of `strconv.FormatInt(i, 10)`. -/
def FormatInt (i : Int) : String :=
  if i < 0 then "-" ++ Nat.repr i.natAbs else Nat.repr i.toNat

/-- The parts of a request the AGS line-item handlers read: the two chi URL
parameters, `r.Host`, the `X-Forwarded-Proto` header, and the result of
decoding the JSON body into a `LineItem` (`none` when decoding fails; the
fields tagged `json:"-"` are zero). -/
structure AGSRequest where
  contextId : String
  lineItemId : String
  host : String
  forwardedProto : String
  body : Option LineItem
deriving DecidableEq, Repr

/-- Embedding of `apiLineItem`: the public shape with `id` as a URL. -/
structure ApiLineItem where
  ID : String
  Label : String
  ResourceID : String
  ResourceLinkID : String
  Tag : String
  ScoreMaximum : Float64
  StartAt : Option Nat
  EndAt : Option Nat
deriving DecidableEq, Repr

/-- What an AGS handler wrote as body: an `http.Error` text, the JSON of an
`apiLineItem`, the JSON of the repository's `LineItem` struct, the JSON of a
slice of `apiLineItem`, or nothing. -/
inductive AGSBody where
  | text (s : String)
  | apiItem (a : ApiLineItem)
  | lineItem (li : LineItem)
  | apiItems (xs : List ApiLineItem)
  | empty
deriving DecidableEq, Repr

/-- Response of an AGS handler: status, `Location` header (empty when not
set) and body. -/
structure AGSResponse where
  status : Nat
  location : String
  body : AGSBody
deriving DecidableEq, Repr

/-- Embedding of `buildBaseURL`. -/
def buildBaseURL (h : Platform) (r : AGSRequest) : String :=
  if h.publicBaseURL ≠ "" then h.publicBaseURL
  else (if r.forwardedProto = "" then "https" else r.forwardedProto) ++ "://" ++ r.host

/-- Embedding of `itemURL`; `pathEscape` is `url.PathEscape`. -/
def itemURL (pathEscape : String → String) (h : Platform) (r : AGSRequest)
    (contextID : String) (id : Int) : String :=
  buildBaseURL h r ++ "/api/ags/contexts/" ++ pathEscape contextID ++ "/lineitems/"
    ++ FormatInt id

/-- Embedding of `toAPI`. -/
def toAPI (pathEscape : String → String) (h : Platform) (r : AGSRequest) (li : LineItem) :
    ApiLineItem :=
  ⟨itemURL pathEscape h r li.ContextID li.ID, li.Label, li.ResourceID, li.ResourceLinkID,
    li.Tag, li.ScoreMaximum, li.StartAt, li.EndAt⟩

/-- Embedding of `Handler.agsGetLineItem`. -/
def agsGetLineItem (pathEscape : String → String) (h : Platform) (items : List LineItem)
    (r : AGSRequest) : AGSResponse :=
  match ParseInt r.lineItemId with
  | none => ⟨400, "", AGSBody.text "invalidLineItemId"⟩
  | some id =>
    match GetLineItem items id r.contextId with
    | none => ⟨404, "", AGSBody.text "404 page not found"⟩
    | some li => ⟨200, "", AGSBody.apiItem (toAPI pathEscape h r li)⟩

/-- Embedding of `Handler.agsUpdateLineItem`. -/
def agsUpdateLineItem (items : List LineItem) (now : Nat) (r : AGSRequest) :
    AGSResponse × List LineItem :=
  match ParseInt r.lineItemId with
  | none => (⟨400, "", AGSBody.text "invalidLineItemId"⟩, items)
  | some id =>
    match r.body with
    | none => (⟨400, "", AGSBody.text "invalidJson"⟩, items)
    | some li0 =>
      let li := { li0 with ID := id, ContextID := r.contextId }
      let res := UpdateLineItem items now li
      (⟨200, "", AGSBody.lineItem res.1⟩, res.2)

/-- Embedding of `Handler.agsDeleteLineItem`. -/
def agsDeleteLineItem (items : List LineItem) (r : AGSRequest) :
    AGSResponse × List LineItem :=
  match ParseInt r.lineItemId with
  | none => (⟨400, "", AGSBody.text "invalidLineItemId"⟩, items)
  | some id =>
    let res := DeleteLineItem items id r.contextId
    if res.1 = false then (⟨404, "", AGSBody.text "404 page not found"⟩, res.2)
    else (⟨204, "", AGSBody.empty⟩, res.2)

/-- Embedding of `Handler.agsListLineItems`; `rl` is the query value
`resource_link_id`. -/
def agsListLineItems (pathEscape : String → String) (h : Platform) (items : List LineItem)
    (rl : String) (r : AGSRequest) : AGSResponse :=
  let items0 := ListLineItems items r.contextId
  let items1 := if rl ≠ "" then items0.filter (fun li => decide (li.ResourceLinkID = rl))
                else items0
  ⟨200, "", AGSBody.apiItems (items1.map (toAPI pathEscape h r))⟩

/-- Embedding of `Handler.agsCreateLineItem`; `seq` is the `sqlite_sequence`
value of table `line_items`. -/
def agsCreateLineItem (pathEscape : String → String) (h : Platform) (items : List LineItem)
    (seq : Int) (now : Nat) (r : AGSRequest) : AGSResponse × List LineItem × Int :=
  match r.body with
  | none => (⟨400, "", AGSBody.text "invalidJson"⟩, items, seq)
  | some li0 =>
    let li := { li0 with ContextID := r.contextId }
    if li.ScoreMaximum = 0 then (⟨400, "", AGSBody.text "scoreMaximumIsRequired"⟩, items, seq)
    else
      let res := CreateLineItem items seq now li
      let li1 := { li with ID := res.1, CreatedAt := now, UpdatedAt := now }
      (⟨201, itemURL pathEscape h r r.contextId res.1,
        AGSBody.apiItem (toAPI pathEscape h r li1)⟩, res.2.1, res.2.2)

/-! ## JWKS cache (`pkg/common/jwkscache/cache.go`)

Instants and durations of the cache are counted in nanoseconds; a
`time.Duration` is a signed 64-bit count. -/

/-- A cached `entry`: the parsed key set (the identities of its keys), the
two deadlines, and the revalidation metadata (`lastModified` is `none` for the
zero time).  An entry is only ever built from the set `jwk.Parse` returned, so
its `set` is never nil. -/
structure CacheEntry where
  set : List String
  expiry : Int
  allowStaleUntil : Int
  etag : String
  lastModified : Option Int
deriving DecidableEq, Repr

/-- The map `entries` of a `memoryCache`. -/
abbrev CacheEntries := String → Option CacheEntry

/-- The two durations a `memoryCache` is created with. -/
structure CacheConfig where
  defaultTTL : Int
  staleGrace : Int
deriving DecidableEq, Repr

/-- The response headers and body the cache reads; `body` is `none` when
reading it fails. -/
structure HTTPResponse where
  status : Nat
  cacheControl : String
  expires : String
  etag : String
  lastModified : String
  body : Option String
deriving DecidableEq, Repr

/-- Outcome of the HTTP exchange of one `fetch`: the request could not be
built, `client.Do` returned an error, or a response arrived. -/
inductive FetchOutcome where
  | requestError
  | netError
  | response (r : HTTPResponse)
deriving DecidableEq, Repr

/-- Loop of `strings.Split(v, ",")`: `cur` holds the current part, last
character first. -/
def splitComma (cur : List Char) : List Char → List String
  | [] => [String.mk cur.reverse]
  | c :: cs =>
    if c = ',' then String.mk cur.reverse :: splitComma [] cs else splitComma (c :: cur) cs

/-- The value a Go map holds under `key` after the assignments of the list
were made in order. -/
def mapGet (m : List (String × String)) (key : String) : Option String :=
  (m.reverse.find? (fun p => decide (p.1 = key))).map Prod.snd

/-- Embedding of `parseCacheControl`, as the list of map assignments it makes.
The parts are lower-cased in ASCII: no other character lower-cases to a letter
of `no-store` or `max-age=`, nor to a digit. -/
def parseCacheControl (v : String) : List (String × String) :=
  (splitComma [] v.data).filterMap (fun part =>
    let p := TrimSpace (String.mk (part.data.map Char.toLower))
    if p = "" then none
    else if p.data.take 8 = "max-age=".data then some ("max-age", String.mk (p.data.drop 8))
    else some (p, "true"))

/-- Whether a `Cache-Control` value contains the directive `no-store`: one of
its comma-separated parts is `no-store` up to case and surrounding space. -/
def hasNoStore (v : String) : Bool :=
  (splitComma [] v.data).any (fun part =>
    decide (TrimSpace (String.mk (part.data.map Char.toLower)) = "no-store"))

/-- Embedding of `strconv.Atoi` on a 64-bit platform. -/
def Atoi (s : String) : Option Int := ParseInt s

/-- A signed 64-bit integer after wrap-around. -/
def wrapInt64 (x : Int) : Int := (x + 2 ^ 63) % 2 ^ 64 - 2 ^ 63

/-- Embedding of `computeExpiry`; `parseHTTPTime` is
`time.Parse(http.TimeFormat, ·)` and `now` the reading of `time.Now()`. -/
def computeExpiry (parseHTTPTime : String → Option Int) (now : Int) (cacheControl : String)
    (expires : String) (defTTL staleGrace : Int) : Int × Int :=
  let cc := parseCacheControl cacheControl
  if mapGet cc "no-store" = some "true" then (now, now)
  else
    match (mapGet cc "max-age").bind Atoi with
    | some secs =>
      let d := wrapInt64 (secs * 1000000000)
      (now + d, now + d + staleGrace)
    | none =>
      match (if expires ≠ "" then parseHTTPTime expires else none) with
      | some t => (t, t + staleGrace)
      | none => (now + defTTL, now + defTTL + staleGrace)

/-- Embedding of `memoryCache.Invalidate`. -/
def Invalidate (c : CacheEntries) (url : String) : CacheEntries :=
  fun u => if u = url then none else c u

/-- Embedding of `memoryCache.getFresh` at clock reading `now`. -/
def getFresh (c : CacheEntries) (now : Int) (url : String) : Option (List String) :=
  match c url with
  | some e => if now < e.expiry then some e.set else none
  | none => none

/-- Embedding of `memoryCache.fetch`; `jwkParse` is `jwk.Parse`, `out` what the
HTTP exchange gave and `now` the clock reading after it. -/
def fetch (jwkParse : String → Option (List String)) (parseHTTPTime : String → Option Int)
    (cfg : CacheConfig) (c : CacheEntries) (now : Int) (url : String) (out : FetchOutcome) :
    Except String (List String) × CacheEntries :=
  match out with
  | FetchOutcome.requestError => (Except.error "invalid request", c)
  | FetchOutcome.netError =>
    match c url with
    | some e =>
      if now < e.allowStaleUntil then (Except.ok e.set, c) else (Except.error "network error", c)
    | none => (Except.error "network error", c)
  | FetchOutcome.response resp =>
    if resp.status = 304 then
      match c url with
      | none => (Except.error "jwkscache: 304 but no cached entry", c)
      | some e =>
        let times := computeExpiry parseHTTPTime now resp.cacheControl resp.expires
          cfg.defaultTTL cfg.staleGrace
        (Except.ok e.set,
          fun u => if u = url then
            some { e with expiry := times.1, allowStaleUntil := times.2 } else c u)
    else if resp.status = 200 then
      match resp.body with
      | none => (Except.error "read error", c)
      | some body =>
        match jwkParse body with
        | none => (Except.error "parse error", c)
        | some set =>
          let times := computeExpiry parseHTTPTime now resp.cacheControl resp.expires
            cfg.defaultTTL cfg.staleGrace
          let newE : CacheEntry :=
            { set := set, expiry := times.1, allowStaleUntil := times.2, etag := resp.etag,
              lastModified := if resp.lastModified ≠ "" then parseHTTPTime resp.lastModified
                              else none }
          (Except.ok set, fun u => if u = url then some newE else c u)
    else
      match c url with
      | some e =>
        if now < e.allowStaleUntil then (Except.ok e.set, c)
        else (Except.error ("jwkscache: unexpected status " ++ Nat.repr resp.status), c)
      | none => (Except.error ("jwkscache: unexpected status " ++ Nat.repr resp.status), c)

/-- Embedding of `memoryCache.Get`: `t0` is the clock reading of the fast
path, `t1` the reading after the HTTP exchange. -/
def Get (jwkParse : String → Option (List String)) (parseHTTPTime : String → Option Int)
    (cfg : CacheConfig) (c : CacheEntries) (t0 t1 : Int) (url : String) (out : FetchOutcome) :
    Except String (List String) × CacheEntries :=
  match getFresh c t0 url with
  | some set => (Except.ok set, c)
  | none => fetch jwkParse parseHTTPTime cfg c t1 url out

/-- The cache right after `New`. -/
def emptyCache : CacheEntries := fun _ => none

/-- A call on the cache, with the clock readings and the HTTP outcome it
meets. -/
inductive CacheCall where
  | get (t0 t1 : Int) (url : String) (out : FetchOutcome)
  | invalidate (url : String)
deriving DecidableEq, Repr

/-- The entries one call leaves. -/
def stepCache (jwkParse : String → Option (List String))
    (parseHTTPTime : String → Option Int) (cfg : CacheConfig) (c : CacheEntries) :
    CacheCall → CacheEntries
  | CacheCall.get t0 t1 url out => (Get jwkParse parseHTTPTime cfg c t0 t1 url out).2
  | CacheCall.invalidate url => Invalidate c url

/-- The entries a sequence of calls leaves. -/
def execCache (jwkParse : String → Option (List String))
    (parseHTTPTime : String → Option Int) (cfg : CacheConfig) (c : CacheEntries) :
    List CacheCall → CacheEntries
  | [] => c
  | call :: rest =>
    execCache jwkParse parseHTTPTime cfg (stepCache jwkParse parseHTTPTime cfg c call) rest

/-- Whether an HTTP outcome is a response with status 200 or 304. -/
def FetchOutcome.is200or304 : FetchOutcome → Bool
  | FetchOutcome.response r => decide (r.status = 200) || decide (r.status = 304)
  | _ => false

/-- Whether a call is a `Get` of `url` that went to the network, obtained a
200 or a 304, and returned a key set: a successful fetch of `url`. -/
def fetchedOK (jwkParse : String → Option (List String))
    (parseHTTPTime : String → Option Int) (cfg : CacheConfig) (c : CacheEntries)
    (url : String) : CacheCall → Bool
  | CacheCall.get t0 t1 u out =>
    decide (u = url) && (getFresh c t0 u).isNone && out.is200or304 &&
      (match (Get jwkParse parseHTTPTime cfg c t0 t1 u out).1 with
       | Except.ok _ => true
       | Except.error _ => false)
  | CacheCall.invalidate _ => false

/-- Whether no call of a sequence, run from `c`, is a successful fetch of
`url` or an `Invalidate(url)`. -/
def quietFor (jwkParse : String → Option (List String))
    (parseHTTPTime : String → Option Int) (cfg : CacheConfig) (url : String) :
    CacheEntries → List CacheCall → Bool
  | _, [] => true
  | c, call :: rest =>
    !fetchedOK jwkParse parseHTTPTime cfg c url call &&
      !decide (call = CacheCall.invalidate url) &&
      quietFor jwkParse parseHTTPTime cfg url (stepCache jwkParse parseHTTPTime cfg c call) rest

/-- The deadline invariant of the cache: no entry may be served stale for a
shorter time than it is fresh. -/
def cacheInv (c : CacheEntries) : Prop :=
  ∀ u e, c u = some e → e.expiry ≤ e.allowStaleUntil

/-! ## Launch initiator (`handler_launch.go`) -/

/-- The decoded launch request (`reqBody`), from JSON or from form values. -/
structure LaunchBody where
  Issuer : String
  ClientID : String
  LoginInitiationURL : String
  TargetLinkURI : String
  ContextID : String
  LoginHint : String
  LTIMessageHint : String
  ResourceLinkID : String
deriving DecidableEq, Repr

/-- The fields of the `http.Cookie` that `launchStart` sets. -/
structure SetCookie where
  name : String
  value : String
  path : String
  maxAge : Int
  secure : Bool
  httpOnly : Bool
  sameSite : String
deriving DecidableEq, Repr

/-- What `launchStart` wrote: the status, the `http.Error` text, the cookie,
and for a redirect the target: the parsed login initiation URL with the query
values that are encoded into its `RawQuery`. -/
structure LaunchResponse where
  status : Nat
  body : String
  cookie : Option SetCookie
  location : Option (URL × List (String × String))
deriving DecidableEq, Repr

/-- Embedding of `url.Values.Set`: the values under `key` are replaced by the
single value `value`. -/
def valuesSet (vs : List (String × String)) (key value : String) : List (String × String) :=
  vs.filter (fun p => !decide (p.1 = key)) ++ [(key, value)]

/-- Embedding of `Handler.launchStart` with a configured validation
repository.  `body` is the decoded request (`none` when the JSON body does not
decode), `parse` is `url.Parse`, `query` gives the values `u.Query()` of the
parsed login initiation URL, `state` and `nonce` are the two values
`uuid.NewString()` draws. -/
def launchStart (parse : String → Option URL) (query : String → List (String × String))
    (db : ValidationDB) (now : Nat) (state nonce : String) (body : Option LaunchBody) :
    LaunchResponse × ValidationDB :=
  match body with
  | none => (⟨400, "invalid JSON body", none, none⟩, db)
  | some b =>
    if b.Issuer = "" ∨ b.ClientID = "" ∨ b.LoginInitiationURL = "" ∨ b.TargetLinkURI = "" then
      (⟨400,
        "missing required fields: issuer, client_id, login_initiation_url, target_link_uri",
        none, none⟩, db)
    else
      match parse b.LoginInitiationURL with
      | none => (⟨400, "invalid login_initiation_url", none, none⟩, db)
      | some u =>
        let q0 := query b.LoginInitiationURL
        let q1 := valuesSet (valuesSet q0 "iss" b.Issuer) "client_id" b.ClientID
        let q2 := if b.LTIMessageHint ≠ "" then valuesSet q1 "lti_message_hint" b.LTIMessageHint
                  else q1
        let q3 := valuesSet q2 "target_link_uri" b.TargetLinkURI
        let q4 := if b.LoginHint ≠ "" then valuesSet q3 "login_hint" b.LoginHint else q3
        let q5 := if b.ResourceLinkID ≠ "" then valuesSet q4 "resource_link_id" b.ResourceLinkID
                  else q4
        let exp := now + 15 * 60
        let res := CreateOIDCState db now state b.ClientID b.TargetLinkURI b.ContextID
          b.ResourceLinkID exp
        if res.1 = false then (⟨500, "failed to create state", none, none⟩, res.2)
        else
          (⟨302, "", some ⟨"lti_corr", state, "/", 120, true, true, "Lax"⟩,
            some (u, valuesSet (valuesSet q5 "state" state) "nonce" nonce)⟩, res.2)

/-- A launch request as in the first scenario of the specification. -/
def sampleLaunch : LaunchBody :=
  ⟨"https://platform.example", "c1", "https://tool/oidc", "https://tool/launch", "ctx", "",
    "", "rl"⟩

/-! ## Deep link return (`handler_deeplink.go`) -/

/-- A value that `json.Unmarshal` stores into an `any`: `nil`, `bool`,
`float64`, `string`, `[]any` or `map[string]any` (the entries of the map in
some order, each key once). -/
inductive JSON where
  | null
  | bool (b : Bool)
  | num (x : Float64)
  | str (s : String)
  | arr (xs : List JSON)
  | obj (kvs : List (String × JSON))

/-- The map index `m[key]`: the value and whether the key is present. -/
def JSON.get (kvs : List (String × JSON)) (key : String) : Option JSON :=
  (kvs.find? (fun p => decide (p.1 = key))).map (fun p => p.2)

/-- The type assertion `m[key].(string)` with the default `""` on a miss. -/
def JSON.getString (kvs : List (String × JSON)) (key : String) : String :=
  match JSON.get kvs key with
  | some (JSON.str v) => v
  | _ => ""

/-- The type assertion `m[key].(float64)` with the default 0 on a miss.  The
`json.Number` branch of the handler is not reachable, since the payload is
decoded without `UseNumber`. -/
def JSON.getNumber (kvs : List (String × JSON)) (key : String) : Float64 :=
  match JSON.get kvs key with
  | some (JSON.num v) => v
  | _ => 0

/-- The type assertion `m[key].(map[string]any)`. -/
def JSON.getObject (kvs : List (String × JSON)) (key : String) :
    Option (List (String × JSON)) :=
  match JSON.get kvs key with
  | some (JSON.obj o) => some o
  | _ => none

/-- Embedding of `DeepLinkSelection` of `pkg/repositories/lti`, also the row of
table `deeplink_selections`. -/
structure DeepLinkSelection where
  ID : Int
  ClientID : String
  ToolName : String
  URL : String
  ContentItemJSON : String
  CreatedAt : Nat
deriving DecidableEq, Repr

/-- The tables that `deeplinkReturn` writes: `deeplink_selections` and
`line_items`, each with the value of its `sqlite_sequence` row, and
`line_item_mappings`. -/
structure DLStore where
  selections : List DeepLinkSelection
  selSeq : Int
  items : List LineItem
  itemSeq : Int
  mappings : List (Int × String)
deriving DecidableEq, Repr

/-- Embedding of `SQLiteRepo.CreateDeepLinkSelection`: the new id, the table
and its sequence.  `insertOK` says whether the `INSERT` succeeded; on an error
the id is 0 and nothing is stored. -/
def CreateDeepLinkSelection (sels : List DeepLinkSelection) (seq : Int) (now : Nat)
    (insertOK : Bool) (sel : DeepLinkSelection) : Int × List DeepLinkSelection × Int :=
  if insertOK then
    let id := nextRowID seq (sels.map (fun r => r.ID))
    (id, sels ++ [{ sel with ID := id, CreatedAt := now }], id)
  else (0, sels, seq)

/-- The verification loop of `deeplinkReturn`: the name of the first
registered tool, in `ListTools` order, with a JWKS URL whose fetched key set
validates the token; `""` when there is none.  `fetch` is `jwk.Fetch`. -/
def matchTool (wire : String → Option JWT) (fetch : String → Option (List String)) (now : Nat)
    (idToken : String) : List Tool → String
  | [] => ""
  | t :: ts =>
    if t.KeySetURL = "" then matchTool wire fetch now idToken ts
    else
      match fetch t.KeySetURL with
      | none => matchTool wire fetch now idToken ts
      | some set =>
        match jwtParse wire now idToken set none with
        | some _ => t.Name
        | none => matchTool wire fetch now idToken ts

/-- The client id that `deeplinkReturn` reads from `aud`: the string, or the
first element of an array when that is a string. -/
def audClientID (payload : List (String × JSON)) : String :=
  match JSON.get payload "aud" with
  | some (JSON.str t) => t
  | some (JSON.arr (JSON.str s :: _)) => s
  | _ => ""

/-- The body of the loop over `content_items` for one element `it`.  `marshal`
is `json.Marshal` on a map (`none` for an error), `insertOK` says whether the
insert of the selection succeeded.  Errors of the other two inserts that do not
come from a constraint are not modelled. -/
def deeplinkItem (marshal : List (String × JSON) → Option String)
    (clientID matchedTool contextId : String) (now : Nat) (insertOK : Bool) (st : DLStore)
    (it : JSON) : DLStore :=
  match it with
  | JSON.obj m =>
    let url := JSON.getString m "url"
    let fullJSON := match marshal m with
      | some b => b
      | none => "\x7b\x7d"
    let sel := CreateDeepLinkSelection st.selections st.selSeq now insertOK
      ⟨0, clientID, matchedTool, url, fullJSON, 0⟩
    let st1 := { st with selections := sel.2.1, selSeq := sel.2.2 }
    let resourceLinkID := sel.1
    match JSON.getObject m "lineItem" with
    | some liRaw =>
      let label := JSON.getString liRaw "label"
      let scoreMax := JSON.getNumber liRaw "scoreMaximum"
      if label ≠ "" ∧ scoreMax > 0 ∧ resourceLinkID ≠ 0 ∧ contextId ≠ "" then
        let li : LineItem :=
          ⟨0, contextId, label, "", FormatInt resourceLinkID, "", scoreMax, none, none, 0, 0⟩
        let res := CreateLineItem st1.items st1.itemSeq now li
        let mp := CreateLineItemMapping st1.mappings res.1 (FormatInt resourceLinkID)
        { st1 with items := res.2.1, itemSeq := res.2.2, mappings := mp.2 }
      else st1
    | none => st1
  | _ => st

/-- The loop over `content_items`; `insertOK i` is the outcome of the selection
insert for the element at index `i`. -/
def deeplinkItems (marshal : List (String × JSON) → Option String)
    (clientID matchedTool contextId : String) (now : Nat) (insertOK : Nat → Bool) :
    Nat → DLStore → List JSON → DLStore
  | _, st, [] => st
  | i, st, it :: rest =>
    deeplinkItems marshal clientID matchedTool contextId now insertOK (i + 1)
      (deeplinkItem marshal clientID matchedTool contextId now (insertOK i) st it) rest

/-- The part of `deeplinkReturn` after the verification loop: the payload is
decoded and the content items are persisted.  `decodePayload` splits the
compact form at the dots, base64url-decodes the middle segment and unmarshals
it (`none` when a step fails); a payload that is no JSON object gives the empty
map. -/
def deeplinkPersist (decodePayload : String → Option JSON)
    (marshal : List (String × JSON) → Option String) (now : Nat) (insertOK : Nat → Bool)
    (matchedTool idToken : String) (st : DLStore) : DLStore :=
  let payload : List (String × JSON) :=
    match decodePayload idToken with
    | some (JSON.obj m) => m
    | _ => []
  let clientID := audClientID payload
  let contextId := JSON.getString payload "https://purl.imsglobal.org/spec/lti-dl/claim/data"
  match JSON.get payload "https://purl.imsglobal.org/spec/lti-dl/claim/content_items" with
  | some (JSON.arr xs) => deeplinkItems marshal clientID matchedTool contextId now insertOK 0 st xs
  | _ => st

/-- What `deeplinkReturn` wrote: the status, the `http.Error` text (empty for
the result page) and the tool name shown after `verified_with_tool`. -/
structure DeepLinkResponse where
  status : Nat
  body : String
  verifiedWith : String
deriving DecidableEq, Repr

/-- Embedding of `Handler.deeplinkReturn`. -/
def deeplinkReturn (wire : String → Option JWT) (fetch : String → Option (List String))
    (decodePayload : String → Option JSON) (marshal : List (String × JSON) → Option String)
    (tools : List Tool) (now : Nat) (insertOK : Nat → Bool) (st : DLStore) (r : Request) :
    DeepLinkResponse × DLStore :=
  let idToken := firstNonEmpty [valuesGet r.form "JWT", valuesGet r.form "id_token",
    valuesGet r.query "JWT", valuesGet r.query "id_token"]
  if idToken = "" then
    (⟨400, "missing deep linking JWT (expected form field \x27JWT\x27)", ""⟩, st)
  else
    let matchedTool := matchTool wire fetch now idToken tools
    (⟨200, "", matchedTool⟩,
      deeplinkPersist decodePayload marshal now insertOK matchedTool idToken st)

/-- A selection without its `tool_name`. -/
def DeepLinkSelection.eraseTool (s : DeepLinkSelection) : DeepLinkSelection :=
  { s with ToolName := "" }

/-- The number of JSON objects among the content items. -/
def countObjects : List JSON → Nat
  | [] => 0
  | JSON.obj _ :: rest => countObjects rest + 1
  | _ :: rest => countObjects rest

/-- The tables with the `tool_name` of every selection blanked. -/
def DLStore.eraseTool (st : DLStore) : DLStore :=
  { st with selections := st.selections.map DeepLinkSelection.eraseTool }

/-! ## Roster store and NRPS endpoint (`roster_sqlite.go`, `handler_nrps.go`) -/

/-- Embedding of `Member` of `pkg/repositories/roster`. -/
structure Member where
  UserID : String
  Name : String
  GivenName : String
  FamilyName : String
  Email : String
  Roles : List String
  Status : String
  UpdatedAt : Nat
deriving DecidableEq, Repr

/-- Row of table `members`: the `AUTOINCREMENT` key, the context, and the
remaining columns as the `Member` that the scan of the row gives. -/
structure MemberRow where
  id : Int
  context_id : String
  member : Member
deriving DecidableEq, Repr

/-- Insertion of a row into a list ordered by id, for `ORDER BY id ASC`. -/
def insertRowByID (x : MemberRow) : List MemberRow → List MemberRow
  | [] => [x]
  | y :: ys => if x.id ≤ y.id then x :: y :: ys else y :: insertRowByID x ys

/-- The rows of a context in the order `ORDER BY id ASC`. -/
def contextRows (rows : List MemberRow) (contextID : String) : List MemberRow :=
  (rows.filter (fun r => decide (r.context_id = contextID))).foldr insertRowByID []

/-- Embedding of `SQLiteRepo.ListMembersPage`: the page and the total count.  The
page is `none` for the nil slice that results when the query gives no row; a
negative `LIMIT` means no limit and a negative `OFFSET` counts as 0, as in
SQLite. -/
def ListMembersPage (rows : List MemberRow) (contextID : String) (offset limit : Int) :
    Option (List Member) × Int :=
  let total := (rows.filter (fun r => decide (r.context_id = contextID))).length
  let skipped := ((contextRows rows contextID).map (fun r => r.member)).drop offset.toNat
  let page := if limit < 0 then skipped else skipped.take limit.toNat
  (if page.isEmpty then none else some page, (total : Int))

/-- The parts of a request that `nrpsListMembers` reads: the chi URL
parameter, `r.URL.Path`, `r.Host`, the two forwarding headers, whether the
connection uses TLS, and `r.URL.Query()`. -/
structure NRPSRequest where
  contextId : String
  path : String
  host : String
  forwardedProto : String
  forwardedHost : String
  tls : Bool
  query : List (String × String)
deriving DecidableEq, Repr

/-- Embedding of `schemeHost`. -/
def schemeHost (r : NRPSRequest) : String × String :=
  (if r.forwardedProto = "" then (if r.tls then "https" else "http") else r.forwardedProto,
   if r.forwardedHost = "" then r.host else r.forwardedHost)

/-- Embedding of `absoluteURL`. -/
def absoluteURL (r : NRPSRequest) : String :=
  (schemeHost r).1 ++ "://" ++ (schemeHost r).2 ++ r.path

/-- The `url.URL` that `buildPageURL` renders with `u.String()`: scheme, host
and path, and the query values that are encoded into `RawQuery`. -/
structure PageURL where
  Scheme : String
  Host : String
  Path : String
  query : List (String × String)
deriving DecidableEq, Repr

/-- Embedding of `buildPageURL`, before the rendering to a string. -/
def buildPageURL (r : NRPSRequest) (offset limit : Int) : PageURL :=
  ⟨(schemeHost r).1, (schemeHost r).2, r.path,
    valuesSet (valuesSet r.query "offset" (FormatInt offset)) "limit" (FormatInt limit)⟩

/-- The effective limit of `nrpsListMembers`: the `limit` parameter when it
is a positive `int`, else 50. -/
def pageLimit (q : List (String × String)) : Int :=
  let ls := valuesGet q "limit"
  if ls ≠ "" then
    match Atoi ls with
    | some v => if v > 0 then v else 50
    | none => 50
  else 50

/-- The effective offset of `nrpsListMembers`: the `offset` parameter when
it is a non-negative `int`, else 0. -/
def pageOffset (q : List (String × String)) : Int :=
  let os := valuesGet q "offset"
  if os ≠ "" then
    match Atoi os with
    | some v => if v ≥ 0 then v else 0
    | none => 0
  else 0

/-- What `nrpsListMembers` wrote: the status, the URL of the `Link` header
with `rel="next"` when the header was added, and the fields `id`, `context.id`
and `members` of the body (`none` would be JSON `null`). -/
structure NRPSResponse where
  status : Nat
  link : Option PageURL
  id : String
  contextId : String
  members : Option (List Member)
deriving DecidableEq, Repr

/-- Embedding of `Handler.nrpsListMembers`; `offset+limit` is an `int` sum and wraps
around at 64 bits.  Storage errors are not modelled. -/
def nrpsListMembers (rows : List MemberRow) (r : NRPSRequest) : NRPSResponse :=
  let limit := pageLimit r.query
  let offset := pageOffset r.query
  let res := ListMembersPage rows r.contextId offset limit
  let link :=
    if wrapInt64 (offset + limit) < res.2 then
      some (buildPageURL r (wrapInt64 (offset + limit)) limit)
    else none
  let page := match res.1 with
    | none => []
    | some p => p
  ⟨200, link, absoluteURL r, r.contextId, some page⟩

/-- A client that follows the `Link` headers: it requests `r`, and while the
response carries a next URL it requests that URL (the same path with the query
values of the URL), for at most `fuel` requests.  The responses are returned
in order. -/
def followPages (rows : List MemberRow) : Nat → NRPSRequest → List NRPSResponse
  | 0, _ => []
  | fuel + 1, r =>
    let resp := nrpsListMembers rows r
    match resp.link with
    | none => [resp]
    | some u => resp :: followPages rows fuel { r with query := u.query }

/-- The members of all pages of a list of responses, in order. -/
def pagesMembers : List NRPSResponse → List Member
  | [] => []
  | resp :: rest =>
    (match resp.members with
      | some p => p
      | none => []) ++ pagesMembers rest

/-! ## Key manager (`pkg/common/keys/jwks.go`) -/

/-- The package variables of `keys`: whether `once` has run, the key id, the
private key and the key set (the key ids it holds). -/
structure KeysState where
  onceDone : Bool
  platformKid : String
  platformKey : Option String
  platformJWKS : Option (List String)
deriving DecidableEq, Repr

/-- What the initialiser reads from outside: `PLATFORM_KID`, the value
`uuid.NewString()` would draw, the RSA key that `PLATFORM_PRIVATE_KEY_B64` and
`PLATFORM_PRIVATE_KEY_PEM` decode to (`none` when unset or not decodable), the
result of `rsa.GenerateKey`, and the error of `jwk.FromRaw` if any. -/
structure KeysEnv where
  PLATFORM_KID : String
  uuid : String
  keyB64 : Option String
  keyPEM : Option String
  generated : Except String String
  fromRawErr : Option String
deriving Repr

/-- The package variables before the first call. -/
def keysInitial : KeysState := ⟨false, "", none, none⟩

/-- The tail of the initialiser once a key `k` is at hand: the key is stored,
then the public JWK is built and put into a new set. -/
def initWithKey (env : KeysEnv) (s : KeysState) (kid k : String) : Option String × KeysState :=
  let s2 := { s with platformKey := some k }
  match env.fromRawErr with
  | some err => (some err, s2)
  | none => (none, { s2 with platformJWKS := some [kid] })

/-- Embedding of `keys.Init`: the returned error is the local `initErr`, which
only the run of the function passed to `once.Do` assigns; `none` is `nil`. -/
def Init (env : KeysEnv) (s : KeysState) : Option String × KeysState :=
  if s.onceDone then (none, s)
  else
    let kid := if env.PLATFORM_KID = "" then env.uuid else env.PLATFORM_KID
    let s1 := { s with onceDone := true, platformKid := kid }
    match env.keyB64 with
    | some k => initWithKey env s1 kid k
    | none =>
      match env.keyPEM with
      | some k => initWithKey env s1 kid k
      | none =>
        match env.generated with
        | Except.error err => (some err, s1)
        | Except.ok gen => initWithKey env s1 kid gen

/-- Embedding of `keys.PrivateKey`. -/
def PrivateKey (s : KeysState) : Option String := s.platformKey

/-- Embedding of `keys.Kid`. -/
def Kid (s : KeysState) : String := s.platformKid

/-- A sequence of `Init` calls: the errors they return, in order, and the
final package variables. -/
def runInit : KeysState → List KeysEnv → List (Option String) × KeysState
  | s, [] => ([], s)
  | s, env :: envs =>
    let r := Init env s
    let rest := runInit r.2 envs
    (r.1 :: rest.1, rest.2)

/-- The `Init` calls of the handlers while the server runs, each with the error
it returned and the package variables after it. -/
def initCalls : KeysState → List KeysEnv → List (Option String × KeysState)
  | _, [] => []
  | s, env :: envs => Init env s :: initCalls (Init env s).2 envs

/-- The `Init` calls of a run of the server (`cmd/server/server.go`): `main`
calls `keys.Init()` before anything else and exits when it returns an error;
otherwise the HTTP server is started and the handlers make the later calls. -/
def serverInitCalls (env : KeysEnv) (later : List KeysEnv) : List (Option String × KeysState) :=
  match (Init env keysInitial).1 with
  | some _ => [Init env keysInitial]
  | none => Init env keysInitial :: initCalls (Init env keysInitial).2 later

/-- An environment without configured key in which key generation succeeds. -/
def sampleKeysEnvOK : KeysEnv := ⟨"", "kid-1", none, none, Except.ok "generated-key", none⟩

/-- An environment without configured key in which key generation fails. -/
def sampleKeysEnv : KeysEnv :=
  ⟨"", "kid-1", none, none, Except.error "entropy source failed", none⟩

/-! ## Sample data for the concrete checks -/

/-- A platform with an initialised signing key. -/
def samplePlatform : Platform := ⟨"https://platform.example", "", some "platform-kid"⟩

/-- A validation database holding one fresh state created by a launch. -/
def sampleDB : ValidationDB :=
  ⟨[], [⟨"s1", "c1", "https://tool/launch", "rl", "ctx", 900, 0⟩]⟩

/-- A registered tool. -/
def sampleTool : Tool :=
  ⟨1, "Tool", "c1", "https://tool/auth", "https://tool/deeplink", "https://tool/launch",
    "https://tool/jwks"⟩

/-- The same tool registered with a launch URL that lacks its scheme. -/
def sampleToolNoScheme : Tool :=
  ⟨1, "Tool", "c1", "https://tool/auth", "https://tool/deeplink", "127.0.0.1:3000/launch",
    "https://tool/jwks"⟩

/-- The authorization request of the launch, carrying the correlation cookie. -/
def sampleAuthRequest : Request :=
  ⟨[], [("client_id", "c1"), ("redirect_uri", "https://tool/launch"), ("nonce", "n1"),
        ("state", "tool-state")], [("lti_corr", "s1")]⟩

/-- The scopes a token carries: the set `hasAllScopes` reads from its scope
claim, and none when the claim is absent. -/
def tokenScopes (t : JWT) : List String :=
  match t.scope with
  | some v => scopeSet v
  | none => []

/-- A token signed with the sample platform key, valid from 100 until 1000. -/
def sampleToken (aud : List String) (scope : Option ClaimValue) : JWT :=
  ⟨"platform-kid", "https://platform.example", "c1", aud, 1000, 100, 0, "at-1", scope⟩

/-- A decoder that knows one compact serialisation, `tok`, standing for `t`. -/
def wireOf (t : JWT) : String → Option JWT :=
  fun s => if s = "tok" then some t else none

/-- The NRPS membership scope. -/
def nrpsScope : String :=
  "https://purl.imsglobal.org/spec/lti-nrps/scope/contextmembership.readonly"

/-- A client assertion of the sample tool without an `exp` claim: signed with
the tool's key, `iss = sub = c1`, the token endpoint as audience, issued at
100, jti `jti-1`. -/
def assertionNoExp : JWT :=
  ⟨"tool-kid", "c1", "c1", ["https://platform.example/api/oauth2/token"], 0, 100, 0, "jti-1",
    none⟩

/-- The JWKS of the sample tool, served at its `key_set_url`. -/
def sampleJWKS : String → Option (List String) :=
  fun url => if url = "https://tool/jwks" then some ["tool-kid"] else none

/-- A token request presenting the compact serialisation `tok`. -/
def sampleTokenForm : List (String × String) :=
  [("grant_type", "client_credentials"),
   ("scope", "https://purl.imsglobal.org/spec/lti-ags/scope/score"),
   ("client_assertion_type", "urn:ietf:params:oauth:client-assertion-type:jwt-bearer"),
   ("client_assertion", "tok")]

/-- A line item with id 1 in context `ctxA`. -/
def sampleLineItem : LineItem :=
  ⟨1, "ctxA", "Quiz 1", "", "", "", 10, none, none, 50, 50⟩

/-- A request addressing line item 1 under another context, `ctxB`, with the
body `{"label":"Hacked","scoreMaximum":5}`. -/
def sampleForeignRequest : AGSRequest :=
  ⟨"ctxB", "1", "platform.example", "", some ⟨0, "", "Hacked", "", "", "", 5, none, none, 0, 0⟩⟩

/-- A cache holding one entry for the sample tool's JWKS URL, expired at 100
and servable stale until 200. -/
def sampleCache : CacheEntries :=
  fun u => if u = "https://tool/jwks" then some ⟨["tool-kid"], 100, 200, "v1", none⟩ else none

/-- The cache configuration of `Default()`: ten minutes and one hour. -/
def sampleCacheConfig : CacheConfig := ⟨600000000000, 3600000000000⟩

/-- A JWKS parser that knows one document, `jwks`, holding the sample tool's
key. -/
def sampleJwkParse : String → Option (List String) :=
  fun b => if b = "jwks" then some ["tool-kid"] else none

/-- A history of one successful fetch of the sample tool's JWKS at time 0,
answered 200 with `max-age=60`. -/
def sampleCacheHistory : List CacheCall :=
  [CacheCall.get 0 0 "https://tool/jwks"
    (FetchOutcome.response ⟨200, "max-age=60", "", "v1", "", some "jwks"⟩)]

/-- Store invariant of table `line_item_mappings`: the line-item ids come from
the `AUTOINCREMENT` key of `line_items` and are positive, and the resource
link ids are decimal selection ids, hence not empty. -/
def mappingsWellFormed (mappings : List (Int × String)) : Bool :=
  mappings.all (fun m => decide (0 < m.1) && decide (m.2 ≠ ""))

/-- A validation database whose one fresh state was created by a launch
without a context id. -/
def sampleDBNoContext : ValidationDB :=
  ⟨[], [⟨"s1", "c1", "https://tool/launch", "rl", "", 900, 0⟩]⟩

/-- A client assertion of the sample tool carrying `aud` as its audience,
issued at 100 and expiring at 1000. -/
def sampleAssertion (aud : String) : JWT :=
  ⟨"tool-kid", "c1", "c1", [aud], 1000, 100, 0, "jti-1", none⟩

/-- A create request in context `ctxA` with the body
`{"label":"Quiz","scoreMaximum":-5}`. -/
def sampleCreateNegative : AGSRequest :=
  ⟨"ctxA", "", "platform.example", "", some ⟨0, "", "Quiz", "", "", "", -5, none, none, 0, 0⟩⟩

/-- An update request for line item 1 of context `ctxA` with the body
`{"label":"Quiz 1b","scoreMaximum":10}`. -/
def sampleUpdateRequest : AGSRequest :=
  ⟨"ctxA", "1", "platform.example", "", some ⟨0, "", "Quiz 1b", "", "", "", 10, none, none, 0, 0⟩⟩

/-- A `json.Marshal` stand-in for the concrete checks: it renders a content
item by its url only. -/
def sampleMarshal : List (String × JSON) → Option String :=
  fun m => some ("item " ++ JSON.getString m "url")

/-- A content item with url `u` and a `lineItem` object with the given label
and maximum. -/
def sampleContentItem (u label : String) (scoreMaximum : Float64) : JSON :=
  JSON.obj [("type", JSON.str "ltiResourceLink"), ("url", JSON.str u),
    ("lineItem", JSON.obj [("label", JSON.str label), ("scoreMaximum", JSON.num scoreMaximum)])]

/-- A store whose mapping table already binds resource link `1`, while the
selection table is empty. -/
def sampleDLStore : DLStore := ⟨[], 0, [], 0, [(99, "1")]⟩

/-- The payload of a deep linking response with two content items, for
context `ctx` and client `c1`. -/
def samplePayload : JSON :=
  JSON.obj [("aud", JSON.str "c1"),
    ("https://purl.imsglobal.org/spec/lti-dl/claim/data", JSON.str "ctx"),
    ("https://purl.imsglobal.org/spec/lti-dl/claim/content_items",
      JSON.arr [sampleContentItem "https://tool/a" "Quiz A" 10, JSON.str "stray",
        sampleContentItem "https://tool/b" "Quiz B" 20])]

/-- A payload decoder that knows one compact serialisation, `tok`. -/
def sampleDecodePayload : String → Option JSON :=
  fun s => if s = "tok" then some samplePayload else none

/-- A deep linking response posting `tok` in form field `JWT`. -/
def sampleDeepLinkRequest : Request := ⟨[("JWT", "tok")], [], []⟩

/-- A roster request at the largest offset an `int` holds, with limit 1:
`?offset=9223372036854775807&limit=1`. -/
def sampleOverflowRequest : NRPSRequest :=
  ⟨"ctx", "/api/nrps/contexts/ctx/members", "platform.example", "https", "", false,
    [("offset", "9223372036854775807"), ("limit", "1")]⟩

/-- A roster member with the given user id. -/
def sampleMember (u : String) : Member := ⟨u, "", "", "", "", [], "Active", 0⟩

/-- A roster of three members of context `ctx` and one of another context,
not stored in id order. -/
def sampleRoster : List MemberRow :=
  [⟨2, "ctx", sampleMember "bob"⟩, ⟨1, "ctx", sampleMember "amy"⟩,
   ⟨3, "other", sampleMember "eve"⟩, ⟨4, "ctx", sampleMember "cy"⟩]

/-- The first roster request of a client that pages by two: `?limit=2`. -/
def samplePageRequest : NRPSRequest :=
  ⟨"ctx", "/api/nrps/contexts/ctx/members", "platform.example", "https", "", false,
    [("limit", "2")]⟩

/-- Store invariant of the tables that `deeplinkReturn` writes: the mapping
table is well formed and the two sequence values are not negative. -/
def DLStore.wellFormed (st : DLStore) : Bool :=
  mappingsWellFormed st.mappings && decide (0 ≤ st.selSeq) && decide (0 ≤ st.itemSeq)

/-- Store invariant that ties the mapping table to the two sequences: every
mapped line-item id has been handed out by `line_items` and every mapped
resource link is the decimal of a selection id that has been handed out. -/
def DLStore.tracked (st : DLStore) : Prop :=
  0 ≤ st.selSeq ∧ 0 ≤ st.itemSeq ∧
  ∀ p ∈ st.mappings, p.1 ≤ st.itemSeq ∧ ∃ sel : Int, 0 < sel ∧ sel ≤ st.selSeq ∧ p.2 = FormatInt sel

/-- A token request whose body names the grant type `password` and carries
a bad escape in `scope`: `grant_type=password&scope=%zz`. -/
def sampleBadFormRequest : TokenRequest := ⟨"", "grant_type=password&scope=%zz"⟩

/-! ## Lemmas on the validation store -/

theorem markUsed_state (s : String) (r : OIDCStateRow) : (markUsed s r).state = r.state := by
  unfold markUsed
  split <;> rfl

theorem markUsed_of_ne (s : String) (r : OIDCStateRow) (h : r.state ≠ s) : markUsed s r = r := by
  simp [markUsed, h]

theorem markUsed_used (s : String) (r : OIDCStateRow) (h : r.state = s) :
    (markUsed s r).used = 1 := by
  simp [markUsed, h]

theorem find_map_markUsed (s t : String) (l : List OIDCStateRow) :
    (l.map (markUsed s)).find? (fun r => decide (r.state = t))
      = (l.find? (fun r => decide (r.state = t))).map (markUsed s) := by
  induction l with
  | nil => rfl
  | cons a l ih =>
    simp only [List.map_cons, List.find?_cons, markUsed_state, ih]
    by_cases ht : a.state = t <;> simp [ht]

theorem filter_map_markUsed (s : String) (l : List OIDCStateRow) :
    (l.map (markUsed s)).filter (fun r => !decide (r.state = s))
      = l.filter (fun r => !decide (r.state = s)) := by
  induction l with
  | nil => rfl
  | cons a l ih =>
    simp only [List.map_cons, List.filter_cons, markUsed_state, ih]
    by_cases hs : a.state = s
    · simp [hs]
    · simp [hs, markUsed_of_ne s a hs]

theorem consume_reject_of_none (db : ValidationDB) (now : Nat) (s : String)
    (h : selectState db s = none) :
    ConsumeOIDCState db now s = (ConsumeResult.rejected, db) := by
  unfold selectState at h
  simp [ConsumeOIDCState, h]

theorem consume_reject_of_some (db : ValidationDB) (now : Nat) (s : String)
    (row : OIDCStateRow) (h : selectState db s = some row)
    (hr : row.used = 1 ∨ now > row.expires_at) :
    ConsumeOIDCState db now s = (ConsumeResult.rejected, db) := by
  unfold selectState at h
  simp [ConsumeOIDCState, h, hr]

theorem consume_accept (db : ValidationDB) (now : Nat) (s : String)
    (row : OIDCStateRow) (h : selectState db s = some row)
    (hu : row.used ≠ 1) (ht : now ≤ row.expires_at) :
    ConsumeOIDCState db now s =
      (⟨row.client_id, row.target_link_uri, row.resource_link_id, row.context_id, true⟩,
        { db with oidc_states :=
          db.oidc_states.map (markUsed s) }) := by
  unfold selectState at h
  have hn : ¬ (row.used = 1 ∨ now > row.expires_at) := by
    rintro (h1 | h2)
    · exact hu h1
    · exact absurd h2 (Nat.not_lt.mpr ht)
  simp [ConsumeOIDCState, h, hn]

/-- Shape of every `ConsumeOIDCState` call: either it rejects and leaves the
database alone, or it found an unused, unexpired row and marked it. -/
theorem consume_cases (db : ValidationDB) (now : Nat) (s : String) :
    ConsumeOIDCState db now s = (ConsumeResult.rejected, db) ∨
    ∃ row, selectState db s = some row ∧ row.used ≠ 1 ∧ now ≤ row.expires_at ∧
      ConsumeOIDCState db now s =
        (⟨row.client_id, row.target_link_uri, row.resource_link_id, row.context_id, true⟩,
          { db with oidc_states :=
            db.oidc_states.map (markUsed s) }) := by
  cases h : selectState db s with
  | none => exact Or.inl (consume_reject_of_none db now s h)
  | some row =>
    by_cases hr : row.used = 1 ∨ now > row.expires_at
    · exact Or.inl (consume_reject_of_some db now s row h hr)
    · have hu : row.used ≠ 1 := fun h1 => hr (Or.inl h1)
      have ht : now ≤ row.expires_at := Nat.not_lt.mp (fun h2 => hr (Or.inr h2))
      exact Or.inr ⟨row, rfl, hu, ht, consume_accept db now s row h hu ht⟩

theorem create_cases (db : ValidationDB) (now : Nat) (s c t x r : String) (e : Nat) :
    CreateOIDCState db now s c t x r e = (false, db) ∨
    CreateOIDCState db now s c t x r e =
      (true, { db with oidc_states :=
        db.oidc_states.filter (fun q => !(decide (q.expires_at < now) || decide (q.used = 1)))
          ++ [⟨s, c, t, r, x, e, 0⟩] }) := by
  unfold CreateOIDCState
  simp only
  split
  · exact Or.inl rfl
  · exact Or.inr rfl

theorem hasUnused_markUsed_same (db : ValidationDB) (s : String) :
    hasUnused { db with oidc_states := db.oidc_states.map (markUsed s) } s = false := by
  unfold hasUnused
  rw [Bool.eq_false_iff]
  intro h
  rw [List.any_eq_true] at h
  obtain ⟨q, hq, hp⟩ := h
  simp only [List.mem_map] at hq
  obtain ⟨q0, _, rfl⟩ := hq
  simp only [Bool.and_eq_true, decide_eq_true_eq, Bool.not_eq_true', decide_eq_false_iff_not,
    markUsed_state] at hp
  exact hp.2 (markUsed_used s q0 hp.1)

theorem hasUnused_markUsed_other (db : ValidationDB) (s t : String) (h : t ≠ s) :
    hasUnused { db with oidc_states := db.oidc_states.map (markUsed t) } s = hasUnused db s := by
  unfold hasUnused
  simp only [List.any_map]
  congr 1
  funext q
  simp only [Function.comp, markUsed_state]
  by_cases hq : q.state = s
  · have : q.state ≠ t := fun h2 => h (h2.symm.trans hq)
    rw [markUsed_of_ne t q this]
  · simp [hq]

theorem hasUnused_of_selected (db : ValidationDB) (s : String) (row : OIDCStateRow)
    (h : selectState db s = some row) (hu : row.used ≠ 1) : hasUnused db s = true := by
  unfold selectState at h
  unfold hasUnused
  rw [List.any_eq_true]
  refine ⟨row, List.mem_of_find?_eq_some h, ?_⟩
  have hs := List.find?_some h
  simp only [decide_eq_true_eq] at hs
  simp [hs, hu]

theorem create_fail_unchanged (db : ValidationDB) (now : Nat) (s c t x r : String) (e : Nat)
    (h : (CreateOIDCState db now s c t x r e).1 = false) :
    (CreateOIDCState db now s c t x r e).2 = db := by
  rcases create_cases db now s c t x r e with h1 | h1
  · rw [h1]
  · rw [h1] at h; simp at h

theorem hasUnused_after_create_other (db : ValidationDB) (now : Nat) (s t c u x r : String)
    (e : Nat) (h : t ≠ s)
    (hb : hasUnused (CreateOIDCState db now t c u x r e).2 s = true) :
    hasUnused db s = true := by
  rcases create_cases db now t c u x r e with h1 | h1
  · rw [h1] at hb; exact hb
  · rw [h1] at hb
    unfold hasUnused at hb ⊢
    simp only [List.any_eq_true, List.mem_append, List.mem_filter, List.mem_singleton] at hb ⊢
    obtain ⟨q, hq, hp⟩ := hb
    rcases hq with ⟨hq, _⟩ | rfl
    · exact ⟨q, hq, hp⟩
    · simp [h] at hp

theorem consume_fail_unchanged (db : ValidationDB) (now : Nat) (s : String)
    (h : (ConsumeOIDCState db now s).1.ok = false) : (ConsumeOIDCState db now s).2 = db := by
  rcases consume_cases db now s with h1 | ⟨row, _, _, _, h1⟩
  · rw [h1]
  · rw [h1] at h; simp at h

theorem consume_ok_spends (db : ValidationDB) (now : Nat) (s : String)
    (h : (ConsumeOIDCState db now s).1.ok = true) :
    hasUnused db s = true ∧ hasUnused (ConsumeOIDCState db now s).2 s = false := by
  rcases consume_cases db now s with h1 | ⟨row, hsel, hu, _, h1⟩
  · rw [h1] at h; simp [ConsumeResult.rejected] at h
  · rw [h1]
    exact ⟨hasUnused_of_selected db s row hsel hu, hasUnused_markUsed_same db s⟩

theorem consume_other_keeps (db : ValidationDB) (now : Nat) (s t : String) (h : t ≠ s) :
    hasUnused (ConsumeOIDCState db now t).2 s = hasUnused db s := by
  rcases consume_cases db now t with h1 | ⟨row, _, _, _, h1⟩
  · rw [h1]
  · rw [h1]; exact hasUnused_markUsed_other db s t h

/-- One call of a history: a successful consume of `s` spends the unused row
of `s`, and only a successful create of `s` can bring one back. -/
theorem step_budget (s : String) (db : ValidationDB) (c : StateCall) :
    (if (stepCall db c).1 = StateReturn.consumed s true then 1 else 0)
        + (hasUnused (stepCall db c).2 s).toNat
      ≤ (hasUnused db s).toNat
        + (if (stepCall db c).1 = StateReturn.created s true then 1 else 0) := by
  cases c with
  | create now t cl u x r e =>
    simp only [stepCall, StateReturn.created.injEq, reduceCtorEq, if_false, zero_add]
    by_cases hts : t = s
    · subst hts
      cases hb : (CreateOIDCState db now t cl u x r e).1 with
      | false => rw [create_fail_unchanged db now t cl u x r e hb]; simp
      | true =>
        have := Bool.toNat_le (hasUnused (CreateOIDCState db now t cl u x r e).2 t)
        simp only [true_and, if_true]
        omega
    · have h3 := hasUnused_after_create_other db now s t cl u x r e hts
      cases hb : hasUnused (CreateOIDCState db now t cl u x r e).2 s with
      | false => simp
      | true => rw [h3 hb]; simp
  | consume now t =>
    simp only [stepCall, StateReturn.consumed.injEq, reduceCtorEq, if_false, add_zero]
    by_cases hts : t = s
    · subst hts
      cases hb : (ConsumeOIDCState db now t).1.ok with
      | false => rw [consume_fail_unchanged db now t hb]; simp
      | true =>
        obtain ⟨h1, h2⟩ := consume_ok_spends db now t hb
        rw [h1, h2]; simp
    · rw [consume_other_keeps db now s t hts]
      simp [hts]

/-- Over a whole history from any database: successful consumes of `s` are
bounded by the unused row present at the start plus the successful creates. -/
theorem consume_budget (s : String) (h : List StateCall) :
    ∀ db : ValidationDB,
      consumeSuccesses s (runCalls db h)
        ≤ (hasUnused db s).toNat + createSuccesses s (runCalls db h) := by
  induction h with
  | nil => intro db; simp [runCalls, consumeSuccesses]
  | cons c cs ih =>
    intro db
    have hstep := step_budget s db c
    have hrest := ih (stepCall db c).2
    unfold consumeSuccesses createSuccesses at *
    simp only [runCalls, List.countP_cons, decide_eq_true_eq]
    omega

/-! ## Claims on the validation store -/

/-- C1, as stated, fails: a state that is created again after it was consumed
(the cleanup of `CreateOIDCState` removes the used row, so the insert succeeds)
is consumed with ok=true a second time. -/
theorem C1_reconsumed_after_recreate :
    ¬ (consumeSuccesses "s1" (runCalls emptyDB
        [StateCall.create 0 "s1" "c1" "https://tool/launch" "ctx" "rl" 900,
         StateCall.consume 1 "s1",
         StateCall.create 2 "s1" "c1" "https://tool/launch" "ctx" "rl" 902,
         StateCall.consume 3 "s1"]) ≤ 1) := by
  decide

/-- C1, amended: for every state `s` and every sequential history of
`CreateOIDCState` and `ConsumeOIDCState` calls on an initially empty validation
store, the number of `ConsumeOIDCState(s)` calls that return ok=true is at most
the number of `CreateOIDCState(s, …)` calls that returned without error. -/
theorem C1_consumes_bounded_by_creates (s : String) (h : List StateCall) :
    consumeSuccesses s (runCalls emptyDB h) ≤ createSuccesses s (runCalls emptyDB h) := by
  have := consume_budget s h emptyDB
  simpa [hasUnused, emptyDB] using this

/-- C2: `ConsumeOIDCState(s)` at time `now` returns ok=false with four empty
strings and leaves the database as it was when no row of `s` exists, when the
row has `used = 1`, or when `now > expires_at` (one and the same result in the
three cases); in every other case it returns ok=true with the columns of the
row, the row of `s` now has `used = 1`, and nothing else changed. -/
theorem C2_consume_rejects_or_marks (db : ValidationDB) (now : Nat) (s : String) :
    ((selectState db s = none ∨
        ∃ row, selectState db s = some row ∧ (row.used = 1 ∨ now > row.expires_at)) →
      ConsumeOIDCState db now s = (⟨"", "", "", "", false⟩, db)) ∧
    (∀ row, selectState db s = some row → ¬ (row.used = 1 ∨ now > row.expires_at) →
      (ConsumeOIDCState db now s).1 =
          ⟨row.client_id, row.target_link_uri, row.resource_link_id, row.context_id, true⟩ ∧
      selectState (ConsumeOIDCState db now s).2 s = some { row with used := 1 } ∧
      (ConsumeOIDCState db now s).2.oidc_states.filter (fun r => !decide (r.state = s))
        = db.oidc_states.filter (fun r => !decide (r.state = s)) ∧
      (ConsumeOIDCState db now s).2.oidc_states.length = db.oidc_states.length ∧
      (ConsumeOIDCState db now s).2.client_assertion_jtis = db.client_assertion_jtis) := by
  constructor
  · rintro (h | ⟨row, h, hr⟩)
    · exact consume_reject_of_none db now s h
    · exact consume_reject_of_some db now s row h hr
  · intro row hsel hn
    have hu : row.used ≠ 1 := fun h1 => hn (Or.inl h1)
    have ht : now ≤ row.expires_at := Nat.not_lt.mp (fun h2 => hn (Or.inr h2))
    rw [consume_accept db now s row hsel hu ht]
    refine ⟨rfl, ?_, filter_map_markUsed s _, by simp, rfl⟩
    have hs : row.state = s := by
      have := List.find?_some hsel
      simpa using this
    unfold selectState at hsel ⊢
    simp only [find_map_markUsed, hsel, Option.map_some']
    simp [markUsed, hs]

/-- C2 at concrete inputs: a missing, a used and an expired state give the same
rejection, and a live one is returned and marked. -/
theorem C2_consume_rejects_or_marks_witness :
    ConsumeOIDCState ⟨[], [⟨"s1", "c1", "t", "rl", "ctx", 900, 1⟩]⟩ 5 "s1"
        = (⟨"", "", "", "", false⟩, ⟨[], [⟨"s1", "c1", "t", "rl", "ctx", 900, 1⟩]⟩) ∧
    (ConsumeOIDCState ⟨[], [⟨"s1", "c1", "t", "rl", "ctx", 900, 0⟩]⟩ 5 "s1").1
        = ⟨"c1", "t", "rl", "ctx", true⟩ :=
  ⟨(C2_consume_rejects_or_marks ⟨[], [⟨"s1", "c1", "t", "rl", "ctx", 900, 1⟩]⟩ 5 "s1").1
      (Or.inr ⟨⟨"s1", "c1", "t", "rl", "ctx", 900, 1⟩, by decide, Or.inl rfl⟩),
   ((C2_consume_rejects_or_marks ⟨[], [⟨"s1", "c1", "t", "rl", "ctx", 900, 0⟩]⟩ 5 "s1").2
      ⟨"s1", "c1", "t", "rl", "ctx", 900, 0⟩ (by decide) (by decide)).1⟩

theorem tryUse_cases (db : ValidationDB) (now : Nat) (j c : String) (exp : Nat)
    (hj : j ≠ "") :
    ((∃ r ∈ db.client_assertion_jtis, r.jti = j ∧ sqlExpired r.expires_at now = false) ∧
      TryUseClientAssertionJTI db now j c exp = (JTIOutcome.ok false, db)) ∨
    ((∀ r ∈ db.client_assertion_jtis, r.jti = j → sqlExpired r.expires_at now = true) ∧
      TryUseClientAssertionJTI db now j c exp =
        (JTIOutcome.ok true, { db with client_assertion_jtis :=
          db.client_assertion_jtis.filter (fun r => !sqlExpired r.expires_at now)
            ++ [⟨j, c, exp⟩] })) := by
  unfold TryUseClientAssertionJTI
  simp only [hj, if_false]
  split
  · rename_i h
    left
    rw [List.any_eq_true] at h
    obtain ⟨r, hr, hp⟩ := h
    simp only [List.mem_filter, Bool.not_eq_true'] at hr
    simp only [decide_eq_true_eq] at hp
    exact ⟨⟨r, hr.1, hp, hr.2⟩, rfl⟩
  · rename_i h
    right
    refine ⟨?_, rfl⟩
    intro r hr hrj
    by_contra hlt
    apply h
    rw [List.any_eq_true]
    exact ⟨r, by simp [List.mem_filter, hr, hlt], by simp [hrj]⟩

/-- After a fresh use of `j` with expiry `exp`, any further use of `j` at a
time at which the cleanup does not delete the row is a replay and changes
nothing. -/
theorem tryUse_second_use (db : ValidationDB) (now : Nat) (j c : String) (exp : Nat)
    (hj : j ≠ "") :
    (TryUseClientAssertionJTI db now j c exp).1 = JTIOutcome.ok true →
    ∀ (now2 : Nat) (c2 : String) (exp2 : Nat), sqlExpired exp now2 = false →
      TryUseClientAssertionJTI (TryUseClientAssertionJTI db now j c exp).2 now2 j c2 exp2
        = (JTIOutcome.ok false, (TryUseClientAssertionJTI db now j c exp).2) := by
  rcases tryUse_cases db now j c exp hj with ⟨_, h⟩ | ⟨_, h⟩
  · rw [h]; intro h1; simp at h1
  · rw [h]
    intro _ now2 c2 exp2 hlt
    rcases tryUse_cases { db with client_assertion_jtis :=
        db.client_assertion_jtis.filter (fun r => !sqlExpired r.expires_at now)
          ++ [⟨j, c, exp⟩] } now2 j c2 exp2 hj with ⟨_, h2⟩ | ⟨hall2, _⟩
    · exact h2
    · have := hall2 ⟨j, c, exp⟩ (by simp) rfl
      simp only at this
      rw [hlt] at this
      cases this

/-- What `TryUseClientAssertionJTI` does in terms of the rows that its cleanup
keeps: for a non-empty `jti` it returns ok=true exactly when the cleanup
deletes every row of `j`; otherwise it returns ok=false and changes nothing.
On ok=true the only row of `j` left is the new one, and a later call for `j`
at a time at which the cleanup keeps that row returns ok=false and leaves the
store as it was. -/
theorem tryUse_fresh_iff (db : ValidationDB) (now : Nat) (j c : String)
    (exp : Nat) (hj : j ≠ "") :
    ((TryUseClientAssertionJTI db now j c exp).1 = JTIOutcome.ok true ↔
      ∀ r ∈ db.client_assertion_jtis, r.jti = j → sqlExpired r.expires_at now = true) ∧
    ((TryUseClientAssertionJTI db now j c exp).1 ≠ JTIOutcome.ok true →
      TryUseClientAssertionJTI db now j c exp = (JTIOutcome.ok false, db)) ∧
    ((TryUseClientAssertionJTI db now j c exp).1 = JTIOutcome.ok true →
      (TryUseClientAssertionJTI db now j c exp).2.client_assertion_jtis.filter
          (fun r => decide (r.jti = j)) = [⟨j, c, exp⟩] ∧
      (TryUseClientAssertionJTI db now j c exp).2.oidc_states = db.oidc_states ∧
      ∀ (now2 : Nat) (c2 : String) (exp2 : Nat), sqlExpired exp now2 = false →
        TryUseClientAssertionJTI (TryUseClientAssertionJTI db now j c exp).2 now2 j c2 exp2
          = (JTIOutcome.ok false, (TryUseClientAssertionJTI db now j c exp).2)) := by
  rcases tryUse_cases db now j c exp hj with ⟨⟨r, hr, hrj, hlive⟩, h⟩ | ⟨hall, h⟩
  · rw [h]
    refine ⟨⟨fun h1 => by simp at h1, fun h1 => ?_⟩, fun _ => rfl, fun h1 => by simp at h1⟩
    have := h1 r hr hrj
    rw [hlive] at this
    cases this
  · have hsecond := tryUse_second_use db now j c exp hj
    rw [h] at hsecond ⊢
    refine ⟨⟨fun _ => hall, fun _ => rfl⟩, fun h1 => absurd rfl h1,
      fun _ => ⟨?_, rfl, hsecond rfl⟩⟩
    simp only [List.filter_append, List.filter_filter]
    have hnil : db.client_assertion_jtis.filter
        (fun r => decide (r.jti = j) && !sqlExpired r.expires_at now) = [] := by
      rw [List.filter_eq_nil_iff]
      intro r hr
      by_cases hrj : r.jti = j
      · simp [hrj, hall r hr hrj]
      · simp [hrj]
    rw [hnil]
    simp

/-- The dates of the two instants of the replay below, and the order of their
texts: the stored expiry of 10000-01-01 sorts before the timestamp of
2026-11-04 although it lies far after it. -/
theorem far_expiry_text_order :
    goTimeString 253402300800 = "10000-01-01 00:00:00 +0000 UTC" ∧
    CURRENT_TIMESTAMP 1793750400 = "2026-11-04 00:00:00" ∧
    CURRENT_TIMESTAMP 1793750460 = "2026-11-04 00:01:00" ∧
    sqlExpired 253402300800 1793750460 = true ∧
    sqlExpired 1793754000 1793750460 = false := by
  decide

/-- C3 at a concrete expiry: on 2026-11-04 the jti `jf` is recorded with the
expiry 10000-01-01T00:00:00Z; one minute later, long before that expiry, the
same jti is used again and the call returns ok=true once more, the first row
having been deleted by the cleanup and replaced.  With an expiry one hour
ahead the second call returns ok=false and leaves the row. -/
theorem C3_unexpired_jti_is_reused :
    (1793750460 : Nat) < 253402300800 ∧
    TryUseClientAssertionJTI emptyDB 1793750400 "jf" "c1" 253402300800 =
      (JTIOutcome.ok true, ⟨[⟨"jf", "c1", 253402300800⟩], []⟩) ∧
    TryUseClientAssertionJTI ⟨[⟨"jf", "c1", 253402300800⟩], []⟩ 1793750460 "jf" "c2"
        253402300800 =
      (JTIOutcome.ok true, ⟨[⟨"jf", "c2", 253402300800⟩], []⟩) ∧
    TryUseClientAssertionJTI ⟨[⟨"jf", "c1", 1793754000⟩], []⟩ 1793750460 "jf" "c2" 1793754000 =
      (JTIOutcome.ok false, ⟨[⟨"jf", "c1", 1793754000⟩], []⟩) := by
  decide

/-! ## Authorization endpoint -/

/-- A state that was presented once is rejected when presented again later,
whatever the first outcome was. -/
theorem consume_twice (db : ValidationDB) (now now2 : Nat) (s : String) (h : now ≤ now2) :
    ConsumeOIDCState (ConsumeOIDCState db now s).2 now2 s
      = (ConsumeResult.rejected, (ConsumeOIDCState db now s).2) := by
  cases hsel : selectState db s with
  | none =>
    rw [consume_reject_of_none db now s hsel]
    exact consume_reject_of_none db now2 s hsel
  | some row =>
    by_cases hr : row.used = 1 ∨ now > row.expires_at
    · rw [consume_reject_of_some db now s row hsel hr]
      refine consume_reject_of_some db now2 s row hsel ?_
      rcases hr with h1 | h2
      · exact Or.inl h1
      · exact Or.inr (by omega)
    · have hu : row.used ≠ 1 := fun h1 => hr (Or.inl h1)
      have ht : now ≤ row.expires_at := Nat.not_lt.mp (fun h2 => hr (Or.inr h2))
      rw [consume_accept db now s row hsel hu ht]
      have hs : row.state = s := by
        have := List.find?_some hsel
        simpa using this
      refine consume_reject_of_some _ now2 s (markUsed s row) ?_
        (Or.inl (markUsed_used s row hs))
      unfold selectState at hsel ⊢
      simp only [find_map_markUsed, hsel, Option.map_some']

theorem oidcAuth_no_cookie (parse : String → Option URL) (h : Platform) (tools : List Tool)
    (mappings : List (Int × String)) (db : ValidationDB) (now : Nat) (rnd : String)
    (r : Request) (hc : formValue r "client_id" ≠ "") (hr : formValue r "redirect_uri" ≠ "")
    (hk : requestCookie r "lti_corr" = none ∨
      ∃ c, requestCookie r "lti_corr" = some c ∧ c.2 = "") :
    oidcAuth parse h tools mappings db now rnd r
      = (authError 401 "missing correlation cookie" false, db) := by
  unfold oidcAuth
  rcases hk with hk | ⟨c, hk, hv⟩
  · simp [hc, hr, hk]
  · simp [hc, hr, hk, hv]

theorem oidcAuth_consume_fail (parse : String → Option URL) (h : Platform) (tools : List Tool)
    (mappings : List (Int × String)) (db : ValidationDB) (now : Nat) (rnd : String)
    (r : Request) (hc : formValue r "client_id" ≠ "") (hr : formValue r "redirect_uri" ≠ "")
    (c : String × String) (hk : requestCookie r "lti_corr" = some c) (hv : c.2 ≠ "")
    (hf : (ConsumeOIDCState db now c.2).1.ok = false) :
    oidcAuth parse h tools mappings db now rnd r
      = (authError 401 "invalid or expired correlation state" false,
          (ConsumeOIDCState db now c.2).2) := by
  unfold oidcAuth
  simp [hc, hr, hk, hv, hf]

theorem oidcAuth_client_mismatch (parse : String → Option URL) (h : Platform)
    (tools : List Tool) (mappings : List (Int × String)) (db : ValidationDB) (now : Nat)
    (rnd : String) (r : Request) (hc : formValue r "client_id" ≠ "")
    (hr : formValue r "redirect_uri" ≠ "")
    (c : String × String) (hk : requestCookie r "lti_corr" = some c) (hv : c.2 ≠ "")
    (hok : (ConsumeOIDCState db now c.2).1.ok = true)
    (hm : (ConsumeOIDCState db now c.2).1.clientID ≠ "" ∧
      (ConsumeOIDCState db now c.2).1.clientID ≠ formValue r "client_id") :
    oidcAuth parse h tools mappings db now rnd r
      = (authError 401 "client_id mismatch" true, (ConsumeOIDCState db now c.2).2) := by
  unfold oidcAuth
  simp [hc, hr, hk, hv, hok, hm]

/-- With a non-empty cookie, the database `oidcAuth` leaves is the one
`ConsumeOIDCState` left. -/
theorem oidcAuth_db (parse : String → Option URL) (h : Platform) (tools : List Tool)
    (mappings : List (Int × String)) (db : ValidationDB) (now : Nat) (rnd : String)
    (r : Request) (hc : formValue r "client_id" ≠ "") (hr : formValue r "redirect_uri" ≠ "")
    (c : String × String) (hk : requestCookie r "lti_corr" = some c) (hv : c.2 ≠ "") :
    (oidcAuth parse h tools mappings db now rnd r).2 = (ConsumeOIDCState db now c.2).2 := by
  unfold oidcAuth
  simp only [hc, hr, hk, hv, or_self, if_false]
  repeat' split
  all_goals rfl

/-- Two requests that agree on the cookies and on every parameter other than
`state` get the same status, the same id_token and leave the same database. -/
theorem oidcAuth_ignores_state (parse : String → Option URL) (h : Platform)
    (tools : List Tool) (mappings : List (Int × String)) (db : ValidationDB) (now : Nat)
    (rnd : String) (r r' : Request) (hck : r'.cookies = r.cookies)
    (hp : ∀ k, k ≠ "state" → formValue r' k = formValue r k) :
    (oidcAuth parse h tools mappings db now rnd r').2
        = (oidcAuth parse h tools mappings db now rnd r).2 ∧
    (oidcAuth parse h tools mappings db now rnd r').1.status
        = (oidcAuth parse h tools mappings db now rnd r).1.status ∧
    (oidcAuth parse h tools mappings db now rnd r').1.idToken
        = (oidcAuth parse h tools mappings db now rnd r).1.idToken := by
  have h1 := hp "client_id" (by decide)
  have h2 := hp "redirect_uri" (by decide)
  have h3 := hp "nonce" (by decide)
  have h4 := hp "lti_message_hint" (by decide)
  have h5 := hp "login_hint" (by decide)
  have h6 : requestCookie r' "lti_corr" = requestCookie r "lti_corr" := by
    unfold requestCookie; rw [hck]
  unfold oidcAuth
  simp only [h1, h2, h3, h4, h5, h6]
  repeat' split
  all_goals exact ⟨rfl, rfl, rfl⟩

/-- C4: for every authorization request that carries `client_id` and
`redirect_uri`, `oidcAuth` answers 401 without an id_token when the `lti_corr`
cookie is absent or empty, when `ConsumeOIDCState` on the cookie's value does
not return ok, or when the stored client id is non-empty and differs from the
request's; a later request with the same cookie is answered 401; and the
`state` parameter has no influence on the status, the id_token or the store. -/
theorem C4_auth_requires_live_cookie_state (parse : String → Option URL) (h : Platform)
    (tools : List Tool) (mappings : List (Int × String)) (db : ValidationDB) (now : Nat)
    (rnd : String) (r : Request)
    (hc : formValue r "client_id" ≠ "") (hr : formValue r "redirect_uri" ≠ "") :
    ((requestCookie r "lti_corr" = none ∨
        ∃ c, requestCookie r "lti_corr" = some c ∧ c.2 = "") →
      (oidcAuth parse h tools mappings db now rnd r).1.status = 401 ∧
      (oidcAuth parse h tools mappings db now rnd r).1.idToken = none ∧
      (oidcAuth parse h tools mappings db now rnd r).2 = db) ∧
    (∀ c, requestCookie r "lti_corr" = some c → c.2 ≠ "" →
      ((ConsumeOIDCState db now c.2).1.ok = false ∨
        ((ConsumeOIDCState db now c.2).1.clientID ≠ "" ∧
          (ConsumeOIDCState db now c.2).1.clientID ≠ formValue r "client_id")) →
      (oidcAuth parse h tools mappings db now rnd r).1.status = 401 ∧
      (oidcAuth parse h tools mappings db now rnd r).1.idToken = none) ∧
    (∀ (tools2 : List Tool) (mappings2 : List (Int × String)) (now2 : Nat) (rnd2 : String)
        (r2 : Request),
      formValue r2 "client_id" ≠ "" → formValue r2 "redirect_uri" ≠ "" →
      requestCookie r2 "lti_corr" = requestCookie r "lti_corr" → now ≤ now2 →
      (oidcAuth parse h tools2 mappings2
          (oidcAuth parse h tools mappings db now rnd r).2 now2 rnd2 r2).1.status = 401 ∧
      (oidcAuth parse h tools2 mappings2
          (oidcAuth parse h tools mappings db now rnd r).2 now2 rnd2 r2).1.idToken = none) ∧
    (∀ r' : Request, r'.cookies = r.cookies →
      (∀ k, k ≠ "state" → formValue r' k = formValue r k) →
      (oidcAuth parse h tools mappings db now rnd r').2
          = (oidcAuth parse h tools mappings db now rnd r).2 ∧
      (oidcAuth parse h tools mappings db now rnd r').1.status
          = (oidcAuth parse h tools mappings db now rnd r).1.status ∧
      (oidcAuth parse h tools mappings db now rnd r').1.idToken
          = (oidcAuth parse h tools mappings db now rnd r).1.idToken) := by
  refine ⟨?_, ?_, ?_, ?_⟩
  · intro hk
    rw [oidcAuth_no_cookie parse h tools mappings db now rnd r hc hr hk]
    exact ⟨rfl, rfl, rfl⟩
  · intro c hk hv hbad
    by_cases hok : (ConsumeOIDCState db now c.2).1.ok = false
    · rw [oidcAuth_consume_fail parse h tools mappings db now rnd r hc hr c hk hv hok]
      exact ⟨rfl, rfl⟩
    · have hok' : (ConsumeOIDCState db now c.2).1.ok = true := by simpa using hok
      rcases hbad with hf | hm
      · exact absurd hf hok
      · rw [oidcAuth_client_mismatch parse h tools mappings db now rnd r hc hr c hk hv hok' hm]
        exact ⟨rfl, rfl⟩
  · intro tools2 mappings2 now2 rnd2 r2 hc2 hr2 hk2 hle
    cases hk : requestCookie r "lti_corr" with
    | none =>
      rw [hk] at hk2
      rw [oidcAuth_no_cookie parse h tools2 mappings2 _ now2 rnd2 r2 hc2 hr2 (Or.inl hk2)]
      exact ⟨rfl, rfl⟩
    | some c =>
      rw [hk] at hk2
      by_cases hv : c.2 = ""
      · rw [oidcAuth_no_cookie parse h tools2 mappings2 _ now2 rnd2 r2 hc2 hr2
          (Or.inr ⟨c, hk2, hv⟩)]
        exact ⟨rfl, rfl⟩
      · rw [oidcAuth_db parse h tools mappings db now rnd r hc hr c hk hv]
        have h2 := consume_twice db now now2 c.2 hle
        rw [oidcAuth_consume_fail parse h tools2 mappings2 _ now2 rnd2 r2 hc2 hr2 c hk2 hv
          (by rw [h2]; rfl)]
        exact ⟨rfl, rfl⟩
  · intro r' hck hp
    exact oidcAuth_ignores_state parse h tools mappings db now rnd r r' hck hp

/-- C4 at a concrete launch: the first authorization request is answered with
the form page, its repetition with the same cookie is answered 401. -/
theorem C4_auth_requires_live_cookie_state_witness :
    (oidcAuth urlParse samplePlatform [sampleTool] [] sampleDB 5 "r" sampleAuthRequest).1.status
      = 200 ∧
    (oidcAuth urlParse samplePlatform [sampleTool] []
      (oidcAuth urlParse samplePlatform [sampleTool] [] sampleDB 5 "r" sampleAuthRequest).2
      6 "r" sampleAuthRequest).1.status = 401 :=
  ⟨by decide,
   ((C4_auth_requires_live_cookie_state urlParse samplePlatform [sampleTool] [] sampleDB 5 "r"
      sampleAuthRequest (by decide) (by decide)).2.2.1 [sampleTool] [] 6 "r" sampleAuthRequest
      (by decide) (by decide) rfl (by decide)).1⟩

/-- What `oidcAuth` does once the state was consumed and the client ids agree:
the remaining decisions depend only on the tool lookup, the two URL parses and
the signing key. -/
theorem oidcAuth_after_consume (parse : String → Option URL) (h : Platform)
    (tools : List Tool) (mappings : List (Int × String)) (db : ValidationDB) (now : Nat)
    (rnd : String) (r : Request) (hc : formValue r "client_id" ≠ "")
    (hr : formValue r "redirect_uri" ≠ "")
    (c : String × String) (hk : requestCookie r "lti_corr" = some c) (hv : c.2 ≠ "")
    (hok : (ConsumeOIDCState db now c.2).1.ok = true)
    (hm : ¬ ((ConsumeOIDCState db now c.2).1.clientID ≠ "" ∧
      (ConsumeOIDCState db now c.2).1.clientID ≠ formValue r "client_id")) :
    (oidcAuth parse h tools mappings db now rnd r).1 =
      match GetToolByClientID tools (formValue r "client_id") with
      | none => authError 400 "unknown client_id" true
      | some tool =>
        match parse (formValue r "redirect_uri") with
        | none => authError 400 "invalid redirect_uri" true
        | some reqURI =>
          match parse (allowedRedirect tool (formValue r "lti_message_hint")) with
          | none => authError 500 "server misconfig: tool redirect url invalid" true
          | some allowedURI =>
            if reqURI.Scheme ≠ allowedURI.Scheme ∨ reqURI.Host ≠ allowedURI.Host
                ∨ reqURI.Path ≠ allowedURI.Path then
              authError 400 "redirect_uri not allowed for this client" true
            else
              match h.signingKey with
              | none => authError 500 "failed to initialize keys" true
              | some kid =>
                ⟨200, "", true, formValue r "redirect_uri", formValue r "state",
                  some (buildIdToken h mappings kid now rnd (formValue r "login_hint")
                    (formValue r "client_id") (formValue r "nonce")
                    (formValue r "lti_message_hint")
                    (ConsumeOIDCState db now c.2).1.targetLinkURI
                    (ConsumeOIDCState db now c.2).1.resourceLinkID
                    (ConsumeOIDCState db now c.2).1.contextID)⟩ := by
  unfold oidcAuth
  simp only [hc, hr, hk, hv, hok, hm, or_self, if_false, Bool.true_eq_false]
  repeat' split
  all_goals simp_all

/-- C5, as stated, fails: with a registered tool whose launch URL does not
parse (`127.0.0.1:3000/launch`, a colon in the first path segment), the request
is answered 500, not 400, after the state was consumed. -/
theorem C5_unparseable_tool_url_gives_500 :
    (ConsumeOIDCState sampleDB 5 "s1").1.ok = true ∧
    GetToolByClientID [sampleToolNoScheme] "c1" = some sampleToolNoScheme ∧
    urlParse (allowedRedirect sampleToolNoScheme "") = none ∧
    (oidcAuth urlParse samplePlatform [sampleToolNoScheme] [] sampleDB 5 "r"
      sampleAuthRequest).1.status = 500 := by
  decide

/-- C5, amended: after a successful state consumption and client-id check,
`oidcAuth` answers 400 when no tool is registered for `client_id`; otherwise
the allowed redirect is the tool's `target_link_url` when `lti_message_hint`
is `deep_linking`, else its `target_launch_url`, falling back to `auth_url`
when that choice is empty; it answers 400 when `redirect_uri` does not parse,
500 when the allowed redirect does not parse, 400 when both parse and scheme,
host or path differ, and it issues an id_token only when both parse and all
three agree. -/
theorem C5_redirect_must_match_allowed (parse : String → Option URL) (h : Platform)
    (tools : List Tool) (mappings : List (Int × String)) (db : ValidationDB) (now : Nat)
    (rnd : String) (r : Request) (hc : formValue r "client_id" ≠ "")
    (hr : formValue r "redirect_uri" ≠ "")
    (c : String × String) (hk : requestCookie r "lti_corr" = some c) (hv : c.2 ≠ "")
    (hok : (ConsumeOIDCState db now c.2).1.ok = true)
    (hm : ¬ ((ConsumeOIDCState db now c.2).1.clientID ≠ "" ∧
      (ConsumeOIDCState db now c.2).1.clientID ≠ formValue r "client_id")) :
    (GetToolByClientID tools (formValue r "client_id") = none →
      (oidcAuth parse h tools mappings db now rnd r).1.status = 400 ∧
      (oidcAuth parse h tools mappings db now rnd r).1.idToken = none) ∧
    (∀ tool, GetToolByClientID tools (formValue r "client_id") = some tool →
      allowedRedirect tool (formValue r "lti_message_hint") =
        (if formValue r "lti_message_hint" = "deep_linking" then
          (if tool.TargetLinkURL = "" then tool.AuthURL else tool.TargetLinkURL)
         else (if tool.TargetLaunchURL = "" then tool.AuthURL else tool.TargetLaunchURL)) ∧
      (parse (formValue r "redirect_uri") = none →
        (oidcAuth parse h tools mappings db now rnd r).1.status = 400 ∧
        (oidcAuth parse h tools mappings db now rnd r).1.idToken = none) ∧
      (parse (formValue r "redirect_uri") ≠ none →
        parse (allowedRedirect tool (formValue r "lti_message_hint")) = none →
        (oidcAuth parse h tools mappings db now rnd r).1.status = 500 ∧
        (oidcAuth parse h tools mappings db now rnd r).1.idToken = none) ∧
      (∀ u a, parse (formValue r "redirect_uri") = some u →
        parse (allowedRedirect tool (formValue r "lti_message_hint")) = some a →
        ¬ (u.Scheme = a.Scheme ∧ u.Host = a.Host ∧ u.Path = a.Path) →
        (oidcAuth parse h tools mappings db now rnd r).1.status = 400 ∧
        (oidcAuth parse h tools mappings db now rnd r).1.idToken = none) ∧
      ((oidcAuth parse h tools mappings db now rnd r).1.idToken ≠ none →
        ∃ u a, parse (formValue r "redirect_uri") = some u ∧
          parse (allowedRedirect tool (formValue r "lti_message_hint")) = some a ∧
          u.Scheme = a.Scheme ∧ u.Host = a.Host ∧ u.Path = a.Path)) := by
  have key := oidcAuth_after_consume parse h tools mappings db now rnd r hc hr c hk hv hok hm
  constructor
  · intro hnone
    rw [key, hnone]
    exact ⟨rfl, rfl⟩
  · intro tool htool
    rw [key, htool]
    refine ⟨?_, ?_, ?_, ?_, ?_⟩
    · unfold allowedRedirect
      by_cases hd : formValue r "lti_message_hint" = "deep_linking" <;> simp [hd]
    · intro hp
      simp only [hp]
      exact ⟨rfl, rfl⟩
    · intro hp ha
      cases hu : parse (formValue r "redirect_uri") with
      | none => exact absurd hu hp
      | some u =>
        simp only [ha]
        exact ⟨rfl, rfl⟩
    · intro u a hu ha hne
      have hne' : u.Scheme ≠ a.Scheme ∨ u.Host ≠ a.Host ∨ u.Path ≠ a.Path := by
        by_contra hcon
        push_neg at hcon
        exact hne hcon
      simp only [hu, ha, hne', if_true]
      exact ⟨rfl, rfl⟩
    · intro htok
      cases hu : parse (formValue r "redirect_uri") with
      | none => simp [hu, authError] at htok
      | some u =>
        cases ha : parse (allowedRedirect tool (formValue r "lti_message_hint")) with
        | none => simp [hu, ha, authError] at htok
        | some a =>
          refine ⟨u, a, rfl, rfl, ?_⟩
          by_contra hne
          have hne' : u.Scheme ≠ a.Scheme ∨ u.Host ≠ a.Host ∨ u.Path ≠ a.Path := by
            by_contra hcon
            push_neg at hcon
            exact hne hcon
          simp [hu, ha, hne', authError] at htok

/-- C5 at concrete inputs: the evil redirect of the launch is answered 400, an
unknown client likewise. -/
theorem C5_redirect_must_match_allowed_witness :
    (oidcAuth urlParse samplePlatform [sampleTool] [] sampleDB 5 "r"
      ⟨[], [("client_id", "c1"), ("redirect_uri", "https://evil/launch")],
        [("lti_corr", "s1")]⟩).1.status = 400 ∧
    (oidcAuth urlParse samplePlatform [sampleTool] [] sampleDB 5 "r"
      ⟨[], [("client_id", "c1"), ("redirect_uri", "https://evil/launch")],
        [("lti_corr", "s1")]⟩).1.idToken = none :=
  ((C5_redirect_must_match_allowed urlParse samplePlatform [sampleTool] [] sampleDB 5 "r"
      ⟨[], [("client_id", "c1"), ("redirect_uri", "https://evil/launch")], [("lti_corr", "s1")]⟩
      (by decide) (by decide) ("lti_corr", "s1") (by decide) (by decide) (by decide)
      (by decide)).2 sampleTool (by decide)).2.2.2.1
    ⟨"https", "evil", "/launch"⟩ ⟨"https", "tool", "/launch"⟩ (by decide) (by decide)
    (by decide)

/-! ## Service guards -/

theorem agsInnerLoop_iff (need : String) (parts : List String) :
    agsInnerLoop need parts = true ↔ need ∈ parts := by
  induction parts with
  | nil => simp [agsInnerLoop]
  | cons a l ih =>
    unfold agsInnerLoop
    by_cases ha : a = need
    · simp [ha]
    · have : need ≠ a := fun h => ha h.symm
      simp [ha, ih, this]

theorem agsOuterLoop_iff (parts required : List String) :
    agsOuterLoop parts required = true ↔ ∃ need ∈ required, need ∈ parts := by
  induction required with
  | nil => simp [agsOuterLoop]
  | cons a l ih =>
    unfold agsOuterLoop
    by_cases ha : agsInnerLoop a parts = true
    · simp only [ha, if_true, true_iff]
      exact ⟨a, List.mem_cons_self _ _, (agsInnerLoop_iff a parts).mp ha⟩
    · simp only [ha, if_false, Bool.false_eq_true, ih, List.mem_cons, exists_eq_or_imp]
      constructor
      · intro hx; exact Or.inr hx
      · rintro (h1 | h2)
        · exact absurd ((agsInnerLoop_iff a parts).mpr h1) ha
        · exact h2

theorem hasAllScopes_iff (v : ClaimValue) (required : List String) :
    hasAllScopes v required = true ↔ ∀ req ∈ required, req ∈ scopeSet v := by
  unfold hasAllScopes
  simp [List.all_eq_true]

/-- The AGS guard on a valid bearer token: it passes exactly when the computed
flag `ok` is set, and answers 403 otherwise. -/
theorem ags_valid_token (wire : String → Option JWT) (h : Platform) (required : List String)
    (now : Nat) (auth pub : String) (tok : JWT)
    (hauth : ¬ (auth = "" ∨ hasBearerPrefix auth = false))
    (hkey : h.signingKey = some pub)
    (hparse : jwtParse wire now (bearerToken auth) [pub] (some (h.issuer ++ "/api")) = some tok) :
    agsRequireScopes wire h required now auth =
      if (if agsScopeStr tok ≠ "" ∧ required.length = 0 then true
          else if agsScopeStr tok ≠ "" then agsOuterLoop (Fields (agsScopeStr tok)) required
          else false) = false then
        GuardResult.reject 403
          (some ("Bearer realm=\"lti-ags\", error=\"insufficient_scope\", scope=\""
            ++ Join required " " ++ "\""))
          "insufficient_scope"
      else GuardResult.next := by
  unfold agsRequireScopes
  simp only [hauth, if_false, hkey, hparse]

/-- The NRPS guard on a valid bearer token. -/
theorem nrps_valid_token (wire : String → Option JWT) (h : Platform) (required : List String)
    (now : Nat) (auth pub : String) (tok : JWT)
    (hauth : ¬ (auth = "" ∨ hasBearerPrefix auth = false))
    (hkey : h.signingKey = some pub)
    (hparse : jwtParse wire now (bearerToken auth) [pub] none = some tok) :
    nrpsRequireScopes wire h required now auth =
      if (match tok.scope with
          | some v => hasAllScopes v required
          | none => false) = false then
        GuardResult.reject 403 (some "Bearer error=\"insufficient_scope\"") "insufficientScope"
      else GuardResult.next := by
  unfold nrpsRequireScopes requireBearerScopes
  simp only [hauth, if_false, hkey, hparse]

theorem fields_empty : Fields "" = [] := by decide

/-- C8: for a non-empty list of required scopes and a valid bearer token whose
scope claim is the string `s`, the AGS guard calls the handler exactly when
some required scope is one of the whitespace-separated fields of `s`;
otherwise it answers 403 with `error="insufficient_scope"` and the required
scopes, joined by spaces, in `WWW-Authenticate`, and does not call the
handler. -/
theorem C8_ags_passes_on_any_required_scope (wire : String → Option JWT) (h : Platform)
    (required : List String) (now : Nat) (auth pub : String) (tok : JWT) (s : String)
    (hreq : required ≠ [])
    (hauth : ¬ (auth = "" ∨ hasBearerPrefix auth = false))
    (hkey : h.signingKey = some pub)
    (hparse : jwtParse wire now (bearerToken auth) [pub] (some (h.issuer ++ "/api")) = some tok)
    (hscope : tok.scope = some (ClaimValue.str s)) :
    (agsRequireScopes wire h required now auth = GuardResult.next ↔
      ∃ need ∈ required, need ∈ Fields s) ∧
    (¬ (∃ need ∈ required, need ∈ Fields s) →
      agsRequireScopes wire h required now auth =
        GuardResult.reject 403
          (some ("Bearer realm=\"lti-ags\", error=\"insufficient_scope\", scope=\""
            ++ Join required " " ++ "\""))
          "insufficient_scope") := by
  have hstr : agsScopeStr tok = s := by simp [agsScopeStr, hscope]
  have hlen : ¬ required.length = 0 := by
    intro h0; exact hreq (List.length_eq_zero.mp h0)
  rw [ags_valid_token wire h required now auth pub tok hauth hkey hparse, hstr]
  by_cases hs : s = ""
  · subst hs
    simp [fields_empty]
  · simp only [hs, hlen, ne_eq, not_false_eq_true, and_false, if_false, if_true]
    by_cases hl : agsOuterLoop (Fields s) required = true
    · have := (agsOuterLoop_iff (Fields s) required).mp hl
      simp [hl, this]
    · have hn : ¬ ∃ need ∈ required, need ∈ Fields s :=
        fun hx => hl ((agsOuterLoop_iff (Fields s) required).mpr hx)
      simp [hl, hn]

/-- C8 at a concrete token: a token with scope `score lineitem` passes the
guard of the score endpoint and is refused by a guard that needs another
scope. -/
theorem C8_ags_passes_on_any_required_scope_witness :
    agsRequireScopes (wireOf (sampleToken ["https://platform.example/api"]
        (some (ClaimValue.str "score lineitem")))) samplePlatform ["result", "score"] 500
        "Bearer tok" = GuardResult.next ∧
    agsRequireScopes (wireOf (sampleToken ["https://platform.example/api"]
        (some (ClaimValue.str "score lineitem")))) samplePlatform ["result"] 500
        "Bearer tok" =
      GuardResult.reject 403
        (some "Bearer realm=\"lti-ags\", error=\"insufficient_scope\", scope=\"result\"")
        "insufficient_scope" :=
  ⟨(C8_ags_passes_on_any_required_scope (wireOf (sampleToken ["https://platform.example/api"]
        (some (ClaimValue.str "score lineitem")))) samplePlatform ["result", "score"] 500
        "Bearer tok" "platform-kid" (sampleToken ["https://platform.example/api"]
        (some (ClaimValue.str "score lineitem"))) "score lineitem"
        (by decide) (by decide) rfl (by decide) rfl).1.mpr ⟨"score", by decide, by decide⟩,
   (C8_ags_passes_on_any_required_scope (wireOf (sampleToken ["https://platform.example/api"]
        (some (ClaimValue.str "score lineitem")))) samplePlatform ["result"] 500
        "Bearer tok" "platform-kid" (sampleToken ["https://platform.example/api"]
        (some (ClaimValue.str "score lineitem"))) "score lineitem"
        (by decide) (by decide) rfl (by decide) rfl).2 (by decide)⟩

/-- The NRPS guard on a valid bearer token, for every list of required
scopes: it calls the handler exactly when the token carries a scope claim and
every required scope is among the scopes of that claim; otherwise it answers
403. -/
theorem nrps_passes_iff_claim_and_all_scopes (wire : String → Option JWT) (h : Platform)
    (required : List String) (now : Nat) (auth pub : String) (tok : JWT)
    (hauth : ¬ (auth = "" ∨ hasBearerPrefix auth = false))
    (hkey : h.signingKey = some pub)
    (hparse : jwtParse wire now (bearerToken auth) [pub] none = some tok) :
    (nrpsRequireScopes wire h required now auth = GuardResult.next ↔
      tok.scope ≠ none ∧ ∀ req ∈ required, req ∈ tokenScopes tok) ∧
    (¬ (tok.scope ≠ none ∧ ∀ req ∈ required, req ∈ tokenScopes tok) →
      nrpsRequireScopes wire h required now auth =
        GuardResult.reject 403 (some "Bearer error=\"insufficient_scope\"")
          "insufficientScope") := by
  rw [nrps_valid_token wire h required now auth pub tok hauth hkey hparse]
  unfold tokenScopes
  cases hs : tok.scope with
  | none => simp
  | some v =>
    by_cases hall : hasAllScopes v required = true
    · have := (hasAllScopes_iff v required).mp hall
      simp only [hall, Bool.true_eq_false, if_false, ne_eq, reduceCtorEq, not_false_eq_true,
        true_and, true_iff]
      exact ⟨this, fun hn => absurd this hn⟩
    · have hn : ¬ ∀ req ∈ required, req ∈ scopeSet v :=
        fun hx => hall ((hasAllScopes_iff v required).mpr hx)
      have hf : hasAllScopes v required = false := by simpa using hall
      simp only [hf, if_true, reduceCtorEq, false_iff, not_and]
      exact ⟨fun _ => hn, fun _ => trivial⟩

/-- C9: for every list of required scopes and every valid bearer token, where
the list is not empty or the token carries a scope claim, the NRPS guard calls
the handler if and only if every required scope is among the scopes of the
token's scope claim (none for a token without the claim); otherwise it answers
403 and the handler is not run.  The router builds the guard with one required
scope. -/
theorem C9_nrps_passes_iff_all_required_scopes (wire : String → Option JWT) (h : Platform)
    (required : List String) (now : Nat) (auth pub : String) (tok : JWT)
    (hdom : required ≠ [] ∨ tok.scope ≠ none)
    (hauth : ¬ (auth = "" ∨ hasBearerPrefix auth = false))
    (hkey : h.signingKey = some pub)
    (hparse : jwtParse wire now (bearerToken auth) [pub] none = some tok) :
    (nrpsRequireScopes wire h required now auth = GuardResult.next ↔
      ∀ req ∈ required, req ∈ tokenScopes tok) ∧
    (¬ (∀ req ∈ required, req ∈ tokenScopes tok) →
      nrpsRequireScopes wire h required now auth =
        GuardResult.reject 403 (some "Bearer error=\"insufficient_scope\"")
          "insufficientScope") := by
  have key := nrps_passes_iff_claim_and_all_scopes wire h required now auth pub tok hauth hkey
    hparse
  by_cases hs : tok.scope = none
  · have hreq : required ≠ [] := by
      rcases hdom with h1 | h1
      · exact h1
      · exact absurd hs h1
    have hnot : ¬ ∀ req ∈ required, req ∈ tokenScopes tok := by
      intro hall
      cases hr : required with
      | nil => exact hreq hr
      | cons a rest =>
        have := hall a (by rw [hr]; exact List.mem_cons_self _ _)
        simp [tokenScopes, hs] at this
    have hrej := key.2 (fun hc => hc.1 hs)
    refine ⟨⟨fun hn => ?_, fun hall => absurd hall hnot⟩, fun _ => hrej⟩
    rw [hrej] at hn
    cases hn
  · refine ⟨⟨fun hn => (key.1.mp hn).2, fun hall => key.1.mpr ⟨hs, hall⟩⟩, fun hno => ?_⟩
    exact key.2 (fun hc => hno hc.2)

/-- C9 at concrete tokens and the guard of the router: the membership scope
passes, a token with another scope is refused, and so is a token without a
scope claim. -/
theorem C9_nrps_passes_iff_all_required_scopes_witness :
    nrpsRequireScopes (wireOf (sampleToken ["https://platform.example/api"]
        (some (ClaimValue.str nrpsScope)))) samplePlatform [nrpsScope] 500 "Bearer tok"
      = GuardResult.next ∧
    nrpsRequireScopes (wireOf (sampleToken ["https://platform.example/api"]
        (some (ClaimValue.str "score")))) samplePlatform [nrpsScope] 500 "Bearer tok"
      = GuardResult.reject 403 (some "Bearer error=\"insufficient_scope\"")
          "insufficientScope" ∧
    nrpsRequireScopes (wireOf (sampleToken ["https://platform.example/api"] none))
        samplePlatform [nrpsScope] 500 "Bearer tok"
      = GuardResult.reject 403 (some "Bearer error=\"insufficient_scope\"")
          "insufficientScope" :=
  ⟨(C9_nrps_passes_iff_all_required_scopes (wireOf (sampleToken ["https://platform.example/api"]
        (some (ClaimValue.str nrpsScope)))) samplePlatform [nrpsScope] 500 "Bearer tok"
        "platform-kid" (sampleToken ["https://platform.example/api"]
        (some (ClaimValue.str nrpsScope))) (Or.inl (by decide)) (by decide) rfl
        (by decide)).1.mpr (by decide),
   (C9_nrps_passes_iff_all_required_scopes (wireOf (sampleToken ["https://platform.example/api"]
        (some (ClaimValue.str "score")))) samplePlatform [nrpsScope] 500 "Bearer tok"
        "platform-kid" (sampleToken ["https://platform.example/api"]
        (some (ClaimValue.str "score"))) (Or.inl (by decide)) (by decide) rfl
        (by decide)).2 (by decide),
   (C9_nrps_passes_iff_all_required_scopes (wireOf (sampleToken ["https://platform.example/api"]
        none)) samplePlatform [nrpsScope] 500 "Bearer tok"
        "platform-kid" (sampleToken ["https://platform.example/api"] none)
        (Or.inl (by decide)) (by decide) rfl (by decide)).2 (by decide)⟩

theorem fieldsLoop_word (w : List Char) (hw : ∀ c ∈ w, isSpace c = false) :
    ∀ (cur rest : List Char), fieldsLoop cur (w ++ rest) = fieldsLoop (w.reverse ++ cur) rest := by
  induction w with
  | nil => intro cur rest; rfl
  | cons c w ih =>
    intro cur rest
    have hc : isSpace c = false := hw c (List.mem_cons_self _ _)
    have hw' : ∀ d ∈ w, isSpace d = false := fun d hd => hw d (List.mem_cons_of_mem _ hd)
    rw [List.cons_append, fieldsLoop]
    simp only [hc, Bool.false_eq_true, if_false]
    rw [ih hw' (c :: cur) rest]
    simp

theorem join_cons_cons_data (a b : String) (rest : List String) :
    (Join (a :: b :: rest) " ").data = a.data ++ ' ' :: (Join (b :: rest) " ").data := by
  simp [Join, String.data_append]

/-- Function `strings.Fields` undoes `strings.Join(xs, " ")` on non-empty scopes that
contain no white space. -/
theorem fields_join (xs : List String)
    (hwf : ∀ x ∈ xs, x ≠ "" ∧ ∀ c ∈ x.data, isSpace c = false) :
    Fields (Join xs " ") = xs := by
  induction xs with
  | nil => exact fields_empty
  | cons a l ih =>
    obtain ⟨hane, haw⟩ := hwf a (List.mem_cons_self _ _)
    have hl : ∀ x ∈ l, x ≠ "" ∧ ∀ c ∈ x.data, isSpace c = false :=
      fun x hx => hwf x (List.mem_cons_of_mem _ hx)
    have hdata : a.data ≠ [] := by
      intro h0
      apply hane
      cases a
      simp_all
    have hrev : a.data.reverse ≠ [] := by simpa using hdata
    cases l with
    | nil =>
      unfold Fields
      have := fieldsLoop_word a.data haw [] []
      simp only [List.append_nil] at this
      simp only [Join]
      rw [this, fieldsLoop]
      simp [hrev]
    | cons b rest =>
      have ih' := ih hl
      unfold Fields at ih' ⊢
      rw [join_cons_cons_data, fieldsLoop_word a.data haw [] _]
      simp only [List.append_nil]
      rw [fieldsLoop]
      have hsp : isSpace ' ' = true := by decide
      simp only [hsp, if_true, hrev, if_false, List.reverse_reverse]
      rw [ih']

theorem scopeSet_items_some (xs : List String) :
    scopeSet (ClaimValue.items (xs.map some)) = xs := by
  unfold scopeSet
  induction xs with
  | nil => rfl
  | cons a l ih => simp [List.filterMap_cons, ih]

/-- The NRPS guard reads a list claim like the joined string: for every list
`xs` of non-empty scopes free of white space, a valid token whose scope claim
is the list `xs` (a `[]string` or a JSON array of strings) gets from the NRPS
guard the same answer as a valid token whose scope claim is `xs` joined by
spaces. -/
theorem nrps_list_claim_equals_joined_string (wire : String → Option JWT) (h : Platform)
    (required xs : List String) (now : Nat) (authL authS pub : String) (tokL tokS : JWT)
    (hwf : ∀ x ∈ xs, x ≠ "" ∧ ∀ c ∈ x.data, isSpace c = false)
    (hauthL : ¬ (authL = "" ∨ hasBearerPrefix authL = false))
    (hauthS : ¬ (authS = "" ∨ hasBearerPrefix authS = false))
    (hkey : h.signingKey = some pub)
    (hparseL : jwtParse wire now (bearerToken authL) [pub] none = some tokL)
    (hparseS : jwtParse wire now (bearerToken authS) [pub] none = some tokS)
    (hL : tokL.scope = some (ClaimValue.strs xs) ∨
      tokL.scope = some (ClaimValue.items (xs.map some)))
    (hS : tokS.scope = some (ClaimValue.str (Join xs " "))) :
    nrpsRequireScopes wire h required now authL =
      nrpsRequireScopes wire h required now authS := by
  rw [nrps_valid_token wire h required now authL pub tokL hauthL hkey hparseL,
    nrps_valid_token wire h required now authS pub tokS hauthS hkey hparseS, hS]
  have hset : ∀ v, tokL.scope = some v →
      (v = ClaimValue.strs xs ∨ v = ClaimValue.items (xs.map some)) →
      hasAllScopes v required = hasAllScopes (ClaimValue.str (Join xs " ")) required := by
    intro v _ hv
    unfold hasAllScopes
    have h1 : scopeSet v = xs := by
      rcases hv with rfl | rfl
      · rfl
      · exact scopeSet_items_some xs
    have h2 : scopeSet (ClaimValue.str (Join xs " ")) = xs := by
      unfold scopeSet
      exact fields_join xs hwf
    rw [h1, h2]
  rcases hL with hL | hL
  · rw [hL]
    simp only [hset _ hL (Or.inl rfl)]
  · rw [hL]
    simp only [hset _ hL (Or.inr rfl)]

/-- The AGS guard takes the scope claim through `scopes.(string)`: a valid
token whose scope claim is a list is answered 403, whatever the list and the
required scopes. -/
theorem ags_list_claim_refused (wire : String → Option JWT) (h : Platform)
    (required xs : List String) (ys : List (Option String)) (now : Nat) (auth pub : String)
    (tok : JWT)
    (hauth : ¬ (auth = "" ∨ hasBearerPrefix auth = false))
    (hkey : h.signingKey = some pub)
    (hparse : jwtParse wire now (bearerToken auth) [pub] (some (h.issuer ++ "/api")) = some tok)
    (hL : tok.scope = some (ClaimValue.strs xs) ∨ tok.scope = some (ClaimValue.items ys)) :
    agsRequireScopes wire h required now auth =
      GuardResult.reject 403
        (some ("Bearer realm=\"lti-ags\", error=\"insufficient_scope\", scope=\""
          ++ Join required " " ++ "\""))
        "insufficient_scope" := by
  rw [ags_valid_token wire h required now auth pub tok hauth hkey hparse]
  have hstr : agsScopeStr tok = "" := by
    unfold agsScopeStr
    rcases hL with hL | hL <;> rw [hL]
  simp [hstr]

/-- C10 at a concrete token: a valid token whose scope claim is the JSON array
holding the AGS score scope is answered 403 by the AGS guard of the score
endpoint, while the token with that scope as a string is admitted; the NRPS
guard admits the membership scope in both forms. -/
theorem C10_ags_refuses_list_claim :
    agsRequireScopes (wireOf (sampleToken ["https://platform.example/api"]
        (some (ClaimValue.items [some "https://purl.imsglobal.org/spec/lti-ags/scope/score"]))))
        samplePlatform ["https://purl.imsglobal.org/spec/lti-ags/scope/score"] 500 "Bearer tok"
      = GuardResult.reject 403
          (some ("Bearer realm=\"lti-ags\", error=\"insufficient_scope\", scope=\""
            ++ "https://purl.imsglobal.org/spec/lti-ags/scope/score" ++ "\""))
          "insufficient_scope" ∧
    agsRequireScopes (wireOf (sampleToken ["https://platform.example/api"]
        (some (ClaimValue.str (Join ["https://purl.imsglobal.org/spec/lti-ags/scope/score"]
          " "))))) samplePlatform ["https://purl.imsglobal.org/spec/lti-ags/scope/score"] 500
        "Bearer tok" = GuardResult.next ∧
    nrpsRequireScopes (wireOf (sampleToken ["https://platform.example/api"]
        (some (ClaimValue.items [some nrpsScope])))) samplePlatform [nrpsScope] 500 "Bearer tok"
      = GuardResult.next ∧
    nrpsRequireScopes (wireOf (sampleToken ["https://platform.example/api"]
        (some (ClaimValue.str (Join [nrpsScope] " "))))) samplePlatform [nrpsScope] 500
        "Bearer tok" = GuardResult.next := by
  decide

/-- C7, violated by the NRPS guard: a token signed with the platform key,
unexpired, carrying the membership scope, whose audience is another service
(not issuer + "/api") is answered 401 by the AGS guard but admitted by the
NRPS guard, which parses without `jwt.WithAudience`. -/
theorem C7_nrps_admits_foreign_audience :
    agsRequireScopes (wireOf (sampleToken ["https://other.example/api"]
        (some (ClaimValue.str nrpsScope)))) samplePlatform [nrpsScope] 500 "Bearer tok"
      = GuardResult.reject 401
          (some "Bearer realm=\"lti-ags\", error=\"invalid_token\", error_description=\"expired or invalid token\"")
          "invalid or expired token" ∧
    nrpsRequireScopes (wireOf (sampleToken ["https://other.example/api"]
        (some (ClaimValue.str nrpsScope)))) samplePlatform [nrpsScope] 500 "Bearer tok"
      = GuardResult.next := by
  decide

/-! ## Token endpoint -/

/-- The checks of `oauth2Token` after validation, for a tool with a registered
client id: a token is issued only if iss or sub equals the client id, the jti
is non-empty and the jti was fresh; in every other case the answer is 401
`invalid_client`; and with an initialised key the token is issued. -/
theorem issueForTool_spec (h : Platform) (db : ValidationDB) (now : Nat) (rnd scope : String)
    (tool : Tool) (parsed : JWT) (hcid : tool.ClientID ≠ "") :
    ((issueForTool h db now rnd scope tool parsed).1.accessToken ≠ none →
      (parsed.iss = tool.ClientID ∨ parsed.sub = tool.ClientID) ∧ parsed.jti ≠ "" ∧
      (TryUseClientAssertionJTI db now parsed.jti tool.ClientID parsed.exp).1
        = JTIOutcome.ok true) ∧
    (¬ ((parsed.iss = tool.ClientID ∨ parsed.sub = tool.ClientID) ∧ parsed.jti ≠ "" ∧
        (TryUseClientAssertionJTI db now parsed.jti tool.ClientID parsed.exp).1
          = JTIOutcome.ok true) →
      (issueForTool h db now rnd scope tool parsed).1.status = 401 ∧
      (issueForTool h db now rnd scope tool parsed).1.error = "invalid_client" ∧
      (issueForTool h db now rnd scope tool parsed).1.accessToken = none) ∧
    ((parsed.iss = tool.ClientID ∨ parsed.sub = tool.ClientID) → parsed.jti ≠ "" →
      (TryUseClientAssertionJTI db now parsed.jti tool.ClientID parsed.exp).1
        = JTIOutcome.ok true →
      h.signingKey ≠ none →
      (issueForTool h db now rnd scope tool parsed).1.status = 200 ∧
      (issueForTool h db now rnd scope tool parsed).1.accessToken ≠ none ∧
      (issueForTool h db now rnd scope tool parsed).2
        = (TryUseClientAssertionJTI db now parsed.jti tool.ClientID parsed.exp).2) := by
  by_cases hmatch : parsed.iss = tool.ClientID ∨ parsed.sub = tool.ClientID
  · have hm : ¬ (parsed.iss ≠ tool.ClientID ∧ parsed.sub ≠ tool.ClientID) := by
      rintro ⟨h1, h2⟩
      rcases hmatch with h3 | h3
      · exact h1 h3
      · exact h2 h3
    by_cases hj : parsed.jti = ""
    · unfold issueForTool
      simp [hcid, hm, hj, writeOAuthError]
    · rcases tryUse_cases db now parsed.jti tool.ClientID parsed.exp hj with ⟨_, ht⟩ | ⟨_, ht⟩
      · unfold issueForTool
        simp [hcid, hm, hj, ht, writeOAuthError]
      · cases hk : h.signingKey with
        | none =>
          unfold issueForTool
          simp [hcid, hm, hj, ht, hk, hmatch, writeOAuthError]
        | some kid =>
          unfold issueForTool
          simp [hcid, hm, hj, ht, hk, hmatch]
  · have hm : parsed.iss ≠ tool.ClientID ∧ parsed.sub ≠ tool.ClientID := by
      constructor
      · exact fun h1 => hmatch (Or.inl h1)
      · exact fun h1 => hmatch (Or.inr h1)
    unfold issueForTool
    simp [hcid, hm, hmatch, writeOAuthError]

/-- A second presentation of an assertion, made at a time at which the
cleanup of the jti table does not delete the row recorded for it, is answered
401 `invalid_client`. -/
theorem issueForTool_replay (h : Platform) (db : ValidationDB) (now now2 : Nat)
    (rnd rnd2 scope scope2 : String) (tool : Tool) (parsed : JWT) (hcid : tool.ClientID ≠ "")
    (hfirst : (issueForTool h db now rnd scope tool parsed).1.accessToken ≠ none)
    (hlive : sqlExpired parsed.exp now2 = false) :
    (issueForTool h (issueForTool h db now rnd scope tool parsed).2 now2 rnd2 scope2 tool
        parsed).1.status = 401 ∧
    (issueForTool h (issueForTool h db now rnd scope tool parsed).2 now2 rnd2 scope2 tool
        parsed).1.error = "invalid_client" := by
  obtain ⟨hmatch, hj, hfresh⟩ := (issueForTool_spec h db now rnd scope tool parsed hcid).1 hfirst
  have hkey : h.signingKey ≠ none := by
    intro hk
    apply hfirst
    unfold issueForTool
    have hm : ¬ (parsed.iss ≠ tool.ClientID ∧ parsed.sub ≠ tool.ClientID) := by
      rintro ⟨h1, h2⟩
      rcases hmatch with h3 | h3
      · exact h1 h3
      · exact h2 h3
    simp only [hcid, hm, hj, hfresh, hk, ne_eq, not_true_eq_false, not_false_eq_true,
      false_and, and_false, true_and, if_false]
    split <;> simp_all [writeOAuthError]
  have hdb := ((issueForTool_spec h db now rnd scope tool parsed hcid).2.2 hmatch hj hfresh
    hkey).2.2
  rw [hdb]
  have hrej := ((tryUse_second_use db now parsed.jti tool.ClientID parsed.exp hj) hfresh
    now2 tool.ClientID parsed.exp hlive)
  have hnot : ¬ ((parsed.iss = tool.ClientID ∨ parsed.sub = tool.ClientID) ∧ parsed.jti ≠ "" ∧
      (TryUseClientAssertionJTI
        (TryUseClientAssertionJTI db now parsed.jti tool.ClientID parsed.exp).2 now2
        parsed.jti tool.ClientID parsed.exp).1 = JTIOutcome.ok true) := by
    rintro ⟨_, _, h3⟩
    rw [hrej] at h3
    simp at h3
  have := (issueForTool_spec h _ now2 rnd2 scope2 tool parsed hcid).2.1 hnot
  exact ⟨this.1, this.2.1⟩

/-- C6, violated for an assertion without an `exp` claim: jwx validation
passes (an absent `exp` is not checked), the jti is recorded with the zero
expiry, the next call's cleanup deletes that row, and the same assertion is
answered 200 a second time. -/
theorem C6_assertion_without_exp_replayed :
    (oauth2Token (wireOf assertionNoExp) sampleJWKS samplePlatform [sampleTool] emptyDB 200
        "r1" (some sampleTokenForm)).1.status = 200 ∧
    (oauth2Token (wireOf assertionNoExp) sampleJWKS samplePlatform [sampleTool]
        (oauth2Token (wireOf assertionNoExp) sampleJWKS samplePlatform [sampleTool] emptyDB 200
          "r1" (some sampleTokenForm)).2
        201 "r2" (some sampleTokenForm)).1.status = 200 ∧
    (oauth2Token (wireOf assertionNoExp) sampleJWKS samplePlatform [sampleTool]
        (oauth2Token (wireOf assertionNoExp) sampleJWKS samplePlatform [sampleTool] emptyDB 200
          "r1" (some sampleTokenForm)).2
        201 "r2" (some sampleTokenForm)).1.accessToken ≠ none := by
  decide

/-- The round trip of an issued access token: while it is unexpired, both
guards with the single required scope `R` admit it exactly when `R` is one of
the fields of the requested scope string `S`. -/
theorem issued_token_guards (wire : String → Option JWT) (h : Platform) (now now2 : Nat)
    (auth kid sub rnd S R : String)
    (hkey : h.signingKey = some kid)
    (hauth : ¬ (auth = "" ∨ hasBearerPrefix auth = false))
    (hwire : wire (bearerToken auth) =
      some ⟨kid, h.issuer, sub, [h.issuer ++ "/api"], now + 60, now, 0, rnd,
        some (ClaimValue.str S)⟩)
    (h1 : now ≤ now2) (h2 : now2 < now + 60) :
    (agsRequireScopes wire h [R] now2 auth = GuardResult.next ↔ R ∈ Fields S) ∧
    (nrpsRequireScopes wire h [R] now2 auth = GuardResult.next ↔ R ∈ Fields S) := by
  have hval : jwtValidate now2 ⟨kid, h.issuer, sub, [h.issuer ++ "/api"], now + 60, now, 0, rnd,
      some (ClaimValue.str S)⟩ = true := by
    simp [jwtValidate, h1, h2]
  have hpA : jwtParse wire now2 (bearerToken auth) [kid] (some (h.issuer ++ "/api")) =
      some ⟨kid, h.issuer, sub, [h.issuer ++ "/api"], now + 60, now, 0, rnd,
        some (ClaimValue.str S)⟩ := by
    unfold jwtParse
    simp [hwire, hval]
  have hpN : jwtParse wire now2 (bearerToken auth) [kid] none =
      some ⟨kid, h.issuer, sub, [h.issuer ++ "/api"], now + 60, now, 0, rnd,
        some (ClaimValue.str S)⟩ := by
    unfold jwtParse
    simp [hwire, hval]
  constructor
  · rw [ags_valid_token wire h [R] now2 auth kid _ hauth hkey hpA]
    by_cases hs : S = ""
    · subst hs
      simp [agsScopeStr, fields_empty]
    · by_cases hl : agsOuterLoop (Fields S) [R] = true
      · have := (agsOuterLoop_iff (Fields S) [R]).mp hl
        simp only [List.mem_singleton, exists_eq_left] at this
        simp [agsScopeStr, hs, hl, this]
      · have hn : ¬ R ∈ Fields S := fun hx =>
          hl ((agsOuterLoop_iff (Fields S) [R]).mpr ⟨R, List.mem_singleton_self R, hx⟩)
        simp [agsScopeStr, hs, hl, hn]
  · rw [nrps_valid_token wire h [R] now2 auth kid _ hauth hkey hpN]
    by_cases hl : hasAllScopes (ClaimValue.str S) [R] = true
    · have := (hasAllScopes_iff (ClaimValue.str S) [R]).mp hl R (List.mem_singleton_self R)
      simp only [scopeSet] at this
      simp [hl, this]
    · have hn : ¬ R ∈ Fields S := fun hx =>
        hl ((hasAllScopes_iff (ClaimValue.str S) [R]).mpr (fun q hq => by
          rw [List.mem_singleton] at hq; subst hq; exact hx))
      simp [hl, hn]

/-! ## AGS store -/

theorem resultKeyIs_iff (k : Int × String × String) (r : ResultRow) :
    resultKeyIs k r = true ↔ (r.line_item_id, r.context_id, r.user_id) = k := by
  obtain ⟨a, b, c⟩ := k
  simp [resultKeyIs, and_assoc]

/-- Overwriting the payload of a row that has the key of the call gives the row
of the call. -/
theorem overwrite_eq_row (c : UpsertCall) (r : ResultRow) (h : resultKeyIs c.key r = true) :
    ({ r with result_score := c.score.ScoreGiven, result_maximum := c.score.ScoreMaximum,
              comment := c.score.Comment, timestamp := c.score.Timestamp,
              activity_progress := c.score.ActivityProgress,
              grading_progress := c.score.GradingProgress } : ResultRow) = c.row := by
  have hk := (resultKeyIs_iff c.key r).mp h
  simp only [UpsertCall.key, Prod.mk.injEq] at hk
  obtain ⟨h1, h2, h3⟩ := hk
  simp [UpsertCall.row, h1, h2, h3]

theorem row_has_key (c : UpsertCall) : resultKeyIs c.key c.row = true := by
  simp [resultKeyIs, UpsertCall.key, UpsertCall.row]

/-- The upsert as a function of the call. -/
theorem upsert_eq (rows : List ResultRow) (c : UpsertCall) :
    UpsertResultFromScore rows c.lineItemID c.contextID c.score =
      if rows.any (resultKeyIs c.key) then
        rows.map (fun r => if resultKeyIs c.key r then c.row else r)
      else rows ++ [c.row] := by
  unfold UpsertResultFromScore
  by_cases hany : rows.any (resultKeyIs c.key) = true
  · have hany' : rows.any (resultKeyIs (c.lineItemID, c.contextID, c.score.UserID)) = true := hany
    rw [if_pos hany, if_pos hany']
    apply List.map_congr_left
    intro r _
    by_cases hr : resultKeyIs c.key r = true
    · have hr' : resultKeyIs (c.lineItemID, c.contextID, c.score.UserID) r = true := hr
      rw [if_pos hr, if_pos hr']
      exact overwrite_eq_row c r hr
    · have hr' : ¬ resultKeyIs (c.lineItemID, c.contextID, c.score.UserID) r = true := hr
      rw [if_neg hr, if_neg hr']
  · have hany' : ¬ rows.any (resultKeyIs (c.lineItemID, c.contextID, c.score.UserID)) = true :=
      hany
    rw [if_neg hany, if_neg hany']
    rfl

theorem filter_map_overwrite_same (c : UpsertCall) (rows : List ResultRow) :
    (rows.map (fun r => if resultKeyIs c.key r then c.row else r)).filter (resultKeyIs c.key)
      = List.replicate (rows.filter (resultKeyIs c.key)).length c.row := by
  induction rows with
  | nil => rfl
  | cons a l ih =>
    simp only [List.map_cons, List.filter_cons]
    by_cases ha : resultKeyIs c.key a = true
    · simp [ha, row_has_key, ih, List.replicate_succ]
    · simp [ha, ih]

theorem filter_map_overwrite_other (c : UpsertCall) (k : Int × String × String)
    (hk : k ≠ c.key) (rows : List ResultRow) :
    (rows.map (fun r => if resultKeyIs c.key r then c.row else r)).filter (resultKeyIs k)
      = rows.filter (resultKeyIs k) := by
  have hrow : resultKeyIs k c.row = false := by
    rw [Bool.eq_false_iff]
    intro h
    have h1 := (resultKeyIs_iff k c.row).mp h
    have h2 := (resultKeyIs_iff c.key c.row).mp (row_has_key c)
    exact hk (h1.symm.trans h2)
  induction rows with
  | nil => rfl
  | cons a l ih =>
    simp only [List.map_cons, List.filter_cons]
    by_cases ha : resultKeyIs c.key a = true
    · have hak : resultKeyIs k a = false := by
        rw [Bool.eq_false_iff]
        intro h
        have h1 := (resultKeyIs_iff k a).mp h
        have h2 := (resultKeyIs_iff c.key a).mp ha
        exact hk (h1.symm.trans h2)
      simp [ha, hrow, hak, ih]
    · simp [ha, ih]

/-- An upsert leaves the rows of every other key as they were. -/
theorem upsert_filter_other (rows : List ResultRow) (c : UpsertCall)
    (k : Int × String × String) (hk : k ≠ c.key) :
    (UpsertResultFromScore rows c.lineItemID c.contextID c.score).filter (resultKeyIs k)
      = rows.filter (resultKeyIs k) := by
  have hrow : resultKeyIs k c.row = false := by
    rw [Bool.eq_false_iff]
    intro h
    have h1 := (resultKeyIs_iff k c.row).mp h
    have h2 := (resultKeyIs_iff c.key c.row).mp (row_has_key c)
    exact hk (h1.symm.trans h2)
  rw [upsert_eq]
  split
  · exact filter_map_overwrite_other c k hk rows
  · simp [List.filter_append, hrow]

/-- On a table with at most one row of the written key, an upsert leaves
exactly the row of the call under that key. -/
theorem upsert_filter_same (rows : List ResultRow) (c : UpsertCall)
    (h1 : (rows.filter (resultKeyIs c.key)).length ≤ 1) :
    (UpsertResultFromScore rows c.lineItemID c.contextID c.score).filter (resultKeyIs c.key)
      = [c.row] := by
  rw [upsert_eq]
  by_cases hany : rows.any (resultKeyIs c.key) = true
  · rw [if_pos hany, filter_map_overwrite_same]
    have hpos : 0 < (rows.filter (resultKeyIs c.key)).length := by
      rw [List.any_eq_true] at hany
      obtain ⟨r, hr, hp⟩ := hany
      exact List.length_pos_of_mem (List.mem_filter.mpr ⟨hr, hp⟩)
    have : (rows.filter (resultKeyIs c.key)).length = 1 := by omega
    rw [this]
    rfl
  · rw [if_neg hany]
    have hnil : rows.filter (resultKeyIs c.key) = [] := by
      rw [List.filter_eq_nil_iff]
      intro r hr hp
      exact hany (List.any_eq_true.mpr ⟨r, hr, hp⟩)
    simp [List.filter_append, hnil, row_has_key]

/-- From a table with at most one row per key, a sequence of upserts leaves
under each key the row of the last call that wrote it, or what was there. -/
theorem runUpserts_filter (k : Int × String × String) (calls : List UpsertCall) :
    ∀ rows : List ResultRow, (∀ k', (rows.filter (resultKeyIs k')).length ≤ 1) →
      (runUpserts rows calls).filter (resultKeyIs k) =
        match lastCallFor k calls with
        | some c => [c.row]
        | none => rows.filter (resultKeyIs k) := by
  induction calls with
  | nil => intro rows _; rfl
  | cons c cs ih =>
    intro rows hrows
    have hnext : ∀ k', ((UpsertResultFromScore rows c.lineItemID c.contextID
        c.score).filter (resultKeyIs k')).length ≤ 1 := by
      intro k'
      by_cases hk' : k' = c.key
      · rw [hk', upsert_filter_same rows c (hrows c.key)]
        simp
      · rw [upsert_filter_other rows c k' hk']
        exact hrows k'
    simp only [runUpserts, lastCallFor]
    rw [ih _ hnext]
    cases hl : lastCallFor k cs with
    | some d => rfl
    | none =>
      by_cases hk : c.key = k
      · simp only [hk, if_true]
        rw [← hk]
        exact upsert_filter_same rows c (hrows c.key)
      · simp only [hk, if_false]
        exact upsert_filter_other rows c k (fun h => hk h.symm)

/-- Repeating an upsert with the same payload changes nothing. -/
theorem upsert_idempotent (rows : List ResultRow) (c : UpsertCall) :
    UpsertResultFromScore (UpsertResultFromScore rows c.lineItemID c.contextID c.score)
        c.lineItemID c.contextID c.score
      = UpsertResultFromScore rows c.lineItemID c.contextID c.score := by
  rw [upsert_eq (UpsertResultFromScore rows c.lineItemID c.contextID c.score) c, upsert_eq rows c]
  by_cases hany : rows.any (resultKeyIs c.key) = true
  · simp only [hany, if_true]
    have h2 : (rows.map (fun r => if resultKeyIs c.key r then c.row else r)).any
        (resultKeyIs c.key) = true := by
      rw [List.any_eq_true] at hany ⊢
      obtain ⟨r, hr, hp⟩ := hany
      exact ⟨c.row, List.mem_map.mpr ⟨r, hr, by simp [hp]⟩, row_has_key c⟩
    rw [if_pos h2, List.map_map]
    apply List.map_congr_left
    intro r _
    by_cases hr : resultKeyIs c.key r = true
    · simp [hr, row_has_key]
    · simp [hr]
  · simp only [hany, if_false, Bool.false_eq_true]
    have h2 : (rows ++ [c.row]).any (resultKeyIs c.key) = true := by
      simp [row_has_key]
    rw [if_pos h2, List.map_append]
    congr 1
    · have : ∀ r ∈ rows, (if resultKeyIs c.key r then c.row else r) = r := by
        intro r hr
        have : ¬ resultKeyIs c.key r = true :=
          fun hp => hany (List.any_eq_true.mpr ⟨r, hr, hp⟩)
        simp [this]
      conv_rhs => rw [← List.map_id rows]
      exact List.map_congr_left this
    · simp [row_has_key]

theorem lastCallFor_spec (k : Int × String × String) (calls : List UpsertCall) :
    (∀ c, lastCallFor k calls = some c → c ∈ calls ∧ c.key = k) ∧
    ((∃ c ∈ calls, c.key = k) → ∃ c, lastCallFor k calls = some c) := by
  induction calls with
  | nil => simp [lastCallFor]
  | cons a l ih =>
    simp only [lastCallFor]
    cases hl : lastCallFor k l with
    | some d =>
      refine ⟨?_, fun _ => ⟨d, rfl⟩⟩
      intro c hc
      simp only [Option.some.injEq] at hc
      subst hc
      exact ⟨List.mem_cons_of_mem _ (ih.1 d hl).1, (ih.1 d hl).2⟩
    | none =>
      by_cases ha : a.key = k
      · simp only [ha, if_true]
        refine ⟨?_, fun _ => ⟨a, rfl⟩⟩
        intro c hc
        simp only [Option.some.injEq] at hc
        subst hc
        exact ⟨List.mem_cons_self _ _, ha⟩
      · simp only [ha, if_false]
        refine ⟨fun c hc => by simp at hc, ?_⟩
        rintro ⟨c, hc, hck⟩
        rcases List.mem_cons.mp hc with rfl | hc'
        · exact absurd hck ha
        · obtain ⟨d, hd⟩ := ih.2 ⟨c, hc', hck⟩
          rw [hl] at hd
          simp at hd

/-- C11: for every key `(line_item_id, context_id, user_id)` and every sequence
of `UpsertResultFromScore` calls on an empty results table, the rows of the key
are exactly the one row carrying score, maximum, comment, timestamp and both
progress fields of the last call for that key (no row when no call wrote the
key, one row as soon as a call did); repeating a call with an equal payload
leaves the table unchanged; a call never changes the rows of another key; and
posting scoreGiven 7 then 9 for userX lists a single result with score 9. -/
theorem C11_upsert_last_write_wins (k : Int × String × String) (calls : List UpsertCall) :
    ((runUpserts [] calls).filter (resultKeyIs k) =
      match lastCallFor k calls with
      | some c => [c.row]
      | none => []) ∧
    ((∃ c ∈ calls, c.key = k) →
      ∃ c ∈ calls, c.key = k ∧ (runUpserts [] calls).filter (resultKeyIs k) = [c.row]) ∧
    (∀ (rows : List ResultRow) (c : UpsertCall),
      UpsertResultFromScore (UpsertResultFromScore rows c.lineItemID c.contextID c.score)
          c.lineItemID c.contextID c.score
        = UpsertResultFromScore rows c.lineItemID c.contextID c.score) ∧
    (∀ (rows : List ResultRow) (c : UpsertCall) (k' : Int × String × String), k' ≠ c.key →
      (UpsertResultFromScore rows c.lineItemID c.contextID c.score).filter (resultKeyIs k')
        = rows.filter (resultKeyIs k')) ∧
    ListResultsByLineItem
        (runUpserts [] [⟨1, "ctxA", ⟨"userX", 100, some 7, some 10, "", "Completed", "FullyGraded"⟩⟩,
                        ⟨1, "ctxA", ⟨"userX", 200, some 9, some 10, "", "Completed", "FullyGraded"⟩⟩])
        1 "ctxA"
      = [⟨"userX", some 9, some 10, "", 200, "Completed", "FullyGraded"⟩] := by
  have hmain := runUpserts_filter k calls [] (by intro k'; simp)
  refine ⟨?_, ?_, upsert_idempotent, upsert_filter_other, by decide⟩
  · rw [hmain]
    cases lastCallFor k calls <;> rfl
  · intro hex
    obtain ⟨c, hc⟩ := (lastCallFor_spec k calls).2 hex
    obtain ⟨hmem, hkey⟩ := (lastCallFor_spec k calls).1 c hc
    refine ⟨c, hmem, hkey, ?_⟩
    rw [hmain, hc]

/-! ## Line-item mapping -/

theorem createMapping_cases (t : List (Int × String)) (L : Int) (R : String) :
    ((∃ m ∈ t, m.1 = L ∨ m.2 = R) ∧ CreateLineItemMapping t L R = (false, t)) ∨
    ((∀ m ∈ t, m.1 ≠ L ∧ m.2 ≠ R) ∧ CreateLineItemMapping t L R = (true, t ++ [(L, R)])) := by
  unfold CreateLineItemMapping
  by_cases hany : t.any (fun m => decide (m.1 = L) || decide (m.2 = R)) = true
  · left
    rw [if_pos hany]
    rw [List.any_eq_true] at hany
    obtain ⟨m, hm, hp⟩ := hany
    refine ⟨⟨m, hm, ?_⟩, rfl⟩
    simpa using hp
  · right
    rw [if_neg hany]
    refine ⟨?_, rfl⟩
    intro m hm
    by_contra hcon
    apply hany
    rw [List.any_eq_true]
    refine ⟨m, hm, ?_⟩
    have : m.1 = L ∨ m.2 = R := by
      by_contra h2
      push_neg at h2
      exact hcon h2
    simpa using this

/-- Both columns stay duplicate-free under `CreateLineItemMapping`. -/
theorem createMapping_nodup (t : List (Int × String)) (L : Int) (R : String)
    (h1 : (t.map Prod.fst).Nodup) (h2 : (t.map Prod.snd).Nodup) :
    ((CreateLineItemMapping t L R).2.map Prod.fst).Nodup ∧
    ((CreateLineItemMapping t L R).2.map Prod.snd).Nodup := by
  rcases createMapping_cases t L R with ⟨_, h⟩ | ⟨hno, h⟩
  · rw [h]; exact ⟨h1, h2⟩
  · rw [h]
    simp only [List.map_append, List.map_cons, List.map_nil]
    constructor
    · rw [List.nodup_append]
      refine ⟨h1, List.nodup_singleton _, ?_⟩
      intro a ha hb
      rw [List.mem_singleton] at hb
      subst hb
      obtain ⟨m, hm, rfl⟩ := List.mem_map.mp ha
      exact (hno m hm).1 rfl
    · rw [List.nodup_append]
      refine ⟨h2, List.nodup_singleton _, ?_⟩
      intro a ha hb
      rw [List.mem_singleton] at hb
      subst hb
      obtain ⟨m, hm, rfl⟩ := List.mem_map.mp ha
      exact (hno m hm).2 rfl

theorem runMappings_nodup (calls : List (Int × String)) :
    ∀ t : List (Int × String), (t.map Prod.fst).Nodup → (t.map Prod.snd).Nodup →
      ((runMappings t calls).map Prod.fst).Nodup ∧ ((runMappings t calls).map Prod.snd).Nodup := by
  induction calls with
  | nil => intro t h1 h2; exact ⟨h1, h2⟩
  | cons c cs ih =>
    intro t h1 h2
    obtain ⟨h3, h4⟩ := createMapping_nodup t c.1 c.2 h1 h2
    exact ih _ h3 h4

/-- In a table whose `resource_link_id` column is duplicate-free, the lookup
by resource link returns the line item of the one row that holds it. -/
theorem getLineItemID_of_mem (t : List (Int × String)) (h2 : (t.map Prod.snd).Nodup)
    (L : Int) (R : String) (hmem : (L, R) ∈ t) :
    GetLineItemIDByResourceLinkID t R = L := by
  unfold GetLineItemIDByResourceLinkID
  cases hf : t.find? (fun m => decide (m.2 = R)) with
  | none =>
    have := List.find?_eq_none.mp hf (L, R) hmem
    simp at this
  | some m =>
    have hm : m ∈ t := List.mem_of_find?_eq_some hf
    have hr : m.2 = R := by
      have := List.find?_some hf
      simpa using this
    have : m = (L, R) := List.inj_on_of_nodup_map h2 hm hmem hr
    rw [this]

/-- C12: after every sequence of `CreateLineItemMapping` calls on an empty
mapping table, each `line_item_id` and each `resource_link_id` occurs in at
most one row; a call that would repeat either value fails and leaves the table
unchanged, any other call appends the row; and `GetLineItemIDByResourceLinkID`
returns, for a resource link held by a row, the line item of that row. -/
theorem C12_mapping_is_one_to_one (calls : List (Int × String)) :
    (∀ L : Int, ((runMappings [] calls).map Prod.fst).count L ≤ 1) ∧
    (∀ R : String, ((runMappings [] calls).map Prod.snd).count R ≤ 1) ∧
    (∀ (t : List (Int × String)) (L : Int) (R : String),
      (∃ m ∈ t, m.1 = L ∨ m.2 = R) → CreateLineItemMapping t L R = (false, t)) ∧
    (∀ (t : List (Int × String)) (L : Int) (R : String),
      (∀ m ∈ t, m.1 ≠ L ∧ m.2 ≠ R) → CreateLineItemMapping t L R = (true, t ++ [(L, R)])) ∧
    (∀ (L : Int) (R : String), (L, R) ∈ runMappings [] calls →
      GetLineItemIDByResourceLinkID (runMappings [] calls) R = L) := by
  obtain ⟨h1, h2⟩ := runMappings_nodup calls [] (by simp) (by simp)
  refine ⟨fun L => List.nodup_iff_count_le_one.mp h1 L,
    fun R => List.nodup_iff_count_le_one.mp h2 R, ?_, ?_, ?_⟩
  · intro t L R hex
    rcases createMapping_cases t L R with ⟨_, h⟩ | ⟨hno, _⟩
    · exact h
    · obtain ⟨m, hm, hor⟩ := hex
      rcases hor with h3 | h3
      · exact absurd h3 (hno m hm).1
      · exact absurd h3 (hno m hm).2
  · intro t L R hno
    rcases createMapping_cases t L R with ⟨⟨m, hm, hor⟩, _⟩ | ⟨_, h⟩
    · rcases hor with h3 | h3
      · exact absurd h3 (hno m hm).1
      · exact absurd h3 (hno m hm).2
    · exact h
  · intro L R hmem
    exact getLineItemID_of_mem _ h2 L R hmem

/-! ## AGS line-item endpoints -/

theorem getLineItem_none_iff (items : List LineItem) (id : Int) (ctx : String) :
    GetLineItem items id ctx = none ↔ ∀ r ∈ items, ¬ (r.ID = id ∧ r.ContextID = ctx) := by
  unfold GetLineItem
  rw [List.find?_eq_none]
  simp

/-- When no line item has the id in the context, the get endpoint answers 404. -/
theorem agsGet_not_found (pathEscape : String → String) (h : Platform) (items : List LineItem)
    (r : AGSRequest) (id : Int) (hid : ParseInt r.lineItemId = some id)
    (hnone : GetLineItem items id r.contextId = none) :
    (agsGetLineItem pathEscape h items r).status = 404 := by
  unfold agsGetLineItem
  simp [hid, hnone]

theorem deleteLineItem_none (items : List LineItem) (id : Int) (ctx : String)
    (hnone : GetLineItem items id ctx = none) :
    DeleteLineItem items id ctx = (false, items) := by
  have hall := (getLineItem_none_iff items id ctx).mp hnone
  have hfilter : items.filter
      (fun x => !(decide (x.ID = id) && decide (x.ContextID = ctx))) = items := by
    rw [List.filter_eq_self]
    intro x hx
    have h1 := hall x hx
    by_cases hi : x.ID = id
    · have hc : ¬ x.ContextID = ctx := fun hc => h1 ⟨hi, hc⟩
      simp [hi, hc]
    · simp [hi]
  unfold DeleteLineItem
  simp only [hfilter, Nat.sub_self, if_true]

/-- When no line item has the id in the context, the delete endpoint answers
404 and removes nothing. -/
theorem agsDelete_not_found (items : List LineItem) (r : AGSRequest) (id : Int)
    (hid : ParseInt r.lineItemId = some id)
    (hnone : GetLineItem items id r.contextId = none) :
    (agsDeleteLineItem items r).1.status = 404 ∧ (agsDeleteLineItem items r).2 = items := by
  unfold agsDeleteLineItem
  simp [hid, deleteLineItem_none items id r.contextId hnone]

/-- When no line item has the id in the context, the update endpoint changes
no row, and answers 200 with the decoded body. -/
theorem agsUpdate_not_found (items : List LineItem) (now : Nat) (r : AGSRequest) (id : Int)
    (li : LineItem) (hid : ParseInt r.lineItemId = some id) (hbody : r.body = some li)
    (hnone : GetLineItem items id r.contextId = none) :
    (agsUpdateLineItem items now r).1.status = 200 ∧ (agsUpdateLineItem items now r).2 = items := by
  have hall := (getLineItem_none_iff items id r.contextId).mp hnone
  unfold agsUpdateLineItem UpdateLineItem
  simp only [hid, hbody, true_and]
  conv_rhs => rw [← List.map_id items]
  apply List.map_congr_left
  intro x hx
  have := hall x hx
  simp [this]

/-- C13, violated by the update endpoint: line item 1 exists only in context
`ctxA`; addressed under `ctxB`, get and delete answer 404, but the update
answers 200 with the posted item as if it had been stored (no row is
changed). -/
theorem C13_update_of_missing_item_answers_200 :
    (agsGetLineItem (fun x => x) samplePlatform [sampleLineItem] sampleForeignRequest).status
      = 404 ∧
    (agsDeleteLineItem [sampleLineItem] sampleForeignRequest).1.status = 404 ∧
    (agsDeleteLineItem [sampleLineItem] sampleForeignRequest).2 = [sampleLineItem] ∧
    GetLineItem [sampleLineItem] 1 "ctxB" = none ∧
    agsUpdateLineItem [sampleLineItem] 60 sampleForeignRequest =
      (⟨200, "", AGSBody.lineItem ⟨1, "ctxB", "Hacked", "", "", "", 5, none, none, 0, 60⟩⟩,
        [sampleLineItem]) := by
  decide

/-! ## Round trip of an OIDC state -/

theorem find_filter_of_find {α : Type} (p q : α → Bool) (l : List α) (a : α)
    (h : l.find? p = some a) (hq : q a = true) : (l.filter q).find? p = some a := by
  induction l with
  | nil => simp at h
  | cons b l ih =>
    rw [List.find?_cons] at h
    by_cases hb : p b = true
    · simp only [hb] at h
      have hba : b = a := by simpa using h
      subst hba
      simp [List.filter_cons, hq, hb]
    · have hb' : p b = false := by simpa using hb
      simp only [hb'] at h
      by_cases hqb : q b = true
      · simp [List.filter_cons, hqb, hb', ih h]
      · simp [List.filter_cons, hqb, ih h]

/-- After a successful create, the select of `s` loads the new row. -/
theorem select_after_create (db : ValidationDB) (now : Nat) (s c t x r : String) (e : Nat)
    (h : (CreateOIDCState db now s c t x r e).1 = true) :
    selectState (CreateOIDCState db now s c t x r e).2 s = some ⟨s, c, t, r, x, e, 0⟩ := by
  unfold CreateOIDCState at h ⊢
  simp only at h ⊢
  split
  · rename_i hany
    rw [if_pos hany] at h
    simp at h
  · rename_i hany
    unfold selectState
    simp only [List.find?_append]
    have hnone : (db.oidc_states.filter
        (fun q => !(decide (q.expires_at < now) || decide (q.used = 1)))).find?
        (fun q => decide (q.state = s)) = none := by
      rw [List.find?_eq_none]
      intro q hq hp
      exact hany (List.any_eq_true.mpr ⟨q, hq, hp⟩)
    rw [hnone]
    simp

/-- A live, unused row of `s` that the select loads is still loaded after any
create made no later than its expiry. -/
theorem select_preserved_by_create (db : ValidationDB) (now : Nat) (s' c' t' x' r' : String)
    (e' : Nat) (s : String) (row : OIDCStateRow) (hsel : selectState db s = some row)
    (hused : row.used = 0) (hlive : now ≤ row.expires_at) :
    selectState (CreateOIDCState db now s' c' t' x' r' e').2 s = some row := by
  rcases create_cases db now s' c' t' x' r' e' with h | h
  · rw [h]; exact hsel
  · rw [h]
    unfold selectState at hsel ⊢
    simp only [List.find?_append]
    have hkeep : (fun q : OIDCStateRow =>
        !(decide (q.expires_at < now) || decide (q.used = 1))) row = true := by
      have : ¬ row.expires_at < now := Nat.not_lt.mpr hlive
      simp [this, hused]
    rw [find_filter_of_find _ _ _ row hsel hkeep]
    rfl

/-- A consume of another state does not change what the select of `s` loads. -/
theorem select_preserved_by_consume (db : ValidationDB) (now : Nat) (s' s : String)
    (row : OIDCStateRow) (hne : s' ≠ s) (hsel : selectState db s = some row) :
    selectState (ConsumeOIDCState db now s').2 s = some row := by
  rcases consume_cases db now s' with h | ⟨_, _, _, _, h⟩
  · rw [h]; exact hsel
  · rw [h]
    have hs : row.state = s := by
      have := List.find?_some hsel
      simpa using this
    unfold selectState at hsel ⊢
    simp only [find_map_markUsed, hsel, Option.map_some']
    rw [markUsed_of_ne s' row (fun h2 => hne (h2.symm.trans hs))]

theorem select_preserved_by_calls (s : String) (row : OIDCStateRow) (hused : row.used = 0)
    (mid : List StateCall) :
    ∀ db : ValidationDB, selectState db s = some row →
      (∀ call ∈ mid, call.now ≤ row.expires_at ∧ call.isConsumeOf s = false) →
      selectState (execCalls db mid) s = some row := by
  induction mid with
  | nil => intro db h _; exact h
  | cons call cs ih =>
    intro db hsel hmid
    have hcall := hmid call (List.mem_cons_self _ _)
    have hrest : ∀ c ∈ cs, c.now ≤ row.expires_at ∧ c.isConsumeOf s = false :=
      fun c hc => hmid c (List.mem_cons_of_mem _ hc)
    simp only [execCalls]
    apply ih _ _ hrest
    cases call with
    | create now s' c' t' x' r' e' =>
      simp only [stepCall]
      exact select_preserved_by_create db now s' c' t' x' r' e' s row hsel hused hcall.1
    | consume now s' =>
      simp only [stepCall]
      have hne : s' ≠ s := by
        have := hcall.2
        simpa [StateCall.isConsumeOf] using this
      exact select_preserved_by_consume db now s' s row hne hsel

/-- C20: after `CreateOIDCState(s, c, t, x, r, e)` succeeds, the first
`ConsumeOIDCState(s)`, made at a time not after `e` and after any other store
calls made up to then, returns client_id = c, target_link_uri = t,
resource_link_id = r, context_id = x and ok = true. -/
theorem C20_create_consume_round_trip (db : ValidationDB) (n1 : Nat) (s c t x r : String)
    (e : Nat) (mid : List StateCall) (n2 : Nat)
    (hcreate : (CreateOIDCState db n1 s c t x r e).1 = true)
    (hmid : ∀ call ∈ mid, call.now ≤ e ∧ call.isConsumeOf s = false)
    (hn2 : n2 ≤ e) :
    (ConsumeOIDCState (execCalls (CreateOIDCState db n1 s c t x r e).2 mid) n2 s).1
      = { clientID := c, targetLinkURI := t, resourceLinkID := r, contextID := x, ok := true } := by
  have h0 := select_after_create db n1 s c t x r e hcreate
  have h1 := select_preserved_by_calls s ⟨s, c, t, r, x, e, 0⟩ rfl mid _ h0 hmid
  rw [consume_accept _ n2 s ⟨s, c, t, r, x, e, 0⟩ h1 (by simp) hn2]

/-- C20 at a concrete launch: the state created with four distinct values is
consumed, after a launch and a consume of another state, with each value in
its own field. -/
theorem C20_create_consume_round_trip_witness :
    (ConsumeOIDCState
      (execCalls (CreateOIDCState emptyDB 0 "s1" "client" "target" "context" "rlink" 900).2
        [StateCall.create 5 "s2" "c2" "t2" "x2" "r2" 905, StateCall.consume 6 "s2"])
      10 "s1").1
      = { clientID := "client", targetLinkURI := "target", resourceLinkID := "rlink",
          contextID := "context", ok := true } :=
  C20_create_consume_round_trip emptyDB 0 "s1" "client" "target" "context" "rlink" 900
    [StateCall.create 5 "s2" "c2" "t2" "x2" "r2" 905, StateCall.consume 6 "s2"] 10
    (by decide) (by decide) (by decide)

/-! ## JWKS cache -/

theorem get_of_fresh (jwkParse : String → Option (List String))
    (parseHTTPTime : String → Option Int) (cfg : CacheConfig) (c : CacheEntries) (t0 t1 : Int)
    (url : String) (out : FetchOutcome) (set : List String) (h : getFresh c t0 url = some set) :
    Get jwkParse parseHTTPTime cfg c t0 t1 url out = (Except.ok set, c) := by
  unfold Get
  rw [h]

theorem get_of_not_fresh (jwkParse : String → Option (List String))
    (parseHTTPTime : String → Option Int) (cfg : CacheConfig) (c : CacheEntries) (t0 t1 : Int)
    (url : String) (out : FetchOutcome) (h : getFresh c t0 url = none) :
    Get jwkParse parseHTTPTime cfg c t0 t1 url out
      = fetch jwkParse parseHTTPTime cfg c t1 url out := by
  unfold Get
  rw [h]

theorem getFresh_some (c : CacheEntries) (now : Int) (url : String) (set : List String)
    (h : getFresh c now url = some set) :
    ∃ e, c url = some e ∧ e.set = set ∧ now < e.expiry := by
  unfold getFresh at h
  cases hc : c url with
  | none => rw [hc] at h; simp at h
  | some e =>
    rw [hc] at h
    by_cases hlt : now < e.expiry
    · simp only [hlt, if_true, Option.some.injEq] at h
      exact ⟨e, rfl, h, hlt⟩
    · simp [hlt] at h

/-- The failing paths of `fetch`: a network error or a status other than 200
and 304 leaves the entries alone and serves the cached set exactly within the
stale window. -/
theorem fetch_failed (jwkParse : String → Option (List String))
    (parseHTTPTime : String → Option Int) (cfg : CacheConfig) (c : CacheEntries) (now : Int)
    (url : String) (out : FetchOutcome)
    (hfail : out = FetchOutcome.netError ∨
      ∃ r, out = FetchOutcome.response r ∧ r.status ≠ 200 ∧ r.status ≠ 304) :
    (fetch jwkParse parseHTTPTime cfg c now url out).2 = c ∧
    (∀ e, c url = some e → now < e.allowStaleUntil →
      (fetch jwkParse parseHTTPTime cfg c now url out).1 = Except.ok e.set) ∧
    ((c url = none ∨ ∃ e, c url = some e ∧ ¬ now < e.allowStaleUntil) →
      ∃ msg, (fetch jwkParse parseHTTPTime cfg c now url out).1 = Except.error msg) := by
  rcases hfail with rfl | ⟨r, rfl, h200, h304⟩
  · unfold fetch
    cases hc : c url with
    | none => simp
    | some e =>
      by_cases hlt : now < e.allowStaleUntil
      · simp [hlt]
      · simp [hlt]
        omega
  · unfold fetch
    simp only [h200, h304, if_false]
    cases hc : c url with
    | none => simp
    | some e =>
      by_cases hlt : now < e.allowStaleUntil
      · simp [hlt]
      · simp [hlt]
        omega

/-- C14: when the fetch for a URL is made and fails with a network error or
with a status other than 200 and 304, `Get` returns the cached key set if an
entry for the URL exists and the clock reading after the exchange is before
its `allow_stale_until`, and otherwise returns an error; in both cases the
entries are left unchanged. -/
theorem C14_stale_served_on_failed_fetch (jwkParse : String → Option (List String))
    (parseHTTPTime : String → Option Int) (cfg : CacheConfig) (c : CacheEntries) (t0 t1 : Int)
    (url : String) (out : FetchOutcome)
    (hfetch : getFresh c t0 url = none)
    (hfail : out = FetchOutcome.netError ∨
      ∃ r, out = FetchOutcome.response r ∧ r.status ≠ 200 ∧ r.status ≠ 304) :
    (∀ e, c url = some e → t1 < e.allowStaleUntil →
      (Get jwkParse parseHTTPTime cfg c t0 t1 url out).1 = Except.ok e.set) ∧
    ((c url = none ∨ ∃ e, c url = some e ∧ ¬ t1 < e.allowStaleUntil) →
      ∃ msg, (Get jwkParse parseHTTPTime cfg c t0 t1 url out).1 = Except.error msg) ∧
    (Get jwkParse parseHTTPTime cfg c t0 t1 url out).2 = c := by
  rw [get_of_not_fresh jwkParse parseHTTPTime cfg c t0 t1 url out hfetch]
  obtain ⟨h1, h2, h3⟩ := fetch_failed jwkParse parseHTTPTime cfg c t1 url out hfail
  exact ⟨h2, h3, h1⟩

/-- C14 at a concrete cache: an entry expired at 100 and servable until 200
is served at 150 on a network error, and at 250 on a 503 the error is
returned. -/
theorem C14_stale_served_on_failed_fetch_witness :
    (Get (fun _ => none) (fun _ => none) sampleCacheConfig sampleCache 150 150
        "https://tool/jwks" FetchOutcome.netError).1 = Except.ok ["tool-kid"] ∧
    ∃ msg, (Get (fun _ => none) (fun _ => none) sampleCacheConfig sampleCache 250 250
        "https://tool/jwks" (FetchOutcome.response ⟨503, "", "", "", "", some ""⟩)).1
      = Except.error msg :=
  ⟨(C14_stale_served_on_failed_fetch (fun _ => none) (fun _ => none) sampleCacheConfig
      sampleCache 150 150 "https://tool/jwks" FetchOutcome.netError (by decide)
      (Or.inl rfl)).1 ⟨["tool-kid"], 100, 200, "v1", none⟩ (by decide) (by decide),
   (C14_stale_served_on_failed_fetch (fun _ => none) (fun _ => none) sampleCacheConfig
      sampleCache 250 250 "https://tool/jwks"
      (FetchOutcome.response ⟨503, "", "", "", "", some ""⟩) (by decide)
      (Or.inr ⟨_, rfl, by decide, by decide⟩)).2.1
      (Or.inr ⟨⟨["tool-kid"], 100, 200, "v1", none⟩, by decide, by decide⟩)⟩

/-- C18: when a fetch is made and answered 304 while an entry is cached for
the URL, `Get` returns the cached set, whatever the body and the JWKS parser
are (nothing is parsed), sets the entry's `expiry` and `allow_stale_until` to
the values computed from the headers of the 304 response, keeps its set, etag
and last-modified and every other entry; when no entry is cached for the URL,
a 304 makes `Get` return an error and leave the entries as they were. -/
theorem C18_revalidation_on_304 (jwkParse : String → Option (List String))
    (parseHTTPTime : String → Option Int) (cfg : CacheConfig) (c : CacheEntries) (t0 t1 : Int)
    (url : String) (r : HTTPResponse)
    (hfetch : getFresh c t0 url = none) (h304 : r.status = 304) :
    (∀ e, c url = some e →
      (Get jwkParse parseHTTPTime cfg c t0 t1 url (FetchOutcome.response r)).1
        = Except.ok e.set ∧
      (Get jwkParse parseHTTPTime cfg c t0 t1 url (FetchOutcome.response r)).2 url
        = some { set := e.set,
                 expiry := (computeExpiry parseHTTPTime t1 r.cacheControl r.expires
                   cfg.defaultTTL cfg.staleGrace).1,
                 allowStaleUntil := (computeExpiry parseHTTPTime t1 r.cacheControl r.expires
                   cfg.defaultTTL cfg.staleGrace).2,
                 etag := e.etag, lastModified := e.lastModified } ∧
      ∀ u, u ≠ url →
        (Get jwkParse parseHTTPTime cfg c t0 t1 url (FetchOutcome.response r)).2 u = c u) ∧
    (c url = none →
      (∃ msg, (Get jwkParse parseHTTPTime cfg c t0 t1 url (FetchOutcome.response r)).1
        = Except.error msg) ∧
      (Get jwkParse parseHTTPTime cfg c t0 t1 url (FetchOutcome.response r)).2 = c) ∧
    (∀ (jwkParse2 : String → Option (List String)) (body2 : Option String),
      Get jwkParse2 parseHTTPTime cfg c t0 t1 url
          (FetchOutcome.response { r with body := body2 })
        = Get jwkParse parseHTTPTime cfg c t0 t1 url (FetchOutcome.response r)) := by
  refine ⟨?_, ?_, ?_⟩
  · intro e he
    rw [get_of_not_fresh jwkParse parseHTTPTime cfg c t0 t1 url _ hfetch]
    unfold fetch
    simp only [h304, if_true, he]
    refine ⟨trivial, by simp, ?_⟩
    intro u hu
    simp [hu]
  · intro hnone
    rw [get_of_not_fresh jwkParse parseHTTPTime cfg c t0 t1 url _ hfetch]
    unfold fetch
    simp only [h304, if_true, hnone]
    exact ⟨⟨_, rfl⟩, trivial⟩
  · intro jwkParse2 body2
    rw [get_of_not_fresh jwkParse parseHTTPTime cfg c t0 t1 url _ hfetch,
      get_of_not_fresh jwkParse2 parseHTTPTime cfg c t0 t1 url _ hfetch]
    unfold fetch
    simp only [h304, if_true]

/-- C18 at a concrete cache: the expired entry is revalidated at 150 by a 304
carrying `max-age=60`; the cached set is returned and the deadlines move to
150 + 60 s and one hour later. -/
theorem C18_revalidation_on_304_witness :
    (Get (fun _ => none) (fun _ => none) sampleCacheConfig sampleCache 150 150
        "https://tool/jwks"
        (FetchOutcome.response ⟨304, "max-age=60", "", "v2", "", none⟩)).1
      = Except.ok ["tool-kid"] ∧
    (Get (fun _ => none) (fun _ => none) sampleCacheConfig sampleCache 150 150
        "https://tool/jwks"
        (FetchOutcome.response ⟨304, "max-age=60", "", "v2", "", none⟩)).2 "https://tool/jwks"
      = some ⟨["tool-kid"], 60000000150, 3660000000150, "v1", none⟩ :=
  ⟨((C18_revalidation_on_304 (fun _ => none) (fun _ => none) sampleCacheConfig sampleCache
      150 150 "https://tool/jwks" ⟨304, "max-age=60", "", "v2", "", none⟩ (by decide)
      rfl).1 ⟨["tool-kid"], 100, 200, "v1", none⟩ (by decide)).1,
   by decide⟩

/-- Every assignment `parseCacheControl` makes under the key `no-store` stores
`true` and comes from a part that is `no-store`. -/
theorem parseCacheControl_noStore (v : String) (pair : String × String)
    (hmem : pair ∈ parseCacheControl v) (hkey : pair.1 = "no-store") :
    pair.2 = "true" ∧ hasNoStore v = true := by
  unfold parseCacheControl at hmem
  rw [List.mem_filterMap] at hmem
  obtain ⟨part, hpart, hf⟩ := hmem
  simp only at hf
  by_cases h1 : TrimSpace (String.mk (part.data.map Char.toLower)) = ""
  · simp [h1] at hf
  · by_cases h2 : (TrimSpace (String.mk (part.data.map Char.toLower))).data.take 8
        = "max-age=".data
    · simp only [h1, h2, if_true, if_false, Option.some.injEq] at hf
      rw [← hf] at hkey
      simp at hkey
    · simp only [h1, h2, if_false, Option.some.injEq] at hf
      rw [← hf] at hkey ⊢
      refine ⟨rfl, ?_⟩
      unfold hasNoStore
      rw [List.any_eq_true]
      exact ⟨part, hpart, by simpa using hkey⟩

theorem mapGet_noStore_iff (v : String) :
    mapGet (parseCacheControl v) "no-store" = some "true" ↔ hasNoStore v = true := by
  constructor
  · intro h
    unfold mapGet at h
    cases hf : (parseCacheControl v).reverse.find? (fun p => decide (p.1 = "no-store")) with
    | none => rw [hf] at h; simp at h
    | some pair =>
      have hmem : pair ∈ parseCacheControl v :=
        List.mem_reverse.mp (List.mem_of_find?_eq_some hf)
      have hkey : pair.1 = "no-store" := by
        have := List.find?_some hf
        simpa using this
      exact (parseCacheControl_noStore v pair hmem hkey).2
  · intro h
    unfold hasNoStore at h
    rw [List.any_eq_true] at h
    obtain ⟨part, hpart, hp⟩ := h
    have hp' : TrimSpace (String.mk (part.data.map Char.toLower)) = "no-store" := by
      simpa using hp
    have hmem : ("no-store", "true") ∈ parseCacheControl v := by
      unfold parseCacheControl
      rw [List.mem_filterMap]
      refine ⟨part, hpart, ?_⟩
      simp only [hp']
      decide
    unfold mapGet
    cases hf : (parseCacheControl v).reverse.find? (fun p => decide (p.1 = "no-store")) with
    | none =>
      have := List.find?_eq_none.mp hf ("no-store", "true") (List.mem_reverse.mpr hmem)
      simp at this
    | some pair =>
      have hmem2 : pair ∈ parseCacheControl v :=
        List.mem_reverse.mp (List.mem_of_find?_eq_some hf)
      have hkey : pair.1 = "no-store" := by
        have := List.find?_some hf
        simpa using this
      simp [(parseCacheControl_noStore v pair hmem2 hkey).1]

/-- The four cases of `computeExpiry`, in their order of precedence. -/
theorem computeExpiry_cases (parseHTTPTime : String → Option Int) (now : Int)
    (cacheControl expires : String) (defTTL staleGrace : Int) :
    (hasNoStore cacheControl = true →
      computeExpiry parseHTTPTime now cacheControl expires defTTL staleGrace = (now, now)) ∧
    (hasNoStore cacheControl = false → ∀ secs,
      (mapGet (parseCacheControl cacheControl) "max-age").bind Atoi = some secs →
      computeExpiry parseHTTPTime now cacheControl expires defTTL staleGrace
        = (now + wrapInt64 (secs * 1000000000),
           now + wrapInt64 (secs * 1000000000) + staleGrace)) ∧
    (hasNoStore cacheControl = false →
      (mapGet (parseCacheControl cacheControl) "max-age").bind Atoi = none → ∀ t,
      expires ≠ "" → parseHTTPTime expires = some t →
      computeExpiry parseHTTPTime now cacheControl expires defTTL staleGrace
        = (t, t + staleGrace)) ∧
    (hasNoStore cacheControl = false →
      (mapGet (parseCacheControl cacheControl) "max-age").bind Atoi = none →
      (expires = "" ∨ parseHTTPTime expires = none) →
      computeExpiry parseHTTPTime now cacheControl expires defTTL staleGrace
        = (now + defTTL, now + defTTL + staleGrace)) := by
  have hns : hasNoStore cacheControl = false →
      ¬ mapGet (parseCacheControl cacheControl) "no-store" = some "true" := by
    intro h hm
    rw [(mapGet_noStore_iff cacheControl).mp hm] at h
    simp at h
  refine ⟨?_, ?_, ?_, ?_⟩
  · intro h
    unfold computeExpiry
    simp [(mapGet_noStore_iff cacheControl).mpr h]
  · intro h secs hsecs
    unfold computeExpiry
    simp only [hns h, if_false, hsecs]
  · intro h hnone t hne ht
    unfold computeExpiry
    simp only [hns h, if_false, hnone, hne, ne_eq, not_false_eq_true, if_true, ht]
  · intro h hnone hexp
    unfold computeExpiry
    simp only [hns h, if_false, hnone]
    rcases hexp with he | he
    · simp [he]
    · by_cases hne : expires = ""
      · simp [hne]
      · simp [hne, he]

/-- A duration of whole seconds that fits 64 bits is not changed by the
wrap-around. -/
theorem wrapInt64_of_fits (x : Int) (h1 : -(2 ^ 63) ≤ x) (h2 : x < 2 ^ 63) :
    wrapInt64 x = x := by
  unfold wrapInt64
  rw [Int.emod_eq_of_lt (by omega) (by omega)]
  omega

/-- C16, violated when the seconds of `max-age` do not fit a 64-bit count of
nanoseconds: for `Cache-Control: max-age=9223372037` the multiplication by
`time.Second` wraps around and the expiry is about 292 years before `now`
instead of `now` plus 9223372037 seconds. -/
theorem C16_max_age_overflow :
    hasNoStore "max-age=9223372037" = false ∧
    (mapGet (parseCacheControl "max-age=9223372037") "max-age").bind Atoi = some 9223372037 ∧
    (computeExpiry (fun _ => none) 1000 "max-age=9223372037" "" 600000000000
        3600000000000).1 = 1000 - 9223372036709551616 ∧
    (computeExpiry (fun _ => none) 1000 "max-age=9223372037" "" 600000000000
        3600000000000).1 ≠ 1000 + 9223372037 * 1000000000 := by
  decide

/-- The deadlines `computeExpiry` returns are `grace` apart, or equal to `now`
under `no-store`. -/
theorem computeExpiry_stale (parseHTTPTime : String → Option Int) (now : Int)
    (cacheControl expires : String) (defTTL staleGrace : Int) :
    (computeExpiry parseHTTPTime now cacheControl expires defTTL staleGrace).2 =
      (computeExpiry parseHTTPTime now cacheControl expires defTTL staleGrace).1 +
        (if hasNoStore cacheControl = true then 0 else staleGrace) ∧
    (hasNoStore cacheControl = true →
      (computeExpiry parseHTTPTime now cacheControl expires defTTL staleGrace).1 = now) := by
  obtain ⟨h1, h2, h3, h4⟩ :=
    computeExpiry_cases parseHTTPTime now cacheControl expires defTTL staleGrace
  cases hns : hasNoStore cacheControl with
  | true =>
    rw [h1 hns]
    simp
  | false =>
    refine ⟨?_, fun h => by simp at h⟩
    simp only [Bool.false_eq_true, if_false]
    cases hm : (mapGet (parseCacheControl cacheControl) "max-age").bind Atoi with
    | some secs => rw [h2 hns secs hm]
    | none =>
      by_cases hne : expires = ""
      · rw [h4 hns hm (Or.inl hne)]
      · cases ht : parseHTTPTime expires with
        | none => rw [h4 hns hm (Or.inr ht)]
        | some t => rw [h3 hns hm t hne ht]

theorem computeExpiry_le (parseHTTPTime : String → Option Int) (now : Int)
    (cacheControl expires : String) (defTTL staleGrace : Int) (hg : 0 ≤ staleGrace) :
    (computeExpiry parseHTTPTime now cacheControl expires defTTL staleGrace).1 ≤
      (computeExpiry parseHTTPTime now cacheControl expires defTTL staleGrace).2 := by
  rw [(computeExpiry_stale parseHTTPTime now cacheControl expires defTTL staleGrace).1]
  split <;> omega

theorem fetch_304_some (jwkParse : String → Option (List String))
    (parseHTTPTime : String → Option Int) (cfg : CacheConfig) (c : CacheEntries) (now : Int)
    (url : String) (r : HTTPResponse) (e : CacheEntry) (h304 : r.status = 304)
    (hc : c url = some e) :
    fetch jwkParse parseHTTPTime cfg c now url (FetchOutcome.response r) =
      (Except.ok e.set,
        fun u => if u = url then
          some { e with
            expiry := (computeExpiry parseHTTPTime now r.cacheControl r.expires
              cfg.defaultTTL cfg.staleGrace).1,
            allowStaleUntil := (computeExpiry parseHTTPTime now r.cacheControl r.expires
              cfg.defaultTTL cfg.staleGrace).2 }
        else c u) := by
  unfold fetch
  simp only [h304, if_true, hc]

theorem fetch_304_none (jwkParse : String → Option (List String))
    (parseHTTPTime : String → Option Int) (cfg : CacheConfig) (c : CacheEntries) (now : Int)
    (url : String) (r : HTTPResponse) (h304 : r.status = 304) (hc : c url = none) :
    fetch jwkParse parseHTTPTime cfg c now url (FetchOutcome.response r) =
      (Except.error "jwkscache: 304 but no cached entry", c) := by
  unfold fetch
  simp only [h304, if_true, hc]

theorem fetch_200 (jwkParse : String → Option (List String))
    (parseHTTPTime : String → Option Int) (cfg : CacheConfig) (c : CacheEntries) (now : Int)
    (url : String) (r : HTTPResponse) (h200 : r.status = 200) :
    fetch jwkParse parseHTTPTime cfg c now url (FetchOutcome.response r) =
      match r.body.bind jwkParse with
      | none =>
        (Except.error (if r.body = none then "read error" else "parse error"), c)
      | some set =>
        (Except.ok set,
          fun u => if u = url then
            some { set := set,
                   expiry := (computeExpiry parseHTTPTime now r.cacheControl r.expires
                     cfg.defaultTTL cfg.staleGrace).1,
                   allowStaleUntil := (computeExpiry parseHTTPTime now r.cacheControl r.expires
                     cfg.defaultTTL cfg.staleGrace).2,
                   etag := r.etag,
                   lastModified := if r.lastModified ≠ "" then parseHTTPTime r.lastModified
                                   else none }
          else c u) := by
  unfold fetch
  have hne : ¬ r.status = 304 := by rw [h200]; decide
  dsimp only
  rw [if_neg hne, if_pos h200]
  cases hb : r.body with
  | none => rfl
  | some body =>
    cases hp : jwkParse body with
    | none => simp [hp]
    | some parsed => simp [hp]

/-- A fetch answered 200 or 304 that returns a key set writes, under the URL
and nowhere else, an entry with that set and the deadlines computed from the
response headers. -/
theorem fetch_success (jwkParse : String → Option (List String))
    (parseHTTPTime : String → Option Int) (cfg : CacheConfig) (c : CacheEntries) (now : Int)
    (url : String) (r : HTTPResponse) (set : List String)
    (hstatus : r.status = 200 ∨ r.status = 304)
    (hok : (fetch jwkParse parseHTTPTime cfg c now url (FetchOutcome.response r)).1
      = Except.ok set) :
    (∃ e, (fetch jwkParse parseHTTPTime cfg c now url (FetchOutcome.response r)).2 url = some e ∧
      e.set = set ∧
      e.expiry = (computeExpiry parseHTTPTime now r.cacheControl r.expires cfg.defaultTTL
        cfg.staleGrace).1 ∧
      e.allowStaleUntil = (computeExpiry parseHTTPTime now r.cacheControl r.expires
        cfg.defaultTTL cfg.staleGrace).2) ∧
    ∀ u, u ≠ url →
      (fetch jwkParse parseHTTPTime cfg c now url (FetchOutcome.response r)).2 u = c u := by
  rcases hstatus with h200 | h304
  · rw [fetch_200 jwkParse parseHTTPTime cfg c now url r h200] at hok ⊢
    cases hb : r.body.bind jwkParse with
    | none => rw [hb] at hok; simp at hok
    | some parsed =>
      rw [hb] at hok
      simp only [Except.ok.injEq] at hok
      refine ⟨⟨{ set := parsed,
                 expiry := (computeExpiry parseHTTPTime now r.cacheControl r.expires
                   cfg.defaultTTL cfg.staleGrace).1,
                 allowStaleUntil := (computeExpiry parseHTTPTime now r.cacheControl r.expires
                   cfg.defaultTTL cfg.staleGrace).2,
                 etag := r.etag,
                 lastModified := if r.lastModified ≠ "" then parseHTTPTime r.lastModified
                                 else none }, by simp, hok, rfl, rfl⟩, ?_⟩
      intro u hu
      simp [hu]
  · cases hc : c url with
    | none =>
      rw [fetch_304_none jwkParse parseHTTPTime cfg c now url r h304 hc] at hok
      simp at hok
    | some e =>
      rw [fetch_304_some jwkParse parseHTTPTime cfg c now url r e h304 hc] at hok ⊢
      simp only [Except.ok.injEq] at hok
      refine ⟨⟨{ e with
                 expiry := (computeExpiry parseHTTPTime now r.cacheControl r.expires
                   cfg.defaultTTL cfg.staleGrace).1,
                 allowStaleUntil := (computeExpiry parseHTTPTime now r.cacheControl r.expires
                   cfg.defaultTTL cfg.staleGrace).2 }, by simp, hok, rfl, rfl⟩, ?_⟩
      intro u hu
      simp [hu]

/-- A fetch that did not obtain a 200 or a 304, or that returns an error,
leaves the entries as they were. -/
theorem fetch_unchanged (jwkParse : String → Option (List String))
    (parseHTTPTime : String → Option Int) (cfg : CacheConfig) (c : CacheEntries) (now : Int)
    (url : String) (out : FetchOutcome)
    (h : out.is200or304 = false ∨
      ∃ msg, (fetch jwkParse parseHTTPTime cfg c now url out).1 = Except.error msg) :
    (fetch jwkParse parseHTTPTime cfg c now url out).2 = c := by
  cases out with
  | requestError => rfl
  | netError => exact (fetch_failed jwkParse parseHTTPTime cfg c now url _ (Or.inl rfl)).1
  | response r =>
    by_cases h200 : r.status = 200
    · rcases h with h | ⟨msg, h⟩
      · simp [FetchOutcome.is200or304, h200] at h
      · rw [fetch_200 jwkParse parseHTTPTime cfg c now url r h200] at h ⊢
        cases hb : r.body.bind jwkParse with
        | none => rfl
        | some parsed => rw [hb] at h; simp at h
    · by_cases h304 : r.status = 304
      · rcases h with h | ⟨msg, h⟩
        · simp [FetchOutcome.is200or304, h304] at h
        · cases hc : c url with
          | none => rw [fetch_304_none jwkParse parseHTTPTime cfg c now url r h304 hc]
          | some e =>
            rw [fetch_304_some jwkParse parseHTTPTime cfg c now url r e h304 hc] at h
            simp at h
      · exact (fetch_failed jwkParse parseHTTPTime cfg c now url _
          (Or.inr ⟨r, rfl, h200, h304⟩)).1

/-- C17, as stated, fails: a 200 response with `Cache-Control: no-store` is
installed with `allow_stale_until` equal to `expiry` (both the time of the
fetch), not `expiry` plus the stale grace of one hour. -/
theorem C17_no_store_entry_has_no_grace :
    (Get (fun b => if b = "jwks" then some ["tool-kid"] else none) (fun _ => none)
        sampleCacheConfig emptyCache 150 150 "https://tool/jwks"
        (FetchOutcome.response ⟨200, "no-store", "", "v1", "", some "jwks"⟩)).2
        "https://tool/jwks" = some ⟨["tool-kid"], 150, 150, "v1", none⟩ ∧
    (150 : Int) ≠ 150 + sampleCacheConfig.staleGrace := by
  decide

/-- C17, amended: every entry the cache installs on a 200 response or updates
on a 304 response satisfies `allow_stale_until = expiry + stale_grace`, for
every stale grace and every response header set whose `Cache-Control` does not
contain `no-store`; when it contains `no-store`, `allow_stale_until` and
`expiry` are both the time of the fetch. -/
theorem C17_stale_deadline_is_expiry_plus_grace (jwkParse : String → Option (List String))
    (parseHTTPTime : String → Option Int) (cfg : CacheConfig) (c : CacheEntries) (t0 t1 : Int)
    (url : String) (r : HTTPResponse) (set : List String)
    (hfetch : getFresh c t0 url = none)
    (hstatus : r.status = 200 ∨ r.status = 304)
    (hok : (Get jwkParse parseHTTPTime cfg c t0 t1 url (FetchOutcome.response r)).1
      = Except.ok set) :
    ∃ e, (Get jwkParse parseHTTPTime cfg c t0 t1 url (FetchOutcome.response r)).2 url = some e ∧
      e.set = set ∧
      (hasNoStore r.cacheControl = false → e.allowStaleUntil = e.expiry + cfg.staleGrace) ∧
      (hasNoStore r.cacheControl = true → e.allowStaleUntil = t1 ∧ e.expiry = t1) := by
  rw [get_of_not_fresh jwkParse parseHTTPTime cfg c t0 t1 url _ hfetch] at hok ⊢
  obtain ⟨⟨e, he, hset, hexp, hstale⟩, _⟩ :=
    fetch_success jwkParse parseHTTPTime cfg c t1 url r set hstatus hok
  obtain ⟨h1, h2⟩ := computeExpiry_stale parseHTTPTime t1 r.cacheControl r.expires
    cfg.defaultTTL cfg.staleGrace
  refine ⟨e, he, hset, ?_, ?_⟩
  · intro hns
    rw [hstale, hexp, h1]
    simp [hns]
  · intro hns
    rw [hstale, hexp, h1, h2 hns]
    simp [hns]

/-- C17 at a concrete response: a 200 with `max-age=60` fetched at 150 is
installed with deadlines 60 s and 60 s plus one hour after 150. -/
theorem C17_stale_deadline_is_expiry_plus_grace_witness :
    ∃ e, (Get (fun b => if b = "jwks" then some ["tool-kid"] else none) (fun _ => none)
        sampleCacheConfig emptyCache 150 150 "https://tool/jwks"
        (FetchOutcome.response ⟨200, "max-age=60", "", "v1", "", some "jwks"⟩)).2
        "https://tool/jwks" = some e ∧
      e.set = ["tool-kid"] ∧
      (hasNoStore "max-age=60" = false →
        e.allowStaleUntil = e.expiry + sampleCacheConfig.staleGrace) ∧
      (hasNoStore "max-age=60" = true → e.allowStaleUntil = 150 ∧ e.expiry = 150) :=
  C17_stale_deadline_is_expiry_plus_grace
    (fun b => if b = "jwks" then some ["tool-kid"] else none) (fun _ => none)
    sampleCacheConfig emptyCache 150 150 "https://tool/jwks"
    ⟨200, "max-age=60", "", "v1", "", some "jwks"⟩ ["tool-kid"] (by decide) (Or.inl rfl)
    rfl

theorem is200or304_response (r : HTTPResponse) :
    (FetchOutcome.response r).is200or304 = true ↔ (r.status = 200 ∨ r.status = 304) := by
  simp [FetchOutcome.is200or304]

/-- What `Get` leaves at a URL: the entry that was there, unless the call is a
successful fetch of that URL. -/
theorem get_unchanged (jwkParse : String → Option (List String))
    (parseHTTPTime : String → Option Int) (cfg : CacheConfig) (c : CacheEntries) (t0 t1 : Int)
    (u url : String) (out : FetchOutcome)
    (h : fetchedOK jwkParse parseHTTPTime cfg c url (CacheCall.get t0 t1 u out) = false) :
    (Get jwkParse parseHTTPTime cfg c t0 t1 u out).2 url = c url := by
  cases hf : getFresh c t0 u with
  | some set => rw [get_of_fresh jwkParse parseHTTPTime cfg c t0 t1 u out set hf]
  | none =>
    rw [get_of_not_fresh jwkParse parseHTTPTime cfg c t0 t1 u out hf]
    by_cases h2 : out.is200or304 = true
    · cases hres : (fetch jwkParse parseHTTPTime cfg c t1 u out).1 with
      | error msg =>
        rw [fetch_unchanged jwkParse parseHTTPTime cfg c t1 u out (Or.inr ⟨msg, hres⟩)]
      | ok set =>
        have hne : u ≠ url := by
          intro hu
          subst hu
          have hget := get_of_not_fresh jwkParse parseHTTPTime cfg c t0 t1 u out hf
          simp [fetchedOK, hf, h2, hget, hres] at h
        cases out with
        | requestError => simp [FetchOutcome.is200or304] at h2
        | netError => simp [FetchOutcome.is200or304] at h2
        | response r =>
          exact (fetch_success jwkParse parseHTTPTime cfg c t1 u r set
            ((is200or304_response r).mp h2) hres).2 url (fun h3 => hne h3.symm)
    · have h2' : out.is200or304 = false := by simpa using h2
      rw [fetch_unchanged jwkParse parseHTTPTime cfg c t1 u out (Or.inl h2')]

/-- A call that is neither a successful fetch of `url` nor `Invalidate(url)`
leaves the entry of `url` as it was. -/
theorem step_unchanged (jwkParse : String → Option (List String))
    (parseHTTPTime : String → Option Int) (cfg : CacheConfig) (c : CacheEntries)
    (url : String) (call : CacheCall)
    (h1 : fetchedOK jwkParse parseHTTPTime cfg c url call = false)
    (h2 : call ≠ CacheCall.invalidate url) :
    stepCache jwkParse parseHTTPTime cfg c call url = c url := by
  cases call with
  | get t0 t1 u out =>
    exact get_unchanged jwkParse parseHTTPTime cfg c t0 t1 u url out h1
  | invalidate u =>
    have hne : u ≠ url := fun h => h2 (by rw [h])
    simp only [stepCache, Invalidate]
    have : ¬ url = u := fun h => hne h.symm
    simp [this]

/-- With a non-negative stale grace, `Get` keeps the deadline invariant. -/
theorem get_inv (jwkParse : String → Option (List String))
    (parseHTTPTime : String → Option Int) (cfg : CacheConfig) (hg : 0 ≤ cfg.staleGrace)
    (c : CacheEntries) (t0 t1 : Int) (url : String) (out : FetchOutcome) (hinv : cacheInv c) :
    cacheInv (Get jwkParse parseHTTPTime cfg c t0 t1 url out).2 := by
  intro u e he
  by_cases hfo : fetchedOK jwkParse parseHTTPTime cfg c u (CacheCall.get t0 t1 url out) = true
  · -- a successful fetch of `u = url`
    have hu : url = u := by
      by_contra hne
      simp [fetchedOK, hne] at hfo
    subst hu
    have hf : getFresh c t0 url = none := by
      cases h : getFresh c t0 url with
      | none => rfl
      | some s => simp [fetchedOK, h] at hfo
    rw [get_of_not_fresh jwkParse parseHTTPTime cfg c t0 t1 url out hf] at he
    have hget := get_of_not_fresh jwkParse parseHTTPTime cfg c t0 t1 url out hf
    cases out with
    | requestError => simp [fetchedOK, FetchOutcome.is200or304] at hfo
    | netError => simp [fetchedOK, FetchOutcome.is200or304] at hfo
    | response r =>
      have hst : r.status = 200 ∨ r.status = 304 := by
        apply (is200or304_response r).mp
        cases h : (FetchOutcome.response r).is200or304 with
        | true => rfl
        | false => simp [fetchedOK, h] at hfo
      cases hres : (fetch jwkParse parseHTTPTime cfg c t1 url (FetchOutcome.response r)).1 with
      | error msg => simp [fetchedOK, hget, hres] at hfo
      | ok set =>
        obtain ⟨⟨e2, he2, _, hexp, hstale⟩, _⟩ :=
          fetch_success jwkParse parseHTTPTime cfg c t1 url r set hst hres
        rw [he2] at he
        simp only [Option.some.injEq] at he
        subst he
        rw [hexp, hstale]
        exact computeExpiry_le parseHTTPTime t1 r.cacheControl r.expires cfg.defaultTTL
          cfg.staleGrace hg
  · have hfo' : fetchedOK jwkParse parseHTTPTime cfg c u (CacheCall.get t0 t1 url out)
        = false := by simpa using hfo
    rw [get_unchanged jwkParse parseHTTPTime cfg c t0 t1 url u out hfo'] at he
    exact hinv u e he

theorem exec_inv (jwkParse : String → Option (List String))
    (parseHTTPTime : String → Option Int) (cfg : CacheConfig) (hg : 0 ≤ cfg.staleGrace)
    (calls : List CacheCall) :
    ∀ c : CacheEntries, cacheInv c → cacheInv (execCache jwkParse parseHTTPTime cfg c calls) := by
  induction calls with
  | nil => intro c h; exact h
  | cons call rest ih =>
    intro c hinv
    simp only [execCache]
    apply ih
    cases call with
    | get t0 t1 url out =>
      exact get_inv jwkParse parseHTTPTime cfg hg c t0 t1 url out hinv
    | invalidate url =>
      intro u e he
      simp only [stepCache, Invalidate] at he
      by_cases hu : u = url
      · simp [hu] at he
      · simp only [hu, if_false] at he
        exact hinv u e he

/-- An entry found under `url` after a sequence of calls was either there
before, with nothing in between touching it, or was written by the most recent
successful fetch of `url`, with nothing after that touching it. -/
theorem entry_from_last_fetch (jwkParse : String → Option (List String))
    (parseHTTPTime : String → Option Int) (cfg : CacheConfig) (url : String) (e : CacheEntry)
    (calls : List CacheCall) :
    ∀ c : CacheEntries, execCache jwkParse parseHTTPTime cfg c calls url = some e →
      (c url = some e ∧ quietFor jwkParse parseHTTPTime cfg url c calls = true) ∨
      ∃ pre1 call pre2, calls = pre1 ++ call :: pre2 ∧
        fetchedOK jwkParse parseHTTPTime cfg (execCache jwkParse parseHTTPTime cfg c pre1)
          url call = true ∧
        stepCache jwkParse parseHTTPTime cfg (execCache jwkParse parseHTTPTime cfg c pre1)
          call url = some e ∧
        quietFor jwkParse parseHTTPTime cfg url
          (stepCache jwkParse parseHTTPTime cfg (execCache jwkParse parseHTTPTime cfg c pre1)
            call) pre2 = true := by
  induction calls with
  | nil =>
    intro c h
    exact Or.inl ⟨h, rfl⟩
  | cons d ds ih =>
    intro c h
    simp only [execCache] at h
    rcases ih _ h with ⟨hd, hq⟩ | ⟨pre1, call, pre2, hsplit, hfo, hstep, hq⟩
    · by_cases hfo : fetchedOK jwkParse parseHTTPTime cfg c url d = true
      · exact Or.inr ⟨[], d, ds, rfl, hfo, hd, hq⟩
      · have hfo' : fetchedOK jwkParse parseHTTPTime cfg c url d = false := by simpa using hfo
        by_cases hinvd : d = CacheCall.invalidate url
        · subst hinvd
          simp [stepCache, Invalidate] at hd
        · left
          refine ⟨?_, ?_⟩
          · rw [← step_unchanged jwkParse parseHTTPTime cfg c url d hfo' hinvd]
            exact hd
          · simp [quietFor, hfo', hinvd, hq]
    · right
      refine ⟨d :: pre1, call, pre2, by rw [hsplit]; rfl, ?_, ?_, ?_⟩
      · simpa only [execCache] using hfo
      · simpa only [execCache] using hstep
      · simpa only [execCache] using hq

/-- C15: over every sequence of `Get` and `Invalidate` calls from an empty
cache with a non-negative stale grace, whenever a further `Get(url)` returns a
key set without a 200 or 304 response obtained in that call (a fresh hit, or a
failed fetch), the set is that of the entry now cached for `url`, the clock
reading used (`t0` on the fast path, `t1` after the exchange) is before that
entry's `allow_stale_until`, the entries are left unchanged, and the entry is
the one written by the most recent successful fetch of `url`, after which no
successful fetch of `url` and no `Invalidate(url)` took place. -/
theorem C15_served_set_within_stale_window (jwkParse : String → Option (List String))
    (parseHTTPTime : String → Option Int) (cfg : CacheConfig) (hg : 0 ≤ cfg.staleGrace)
    (pre : List CacheCall) (t0 t1 : Int) (url : String) (out : FetchOutcome)
    (set : List String)
    (hret : (Get jwkParse parseHTTPTime cfg
      (execCache jwkParse parseHTTPTime cfg emptyCache pre) t0 t1 url out).1 = Except.ok set)
    (hno : (getFresh (execCache jwkParse parseHTTPTime cfg emptyCache pre) t0 url).isSome = true
      ∨ out.is200or304 = false) :
    ∃ e, execCache jwkParse parseHTTPTime cfg emptyCache pre url = some e ∧ e.set = set ∧
      (((getFresh (execCache jwkParse parseHTTPTime cfg emptyCache pre) t0 url).isSome = true ∧
          t0 < e.allowStaleUntil) ∨
        (getFresh (execCache jwkParse parseHTTPTime cfg emptyCache pre) t0 url = none ∧
          t1 < e.allowStaleUntil)) ∧
      (Get jwkParse parseHTTPTime cfg
        (execCache jwkParse parseHTTPTime cfg emptyCache pre) t0 t1 url out).2
        = execCache jwkParse parseHTTPTime cfg emptyCache pre ∧
      ∃ pre1 call pre2, pre = pre1 ++ call :: pre2 ∧
        fetchedOK jwkParse parseHTTPTime cfg
          (execCache jwkParse parseHTTPTime cfg emptyCache pre1) url call = true ∧
        stepCache jwkParse parseHTTPTime cfg
          (execCache jwkParse parseHTTPTime cfg emptyCache pre1) call url = some e ∧
        quietFor jwkParse parseHTTPTime cfg url
          (stepCache jwkParse parseHTTPTime cfg
            (execCache jwkParse parseHTTPTime cfg emptyCache pre1) call) pre2 = true := by
  have hinv : cacheInv (execCache jwkParse parseHTTPTime cfg emptyCache pre) :=
    exec_inv jwkParse parseHTTPTime cfg hg pre emptyCache (by intro u e he; simp [emptyCache] at he)
  have hhist : ∀ e, execCache jwkParse parseHTTPTime cfg emptyCache pre url = some e →
      ∃ pre1 call pre2, pre = pre1 ++ call :: pre2 ∧
        fetchedOK jwkParse parseHTTPTime cfg
          (execCache jwkParse parseHTTPTime cfg emptyCache pre1) url call = true ∧
        stepCache jwkParse parseHTTPTime cfg
          (execCache jwkParse parseHTTPTime cfg emptyCache pre1) call url = some e ∧
        quietFor jwkParse parseHTTPTime cfg url
          (stepCache jwkParse parseHTTPTime cfg
            (execCache jwkParse parseHTTPTime cfg emptyCache pre1) call) pre2 = true := by
    intro e he
    rcases entry_from_last_fetch jwkParse parseHTTPTime cfg url e pre emptyCache he with
      ⟨h0, _⟩ | h
    · simp [emptyCache] at h0
    · exact h
  generalize hc : execCache jwkParse parseHTTPTime cfg emptyCache pre = c at *
  cases hf : getFresh c t0 url with
  | some s =>
    rw [get_of_fresh jwkParse parseHTTPTime cfg c t0 t1 url out s hf] at hret ⊢
    simp only [Except.ok.injEq] at hret
    obtain ⟨e, he, hset, hlt⟩ := getFresh_some c t0 url s hf
    have hle := hinv url e he
    refine ⟨e, he, hset.trans hret, Or.inl ⟨rfl, by omega⟩, rfl, hhist e he⟩
  | none =>
    rw [hf] at hno
    have hout : out.is200or304 = false := by
      rcases hno with h | h
      · simp at h
      · exact h
    rw [get_of_not_fresh jwkParse parseHTTPTime cfg c t0 t1 url out hf] at hret ⊢
    have hsame := fetch_unchanged jwkParse parseHTTPTime cfg c t1 url out (Or.inl hout)
    have hfail : out = FetchOutcome.netError ∨
        ∃ r, out = FetchOutcome.response r ∧ r.status ≠ 200 ∧ r.status ≠ 304 := by
      cases out with
      | requestError => simp [fetch] at hret
      | netError => exact Or.inl rfl
      | response r =>
        right
        refine ⟨r, rfl, ?_, ?_⟩
        · intro h; simp [FetchOutcome.is200or304, h] at hout
        · intro h; simp [FetchOutcome.is200or304, h] at hout
    obtain ⟨_, hserve, herr⟩ := fetch_failed jwkParse parseHTTPTime cfg c t1 url out hfail
    cases hcu : c url with
    | none =>
      obtain ⟨msg, hmsg⟩ := herr (Or.inl hcu)
      rw [hmsg] at hret
      simp at hret
    | some e =>
      by_cases hlt : t1 < e.allowStaleUntil
      · have := hserve e hcu hlt
        rw [this] at hret
        simp only [Except.ok.injEq] at hret
        exact ⟨e, rfl, hret, Or.inr ⟨rfl, hlt⟩, hsame, hhist e hcu⟩
      · obtain ⟨msg, hmsg⟩ := herr (Or.inr ⟨e, hcu, hlt⟩)
        rw [hmsg] at hret
        simp at hret

/-- C15 at a concrete history: after one successful fetch at time 0 with
`max-age=60`, a `Get` at 61 s that meets a network error is served the cached
set, within the stale window. -/
theorem C15_served_set_within_stale_window_witness :
    ∃ e, execCache sampleJwkParse (fun _ => none) sampleCacheConfig emptyCache
        sampleCacheHistory "https://tool/jwks" = some e ∧
      e.set = ["tool-kid"] ∧ (61000000000 : Int) < e.allowStaleUntil :=
  match C15_served_set_within_stale_window sampleJwkParse (fun _ => none) sampleCacheConfig
      (by decide) sampleCacheHistory 61000000000 61000000000 "https://tool/jwks"
      FetchOutcome.netError ["tool-kid"] rfl (Or.inr rfl) with
  | ⟨e, h1, h2, h3, _⟩ =>
    ⟨e, h1, h2, h3.elim (fun h => h.2) (fun h => h.2)⟩

/-! ## Launch initiator -/

theorem valuesGet_set_same (vs : List (String × String)) (key value : String) :
    valuesGet (valuesSet vs key value) key = value := by
  unfold valuesGet valuesSet
  have hnone : (vs.filter (fun p => !decide (p.1 = key))).find? (fun p => decide (p.1 = key))
      = none := by
    rw [List.find?_eq_none]
    intro p hp
    have := (List.mem_filter.mp hp).2
    simpa using this
  simp [List.find?_append, hnone]

theorem find_filter_of_imp {α : Type} (p q : α → Bool) (l : List α)
    (h : ∀ a, p a = true → q a = true) : (l.filter q).find? p = l.find? p := by
  induction l with
  | nil => rfl
  | cons b l ih =>
    by_cases hq : q b = true
    · rw [List.filter_cons_of_pos hq, List.find?_cons, List.find?_cons, ih]
    · have hp : p b = false := by
        cases hpb : p b with
        | false => rfl
        | true => exact absurd (h b hpb) hq
      rw [List.filter_cons_of_neg hq, List.find?_cons, hp, ih]

theorem valuesGet_set_other (vs : List (String × String)) (key key2 value : String)
    (h : key2 ≠ key) :
    valuesGet (valuesSet vs key value) key2 = valuesGet vs key2 := by
  unfold valuesGet valuesSet
  have himp : ∀ a : String × String, (fun p : String × String => decide (p.1 = key2)) a = true →
      (fun p : String × String => !decide (p.1 = key)) a = true := by
    intro a ha
    have h1 : a.1 = key2 := by simpa using ha
    have : ¬ a.1 = key := fun h2 => h (h1.symm.trans h2)
    simp [this]
  rw [List.find?_append, find_filter_of_imp _ _ vs himp]
  cases hf : vs.find? (fun p => decide (p.1 = key2)) with
  | some p => rfl
  | none =>
    have : ¬ key = key2 := fun h2 => h h2.symm
    simp [this]

/-- After a create of a state that has no live row, the create succeeded. -/
theorem create_succeeds_of_fresh (db : ValidationDB) (now : Nat) (s c t x r : String) (e : Nat)
    (hfresh : ∀ row ∈ db.oidc_states, row.state = s → row.expires_at < now ∨ row.used = 1) :
    (CreateOIDCState db now s c t x r e).1 = true := by
  rcases create_cases db now s c t x r e with h | h
  · exfalso
    unfold CreateOIDCState at h
    simp only at h
    split at h
    · rename_i hany
      rw [List.any_eq_true] at hany
      obtain ⟨row, hrow, hs⟩ := hany
      rw [List.mem_filter] at hrow
      have hs' : row.state = s := by simpa using hs
      have hkeep := hrow.2
      rcases hfresh row hrow.1 hs' with h1 | h1
      · simp [h1] at hkeep
      · simp [h1] at hkeep
    · simp at h
  · rw [h]

/-- C19: a launch request with one of its four required fields empty is
answered 400 and stores nothing; a request with all four present, whose login
initiation URL parses, is answered 302 (the drawn state being fresh in the
store), the `lti_corr` cookie, the `state` query parameter of the redirect and
the key of the stored row are the same string, and the row holds the request's
client_id, target_link_uri, context_id and resource_link_id with an expiry 15
minutes after now. -/
theorem C19_launch_stores_and_correlates (parse : String → Option URL)
    (query : String → List (String × String)) (db : ValidationDB) (now : Nat)
    (state nonce : String) (b : LaunchBody) :
    ((b.Issuer = "" ∨ b.ClientID = "" ∨ b.LoginInitiationURL = "" ∨ b.TargetLinkURI = "") →
      (launchStart parse query db now state nonce (some b)).1.status = 400 ∧
      (launchStart parse query db now state nonce (some b)).1.cookie = none ∧
      (launchStart parse query db now state nonce (some b)).2 = db) ∧
    (b.Issuer ≠ "" → b.ClientID ≠ "" → b.LoginInitiationURL ≠ "" → b.TargetLinkURI ≠ "" →
      ∀ u, parse b.LoginInitiationURL = some u →
      (∀ row ∈ db.oidc_states, row.state = state → row.expires_at < now ∨ row.used = 1) →
      (launchStart parse query db now state nonce (some b)).1.status = 302 ∧
      (launchStart parse query db now state nonce (some b)).1.cookie
        = some ⟨"lti_corr", state, "/", 120, true, true, "Lax"⟩ ∧
      (∃ q, (launchStart parse query db now state nonce (some b)).1.location = some (u, q) ∧
        valuesGet q "state" = state ∧ valuesGet q "nonce" = nonce) ∧
      (launchStart parse query db now state nonce (some b)).2
        = (CreateOIDCState db now state b.ClientID b.TargetLinkURI b.ContextID b.ResourceLinkID
            (now + 900)).2 ∧
      selectState (launchStart parse query db now state nonce (some b)).2 state
        = some ⟨state, b.ClientID, b.TargetLinkURI, b.ResourceLinkID, b.ContextID,
            now + 900, 0⟩) := by
  constructor
  · intro hmiss
    unfold launchStart
    simp only [hmiss, if_true, and_self]
  · intro h1 h2 h3 h4 u hu hfresh
    have hreq : ¬ (b.Issuer = "" ∨ b.ClientID = "" ∨ b.LoginInitiationURL = "" ∨
        b.TargetLinkURI = "") := by
      rintro (h | h | h | h)
      · exact h1 h
      · exact h2 h
      · exact h3 h
      · exact h4 h
    have hcreate := create_succeeds_of_fresh db now state b.ClientID b.TargetLinkURI
      b.ContextID b.ResourceLinkID (now + 15 * 60) hfresh
    have hsel := select_after_create db now state b.ClientID b.TargetLinkURI b.ContextID
      b.ResourceLinkID (now + 15 * 60) hcreate
    have heq : ∃ q0, launchStart parse query db now state nonce (some b) =
        (⟨302, "", some ⟨"lti_corr", state, "/", 120, true, true, "Lax"⟩,
          some (u, valuesSet (valuesSet q0 "state" state) "nonce" nonce)⟩,
         (CreateOIDCState db now state b.ClientID b.TargetLinkURI b.ContextID b.ResourceLinkID
            (now + 15 * 60)).2) := by
      unfold launchStart
      simp only [hreq, if_false, hu, hcreate, Bool.true_eq_false]
      exact ⟨_, rfl⟩
    obtain ⟨q0, heq⟩ := heq
    rw [heq]
    refine ⟨rfl, rfl, ⟨_, rfl, ?_, valuesGet_set_same _ _ _⟩, rfl, hsel⟩
    rw [valuesGet_set_other _ "nonce" "state" nonce (by decide)]
    exact valuesGet_set_same _ _ _

/-- C19 at the launch of the first scenario: the request is answered 302 with
the cookie `lti_corr` carrying the drawn state. -/
theorem C19_launch_stores_and_correlates_witness :
    (launchStart urlParse (fun _ => []) emptyDB 0 "state-uuid" "nonce-uuid"
        (some sampleLaunch)).1.status = 302 ∧
    (launchStart urlParse (fun _ => []) emptyDB 0 "state-uuid" "nonce-uuid"
        (some sampleLaunch)).1.cookie
      = some ⟨"lti_corr", "state-uuid", "/", 120, true, true, "Lax"⟩ :=
  ⟨((C19_launch_stores_and_correlates urlParse (fun _ => []) emptyDB 0 "state-uuid"
      "nonce-uuid" sampleLaunch).2 (by decide) (by decide) (by decide) (by decide)
      ⟨"https", "tool", "/oidc"⟩ (by decide) (by decide)).1,
   ((C19_launch_stores_and_correlates urlParse (fun _ => []) emptyDB 0 "state-uuid"
      "nonce-uuid" sampleLaunch).2 (by decide) (by decide) (by decide) (by decide)
      ⟨"https", "tool", "/oidc"⟩ (by decide) (by decide)).2.1⟩


/-! ## Claims of the id_token -/

/-- An id_token that `oidcAuth` returns is the one `buildIdToken` makes from
the request and the consumed state. -/
theorem oidcAuth_token_built (parse : String → Option URL) (h : Platform) (tools : List Tool)
    (mappings : List (Int × String)) (db : ValidationDB) (now : Nat) (rnd : String)
    (r : Request) (tok : IdToken)
    (htok : (oidcAuth parse h tools mappings db now rnd r).1.idToken = some tok) :
    ∃ c kid, requestCookie r "lti_corr" = some c ∧ h.signingKey = some kid ∧
      (ConsumeOIDCState db now c.2).1.ok = true ∧
      tok = buildIdToken h mappings kid now rnd (formValue r "login_hint")
        (formValue r "client_id") (formValue r "nonce") (formValue r "lti_message_hint")
        (ConsumeOIDCState db now c.2).1.targetLinkURI
        (ConsumeOIDCState db now c.2).1.resourceLinkID
        (ConsumeOIDCState db now c.2).1.contextID := by
  unfold oidcAuth at htok
  simp only at htok
  split at htok
  · simp [authError] at htok
  · split at htok
    · simp [authError] at htok
    · rename_i c hc
      split at htok
      · simp [authError] at htok
      · split at htok
        · simp [authError] at htok
        · rename_i hok
          split at htok
          · simp [authError] at htok
          · split at htok
            · simp [authError] at htok
            · split at htok
              · simp [authError] at htok
              · split at htok
                · simp [authError] at htok
                · split at htok
                  · simp [authError] at htok
                  · split at htok
                    · simp [authError] at htok
                    · rename_i kid hkid
                      refine ⟨c, kid, hc, hkid, ?_, ?_⟩
                      · simpa using hok
                      · simp only [Option.some.injEq] at htok
                        exact htok.symm

/-- The lookup of a resource link that has a mapping returns the id of a
mapped row. -/
theorem getLineItemID_mem (mappings : List (Int × String)) (R : String)
    (hex : ∃ m ∈ mappings, m.2 = R) :
    (GetLineItemIDByResourceLinkID mappings R, R) ∈ mappings := by
  unfold GetLineItemIDByResourceLinkID
  cases hf : mappings.find? (fun m => decide (m.2 = R)) with
  | none =>
    obtain ⟨m, hm, hmR⟩ := hex
    have := List.find?_eq_none.mp hf m hm
    simp [hmR] at this
  | some m =>
    have hmem := List.mem_of_find?_eq_some hf
    have hp := List.find?_some hf
    simp only [decide_eq_true_eq] at hp
    simp only
    rw [← hp]
    exact hmem

/-- The lookup of a resource link without a mapping returns 0. -/
theorem getLineItemID_none (mappings : List (Int × String)) (R : String)
    (hno : ∀ m ∈ mappings, m.2 ≠ R) : GetLineItemIDByResourceLinkID mappings R = 0 := by
  unfold GetLineItemIDByResourceLinkID
  cases hf : mappings.find? (fun m => decide (m.2 = R)) with
  | none => rfl
  | some m =>
    have hmem := List.mem_of_find?_eq_some hf
    have hp := List.find?_some hf
    simp only [decide_eq_true_eq] at hp
    exact absurd hp (hno m hmem)

/-- C21, as stated, fails: a launch whose state carries the empty context id
gets the AGS URLs of context `dev-context`, not of the stored context. -/
theorem C21_empty_context_falls_back :
    (ConsumeOIDCState sampleDBNoContext 5 "s1").1.ok = true ∧
    (ConsumeOIDCState sampleDBNoContext 5 "s1").1.contextID = "" ∧
    ((oidcAuth urlParse samplePlatform [sampleTool] [(7, "rl")] sampleDBNoContext 5 "r"
        sampleAuthRequest).1.idToken.bind (fun t => t.ags_endpoint)) =
      some ⟨"https://platform.example/api/ags/contexts/dev-context/lineitems/7",
        "https://platform.example/api/ags/contexts/dev-context/lineitems", agsScopes⟩ ∧
    ((oidcAuth urlParse samplePlatform [sampleTool] [(7, "rl")] sampleDBNoContext 5 "r"
        sampleAuthRequest).1.idToken.bind (fun t => t.ags_endpoint)) ≠
      some ⟨"https://platform.example" ++ "/api/ags/contexts/" ++ "" ++ "/lineitems/" ++ "7",
        "https://platform.example" ++ "/api/ags/contexts/" ++ "" ++ "/lineitems", agsScopes⟩ := by
  decide

/-- C21, amended: for every resource-link launch whose consumed state carries
context_id C and resource_link_id R, the AGS endpoint claim of the id_token has
lineitem = base/api/ags/contexts/C1/lineitems/L and lineitems =
base/api/ags/contexts/C1/lineitems, where C1 is C when C is not empty and
`dev-context` when it is, L is the decimal id of the line item mapped to R in
the AGS store and the empty string when R has no mapping, and base is
`PUBLIC_BASE_URL` when set and the issuer otherwise. -/
theorem C21_lineitem_url_of_launch (parse : String → Option URL) (h : Platform)
    (tools : List Tool) (mappings : List (Int × String)) (db : ValidationDB) (now : Nat)
    (rnd : String) (r : Request) (tok : IdToken) (c : String × String)
    (hinv : mappingsWellFormed mappings = true)
    (hk : requestCookie r "lti_corr" = some c)
    (hdeep : formValue r "lti_message_hint" ≠ "deep_linking")
    (htok : (oidcAuth parse h tools mappings db now rnd r).1.idToken = some tok) :
    ∃ ags, tok.ags_endpoint = some ags ∧
      ags.lineitems =
        (if h.publicBaseURL ≠ "" then h.publicBaseURL else h.issuer) ++ "/api/ags/contexts/"
          ++ (if (ConsumeOIDCState db now c.2).1.contextID = "" then "dev-context"
              else (ConsumeOIDCState db now c.2).1.contextID) ++ "/lineitems" ∧
      ((∃ m ∈ mappings, m.2 = (ConsumeOIDCState db now c.2).1.resourceLinkID) →
        ags.lineitem =
          (if h.publicBaseURL ≠ "" then h.publicBaseURL else h.issuer) ++ "/api/ags/contexts/"
            ++ (if (ConsumeOIDCState db now c.2).1.contextID = "" then "dev-context"
                else (ConsumeOIDCState db now c.2).1.contextID) ++ "/lineitems/"
            ++ FormatInt (GetLineItemIDByResourceLinkID mappings
                (ConsumeOIDCState db now c.2).1.resourceLinkID)) ∧
      ((∀ m ∈ mappings, m.2 ≠ (ConsumeOIDCState db now c.2).1.resourceLinkID) →
        ags.lineitem =
          (if h.publicBaseURL ≠ "" then h.publicBaseURL else h.issuer) ++ "/api/ags/contexts/"
            ++ (if (ConsumeOIDCState db now c.2).1.contextID = "" then "dev-context"
                else (ConsumeOIDCState db now c.2).1.contextID) ++ "/lineitems/" ++ "") := by
  obtain ⟨c1, kid, hc1, _, _, hbuilt⟩ :=
    oidcAuth_token_built parse h tools mappings db now rnd r tok htok
  have hcc : c1 = c := by
    rw [hk] at hc1
    exact (Option.some.inj hc1).symm
  subst hcc
  have hall := List.all_eq_true.mp hinv
  refine ⟨_, by rw [hbuilt]; simp only [buildIdToken, hdeep, decide_False]; rfl, rfl, ?_, ?_⟩
  · intro hex
    have hmem := getLineItemID_mem mappings _ hex
    have hm := hall _ hmem
    simp only [Bool.and_eq_true, decide_eq_true_eq] at hm
    have hpos : ¬ (GetLineItemIDByResourceLinkID mappings
        (ConsumeOIDCState db now c1.2).1.resourceLinkID < 0) := by omega
    simp only [hm.2, hm.1, ne_eq, not_false_eq_true, gt_iff_lt, and_self, if_true, FormatInt,
      hpos, if_false]
  · intro hno
    have h0 := getLineItemID_none mappings _ hno
    simp only [h0, gt_iff_lt, lt_self_iff_false, and_false, if_false]

/-- C21 at a concrete launch: the state carries context `ctx` and resource link
`rl`, which is mapped to line item 7. -/
theorem C21_lineitem_url_of_launch_witness :
    ∃ ags, (buildIdToken samplePlatform [(7, "rl")] "platform-kid" 5 "r" "" "c1" "n1" ""
        "https://tool/launch" "rl" "ctx").ags_endpoint = some ags ∧
      ags.lineitems = "https://platform.example/api/ags/contexts/ctx/lineitems" ∧
      ags.lineitem = "https://platform.example/api/ags/contexts/ctx/lineitems/7" := by
  obtain ⟨ags, h1, h2, h3, _⟩ :=
    C21_lineitem_url_of_launch urlParse samplePlatform [sampleTool] [(7, "rl")] sampleDB 5 "r"
      sampleAuthRequest
      (buildIdToken samplePlatform [(7, "rl")] "platform-kid" 5 "r" "" "c1" "n1" ""
        "https://tool/launch" "rl" "ctx")
      ("lti_corr", "s1") (by decide) (by decide) (by decide) (by decide)
  refine ⟨ags, h1, ?_, ?_⟩
  · rw [h2]
    decide
  · rw [h3 ⟨(7, "rl"), by decide, by decide⟩]
    decide

/-- The services claim of every resource-link id_token names
base + `/oauth2/token` for the AGS scopes. -/
theorem services_endpoint_of_launch (h : Platform) (mappings : List (Int × String))
    (kid : String) (now : Nat) (rnd lh clientID nonce hint target R C : String)
    (hdeep : hint ≠ "deep_linking") :
    (buildIdToken h mappings kid now rnd lh clientID nonce hint target R C).services.head? =
      some ⟨(if h.publicBaseURL ≠ "" then h.publicBaseURL else h.issuer) ++ "/oauth2/token",
        agsScopes⟩ := by
  simp only [buildIdToken, hdeep, decide_False]
  rfl

/-- C27 at a concrete launch with `PUBLIC_BASE_URL` unset: the services claim
names issuer + `/oauth2/token` for the AGS scopes, which is not issuer +
`/api/oauth2/token`; a client assertion whose audience is the advertised URL is
refused by the token endpoint with 401, one whose audience is issuer +
`/api/oauth2/token` is answered 200. -/
theorem C27_services_endpoint_lacks_api :
    samplePlatform.publicBaseURL = "" ∧
    ((oidcAuth urlParse samplePlatform [sampleTool] [] sampleDB 5 "r"
        sampleAuthRequest).1.idToken.map (fun t => t.services.map (fun e => e.endpoint))) =
      some ["https://platform.example/oauth2/token",
        "https://platform.example/api/nrps/contexts/ctx/members"] ∧
    "https://platform.example/oauth2/token" ≠ samplePlatform.issuer ++ "/api/oauth2/token" ∧
    (oauth2Token (wireOf (sampleAssertion "https://platform.example/oauth2/token")) sampleJWKS
      samplePlatform [sampleTool] emptyDB 500 "r" (some sampleTokenForm)).1.status = 401 ∧
    (oauth2Token (wireOf (sampleAssertion (samplePlatform.issuer ++ "/api/oauth2/token")))
      sampleJWKS samplePlatform [sampleTool] emptyDB 500 "r" (some sampleTokenForm)).1.status
      = 200 := by
  decide

/-! ## Early refusals of the token endpoint -/

/-- The early refusals of `oauth2Token` on the values of the form: 400
`unsupported_grant_type` when grant_type is not `client_credentials`; otherwise
400 `invalid_request` when scope is empty, when client_assertion_type is not
the jwt-bearer URN, or when client_assertion is empty; and 400
`invalid_request` when the form could not be read.  In each case the
validation store is left as it was and no token is issued. -/
theorem oauth2Token_early_refusals (wire : String → Option JWT) (jwks : String → Option (List String))
    (h : Platform) (tools : List Tool) (db : ValidationDB) (now : Nat) (rnd : String)
    (f : List (String × String)) :
    (valuesGet f "grant_type" ≠ "client_credentials" →
      oauth2Token wire jwks h tools db now rnd (some f) =
        (⟨400, "unsupported_grant_type", "grant_type must be client_credentials", none, ""⟩,
          db)) ∧
    (valuesGet f "grant_type" = "client_credentials" →
      (valuesGet f "scope" = "" ∨
        valuesGet f "client_assertion_type" ≠
          "urn:ietf:params:oauth:client-assertion-type:jwt-bearer" ∨
        valuesGet f "client_assertion" = "") →
      (oauth2Token wire jwks h tools db now rnd (some f)).1.status = 400 ∧
      (oauth2Token wire jwks h tools db now rnd (some f)).1.error = "invalid_request" ∧
      (oauth2Token wire jwks h tools db now rnd (some f)).1.accessToken = none ∧
      (oauth2Token wire jwks h tools db now rnd (some f)).2 = db) ∧
    oauth2Token wire jwks h tools db now rnd none =
      (⟨400, "invalid_request", "invalid form", none, ""⟩, db) := by
  refine ⟨?_, ?_, rfl⟩
  · intro hg
    simp [oauth2Token, hg, writeOAuthError]
  · intro hg hbad
    unfold oauth2Token
    simp only [hg, ne_eq, not_true_eq_false, if_false]
    by_cases hs : valuesGet f "scope" = ""
    · simp [hs, writeOAuthError]
    · by_cases ht : valuesGet f "client_assertion_type" =
          "urn:ietf:params:oauth:client-assertion-type:jwt-bearer"
      · by_cases ha : valuesGet f "client_assertion" = ""
        · simp [hs, ht, ha, writeOAuthError]
        · rcases hbad with hb | hb | hb
          · exact absurd hb hs
          · exact absurd ht hb
          · exact absurd hb ha
      · simp [hs, ht, writeOAuthError]

/-- C23, as stated, fails: the body `grant_type=password&scope=%zz` names a
grant type other than `client_credentials`, but `ParseForm` returns an error
for the bad escape and the request is answered 400 `invalid_request`, not
`unsupported_grant_type`. -/
theorem C23_unreadable_form_is_invalid_request :
    ParseForm sampleBadFormRequest = ([("grant_type", "password")], true) ∧
    valuesGet (ParseForm sampleBadFormRequest).1 "grant_type" ≠ "client_credentials" ∧
    oauth2TokenRequest (wireOf assertionNoExp) sampleJWKS samplePlatform [sampleTool] emptyDB 500
        "r" sampleBadFormRequest =
      (⟨400, "invalid_request", "invalid form", none, ""⟩, emptyDB) ∧
    (oauth2TokenRequest (wireOf assertionNoExp) sampleJWKS samplePlatform [sampleTool] emptyDB 500
        "r" sampleBadFormRequest).1.error ≠ "unsupported_grant_type" := by
  decide

/-- C23, amended: `oauth2Token` answers 400 `invalid_request` for every
request whose form `ParseForm` cannot read, whatever its grant_type; for every
request whose form is read it answers 400 `unsupported_grant_type` when
grant_type is not `client_credentials`, and for the remaining requests 400
`invalid_request` when scope is empty, when client_assertion_type is not the
jwt-bearer URN, or when client_assertion is empty; none of these requests
records a JTI or issues a token. -/
theorem C23_early_refusals_of_request (wire : String → Option JWT)
    (jwks : String → Option (List String)) (h : Platform) (tools : List Tool)
    (db : ValidationDB) (now : Nat) (rnd : String) (r : TokenRequest) :
    ((ParseForm r).2 = true →
      oauth2TokenRequest wire jwks h tools db now rnd r =
        (⟨400, "invalid_request", "invalid form", none, ""⟩, db)) ∧
    ((ParseForm r).2 = false →
      valuesGet (ParseForm r).1 "grant_type" ≠ "client_credentials" →
      oauth2TokenRequest wire jwks h tools db now rnd r =
        (⟨400, "unsupported_grant_type", "grant_type must be client_credentials", none, ""⟩,
          db)) ∧
    ((ParseForm r).2 = false →
      valuesGet (ParseForm r).1 "grant_type" = "client_credentials" →
      (valuesGet (ParseForm r).1 "scope" = "" ∨
        valuesGet (ParseForm r).1 "client_assertion_type" ≠
          "urn:ietf:params:oauth:client-assertion-type:jwt-bearer" ∨
        valuesGet (ParseForm r).1 "client_assertion" = "") →
      (oauth2TokenRequest wire jwks h tools db now rnd r).1.status = 400 ∧
      (oauth2TokenRequest wire jwks h tools db now rnd r).1.error = "invalid_request" ∧
      (oauth2TokenRequest wire jwks h tools db now rnd r).1.accessToken = none ∧
      (oauth2TokenRequest wire jwks h tools db now rnd r).2 = db) := by
  have key := oauth2Token_early_refusals wire jwks h tools db now rnd (ParseForm r).1
  refine ⟨?_, ?_, ?_⟩
  · intro herr
    unfold oauth2TokenRequest
    rw [herr]
    exact key.2.2
  · intro hok hg
    unfold oauth2TokenRequest
    rw [hok]
    exact key.1 hg
  · intro hok hg hbad
    unfold oauth2TokenRequest
    rw [hok]
    exact key.2.1 hg hbad

/-- C23 at concrete requests: a readable password grant is refused with
`unsupported_grant_type`, a client-credentials request without scope with
`invalid_request`, and the store is untouched. -/
theorem C23_early_refusals_of_request_witness :
    oauth2TokenRequest (wireOf assertionNoExp) sampleJWKS samplePlatform [sampleTool] emptyDB 500
        "r" ⟨"", "grant_type=password&scope=a+b"⟩ =
      (⟨400, "unsupported_grant_type", "grant_type must be client_credentials", none, ""⟩,
        emptyDB) ∧
    (oauth2TokenRequest (wireOf assertionNoExp) sampleJWKS samplePlatform [sampleTool] emptyDB 500
        "r" ⟨"", "grant_type=client_credentials"⟩).1.error = "invalid_request" :=
  ⟨(C23_early_refusals_of_request (wireOf assertionNoExp) sampleJWKS samplePlatform [sampleTool]
      emptyDB 500 "r" ⟨"", "grant_type=password&scope=a+b"⟩).2.1 (by decide) (by decide),
   ((C23_early_refusals_of_request (wireOf assertionNoExp) sampleJWKS samplePlatform [sampleTool]
      emptyDB 500 "r" ⟨"", "grant_type=client_credentials"⟩).2.2 (by decide) (by decide)
      (Or.inl (by decide))).2.1⟩

/-! ## Creation and representation of line items -/

/-- A create request whose decoded `scoreMaximum` is zero (absent or 0) is
answered 400 and inserts nothing. -/
theorem agsCreate_zero_refused (pathEscape : String → String) (h : Platform)
    (items : List LineItem) (seq : Int) (now : Nat) (r : AGSRequest) (li : LineItem)
    (hb : r.body = some li) (hz : li.ScoreMaximum = 0) :
    agsCreateLineItem pathEscape h items seq now r =
      (⟨400, "", AGSBody.text "scoreMaximumIsRequired"⟩, items, seq) := by
  simp [agsCreateLineItem, hb, hz]

/-- A create request whose decoded `scoreMaximum` is not zero is answered 201
and inserts a row with that maximum. -/
theorem agsCreate_nonzero_inserts (pathEscape : String → String) (h : Platform)
    (items : List LineItem) (seq : Int) (now : Nat) (r : AGSRequest) (li : LineItem)
    (hb : r.body = some li) (hz : li.ScoreMaximum ≠ 0) :
    (agsCreateLineItem pathEscape h items seq now r).1.status = 201 ∧
    (agsCreateLineItem pathEscape h items seq now r).2.1 =
      items ++ [{ li with ID := nextRowID seq (items.map (fun x => x.ID)),
                          ContextID := r.contextId, CreatedAt := now, UpdatedAt := now }] := by
  simp [agsCreateLineItem, hb, hz, CreateLineItem]

/-- C24 at a concrete request: the body `{"label":"Quiz","scoreMaximum":-5}`
is answered 201 and a row with score_maximum −5 is inserted, while the same
body with scoreMaximum 0 is answered 400 and inserts nothing. -/
theorem C24_negative_maximum_is_created :
    agsCreateLineItem (fun x => x) samplePlatform [] 0 60 sampleCreateNegative =
      (⟨201, "https://platform.example/api/ags/contexts/ctxA/lineitems/1",
         AGSBody.apiItem ⟨"https://platform.example/api/ags/contexts/ctxA/lineitems/1", "Quiz",
           "", "", "", -5, none, none⟩⟩,
       [⟨1, "ctxA", "Quiz", "", "", "", -5, none, none, 60, 60⟩], 1) ∧
    agsCreateLineItem (fun x => x) samplePlatform [] 0 60
        { sampleCreateNegative with
          body := some ⟨0, "", "Quiz", "", "", "", 0, none, none, 0, 0⟩ } =
      (⟨400, "", AGSBody.text "scoreMaximumIsRequired"⟩, [], 0) := by
  decide

/-- The list endpoint emits every line item with the item URL as id. -/
theorem agsList_ids_are_urls (pathEscape : String → String) (h : Platform)
    (items : List LineItem) (rl : String) (r : AGSRequest) :
    ∃ lis : List LineItem,
      (agsListLineItems pathEscape h items rl r).body =
        AGSBody.apiItems (lis.map (toAPI pathEscape h r)) ∧
      ∀ li ∈ lis, (toAPI pathEscape h r li).ID = itemURL pathEscape h r li.ContextID li.ID :=
  ⟨_, rfl, fun _ _ => rfl⟩

/-- The get endpoint emits a found line item with the item URL as id. -/
theorem agsGet_id_is_url (pathEscape : String → String) (h : Platform) (items : List LineItem)
    (r : AGSRequest) (id : Int) (li : LineItem) (hid : ParseInt r.lineItemId = some id)
    (hli : GetLineItem items id r.contextId = some li) :
    ∃ a, (agsGetLineItem pathEscape h items r).body = AGSBody.apiItem a ∧
      a.ID = itemURL pathEscape h r r.contextId id := by
  have hp := List.find?_some hli
  simp only [Bool.and_eq_true, decide_eq_true_eq] at hp
  refine ⟨toAPI pathEscape h r li, by simp [agsGetLineItem, hid, hli], ?_⟩
  simp [toAPI, hp.1, hp.2]

/-- The create endpoint emits the created line item with the item URL as
id. -/
theorem agsCreate_id_is_url (pathEscape : String → String) (h : Platform)
    (items : List LineItem) (seq : Int) (now : Nat) (r : AGSRequest) (li : LineItem)
    (hb : r.body = some li) (hz : li.ScoreMaximum ≠ 0) :
    ∃ a, (agsCreateLineItem pathEscape h items seq now r).1.body = AGSBody.apiItem a ∧
      a.ID = itemURL pathEscape h r r.contextId (nextRowID seq (items.map (fun x => x.ID))) := by
  refine ⟨_, by simp only [agsCreateLineItem, hb, hz, if_false]; rfl, ?_⟩
  simp [toAPI, CreateLineItem]

/-- The update endpoint emits the repository struct, whose id is the
integer of the path. -/
theorem agsUpdate_id_is_integer (items : List LineItem) (now : Nat) (r : AGSRequest) (id : Int)
    (li : LineItem) (hid : ParseInt r.lineItemId = some id) (hb : r.body = some li) :
    (agsUpdateLineItem items now r).1.body =
      AGSBody.lineItem { li with ID := id, ContextID := r.contextId, UpdatedAt := now } := by
  simp [agsUpdateLineItem, hid, hb, UpdateLineItem]

/-- C25 at a concrete request: for line item 1 of context `ctxA` the get
endpoint emits the id as the URL
`https://platform.example/api/ags/contexts/ctxA/lineitems/1`, the list endpoint
likewise, and the update endpoint emits the repository struct with the bare
integer 1 as id. -/
theorem C25_update_emits_integer_id :
    (agsGetLineItem (fun x => x) samplePlatform [sampleLineItem] sampleUpdateRequest).body =
      AGSBody.apiItem ⟨"https://platform.example/api/ags/contexts/ctxA/lineitems/1", "Quiz 1",
        "", "", "", 10, none, none⟩ ∧
    (agsListLineItems (fun x => x) samplePlatform [sampleLineItem] "" sampleUpdateRequest).body =
      AGSBody.apiItems [⟨"https://platform.example/api/ags/contexts/ctxA/lineitems/1", "Quiz 1",
        "", "", "", 10, none, none⟩] ∧
    agsUpdateLineItem [sampleLineItem] 60 sampleUpdateRequest =
      (⟨200, "", AGSBody.lineItem ⟨1, "ctxA", "Quiz 1b", "", "", "", 10, none, none, 0, 60⟩⟩,
        [⟨1, "ctxA", "Quiz 1b", "", "", "", 10, none, none, 50, 60⟩]) := by
  decide

/-! ## Key manager -/

/-- Once `once` has run, `Init` returns `nil` and changes nothing, whatever
the first run did. -/
theorem init_after_once (env : KeysEnv) (s : KeysState) (hd : s.onceDone = true) :
    Init env s = (none, s) := by
  simp [Init, hd]

/-- Every call of `Init` leaves `once` run. -/
theorem init_sets_once (env : KeysEnv) (s : KeysState) : (Init env s).2.onceDone = true := by
  unfold Init
  by_cases hd : s.onceDone = true
  · simp [hd]
  · simp only [hd, Bool.false_eq_true, if_false]
    cases env.keyB64 <;> cases env.keyPEM <;> cases env.generated <;>
      cases hf : env.fromRawErr <;> simp [initWithKey, hf]

/-- The function taken alone: when no key is configured and key generation
fails, the first `Init` returns the error and a second `Init` on the same
package variables returns `nil` although `PrivateKey` is still `nil`. -/
theorem init_second_call_returns_nil :
    (Init sampleKeysEnv keysInitial).1 = some "entropy source failed" ∧
    (Init sampleKeysEnv (Init sampleKeysEnv keysInitial).2).1 = none ∧
    PrivateKey (Init sampleKeysEnv (Init sampleKeysEnv keysInitial).2).2 = none ∧
    (runInit keysInitial [sampleKeysEnv, sampleKeysEnv, sampleKeysEnv]).1 =
      [some "entropy source failed", none, none] := by
  decide

/-! ## Deep link return -/

/-- The sequence value is a lower bound of the fold that `nextRowID` takes. -/
theorem le_foldl_max (ids : List Int) (seq : Int) : seq ≤ ids.foldl max seq := by
  induction ids generalizing seq with
  | nil => exact le_refl _
  | cons a as ih => exact le_trans (le_max_left seq a) (ih (max seq a))

/-- Every id in the table is below the next row id. -/
theorem lt_nextRowID_of_mem (ids : List Int) (seq x : Int) (hx : x ∈ ids) :
    x < nextRowID seq ids := by
  unfold nextRowID
  induction ids generalizing seq with
  | nil => cases hx
  | cons a as ih =>
    rcases List.mem_cons.mp hx with h | h
    · subst h
      have := le_foldl_max as (max seq x)
      have h2 := le_max_right seq x
      simp only [List.foldl_cons]
      omega
    · exact ih (max seq a) h

/-- With a non-negative sequence value the next row id is positive. -/
theorem nextRowID_pos (ids : List Int) (seq : Int) (h : 0 ≤ seq) : 0 < nextRowID seq ids := by
  have := le_foldl_max ids seq
  unfold nextRowID
  omega

/-- The selections after one content item that is an object: the result of the
one insert. -/
theorem deeplinkItem_selections (marshal : List (String × JSON) → Option String)
    (clientID matchedTool contextId : String) (now : Nat) (ok : Bool) (st : DLStore)
    (m : List (String × JSON)) :
    (deeplinkItem marshal clientID matchedTool contextId now ok st (JSON.obj m)).selections =
      (CreateDeepLinkSelection st.selections st.selSeq now ok
        ⟨0, clientID, matchedTool, JSON.getString m "url",
          (match marshal m with
            | some b => b
            | none => "\x7b\x7d"), 0⟩).2.1 := by
  unfold deeplinkItem
  simp only
  split
  · split <;> rfl
  · rfl

/-- The line items and mappings after one content item that is an object,
when the creation condition of the handler holds. -/
theorem deeplinkItem_creates (marshal : List (String × JSON) → Option String)
    (clientID matchedTool contextId : String) (now : Nat) (st : DLStore)
    (m liRaw : List (String × JSON)) (hseq : 0 ≤ st.selSeq)
    (hli : JSON.getObject m "lineItem" = some liRaw)
    (hlabel : JSON.getString liRaw "label" ≠ "")
    (hmax : 0 < JSON.getNumber liRaw "scoreMaximum") (hctx : contextId ≠ "") :
    (deeplinkItem marshal clientID matchedTool contextId now true st (JSON.obj m)).items =
      st.items ++ [⟨nextRowID st.itemSeq (st.items.map (fun x => x.ID)), contextId,
        JSON.getString liRaw "label", "",
        FormatInt (nextRowID st.selSeq (st.selections.map (fun x => x.ID))), "",
        JSON.getNumber liRaw "scoreMaximum", none, none, now, now⟩] ∧
    (deeplinkItem marshal clientID matchedTool contextId now true st (JSON.obj m)).mappings =
      (CreateLineItemMapping st.mappings (nextRowID st.itemSeq (st.items.map (fun x => x.ID)))
        (FormatInt (nextRowID st.selSeq (st.selections.map (fun x => x.ID))))).2 := by
  have hpos := nextRowID_pos (st.selections.map (fun x => x.ID)) st.selSeq hseq
  have hne : nextRowID st.selSeq (st.selections.map (fun x => x.ID)) ≠ 0 := by omega
  unfold deeplinkItem
  simp only [hli, CreateDeepLinkSelection, if_true, hlabel, hmax, hne, hctx, ne_eq,
    not_false_eq_true, gt_iff_lt, and_self, CreateLineItem]

/-- The line items and mappings after one content item that is an object,
when the creation condition of the handler fails. -/
theorem deeplinkItem_skips (marshal : List (String × JSON) → Option String)
    (clientID matchedTool contextId : String) (now : Nat) (ok : Bool) (st : DLStore)
    (m : List (String × JSON))
    (hno : ¬ (ok = true ∧ contextId ≠ "" ∧ ∃ liRaw, JSON.getObject m "lineItem" = some liRaw ∧
      JSON.getString liRaw "label" ≠ "" ∧ 0 < JSON.getNumber liRaw "scoreMaximum")) :
    (deeplinkItem marshal clientID matchedTool contextId now ok st (JSON.obj m)).items = st.items ∧
    (deeplinkItem marshal clientID matchedTool contextId now ok st (JSON.obj m)).mappings =
      st.mappings := by
  unfold deeplinkItem
  simp only
  cases hli : JSON.getObject m "lineItem" with
  | none => exact ⟨rfl, rfl⟩
  | some liRaw =>
    simp only
    split
    · rename_i hc
      exfalso
      apply hno
      refine ⟨?_, hc.2.2.2, liRaw, hli, hc.1, hc.2.1⟩
      cases ok with
      | true => rfl
      | false => simp [CreateDeepLinkSelection] at hc
    · exact ⟨rfl, rfl⟩

/-- An element of `content_items` that is no object changes nothing. -/
theorem deeplinkItem_non_object (marshal : List (String × JSON) → Option String)
    (clientID matchedTool contextId : String) (now : Nat) (ok : Bool) (st : DLStore) (it : JSON)
    (hit : ∀ m, it ≠ JSON.obj m) :
    deeplinkItem marshal clientID matchedTool contextId now ok st it = st := by
  unfold deeplinkItem
  split
  · rename_i m
    exact absurd rfl (hit m)
  · rfl

/-- When every selection insert succeeds the loop adds one selection per
object among the content items, whatever the mapping inserts do. -/
theorem deeplinkItems_selections_length (marshal : List (String × JSON) → Option String)
    (clientID matchedTool contextId : String) (now : Nat) (insertOK : Nat → Bool)
    (hok : ∀ j, insertOK j = true) (xs : List JSON) (i : Nat) (st : DLStore) :
    (deeplinkItems marshal clientID matchedTool contextId now insertOK i st xs).selections.length
      = st.selections.length + countObjects xs := by
  induction xs generalizing i st with
  | nil => simp [deeplinkItems, countObjects]
  | cons it rest ih =>
    unfold deeplinkItems
    rw [ih]
    cases it with
    | obj m =>
      rw [deeplinkItem_selections]
      simp only [CreateDeepLinkSelection, hok, if_true, List.length_append, List.length_singleton,
        countObjects]
      omega
    | null => simp [deeplinkItem, countObjects]
    | bool b => simp [deeplinkItem, countObjects]
    | num x => simp [deeplinkItem, countObjects]
    | str v => simp [deeplinkItem, countObjects]
    | arr ys => simp [deeplinkItem, countObjects]

/-- One loop step of `deeplinkReturn` on a content item that is a JSON object
`m`: one selection holding the client id, the matched tool, the url and the
full JSON of the item is inserted (nothing when the insert fails); the line
item (context_id, label, resource_link_id = the selection id in decimal,
score_maximum) is created and the mapping from the new line item id to that
resource_link_id attempted exactly when the item has a `lineItem` object with
a non-empty label and scoreMaximum > 0, the context id is not empty and the
selection insert gave an id; the mapping row is added when neither value is
mapped yet; and the loop adds one selection per object among the items,
whatever the mapping inserts do. -/
theorem deeplinkItem_persisted (marshal : List (String × JSON) → Option String)
    (clientID matchedTool contextId : String) (now : Nat) (st : DLStore)
    (m : List (String × JSON)) (hseq : 0 ≤ st.selSeq) :
    (deeplinkItem marshal clientID matchedTool contextId now true st (JSON.obj m)).selections =
      st.selections ++ [⟨nextRowID st.selSeq (st.selections.map (fun x => x.ID)), clientID,
        matchedTool, JSON.getString m "url",
        (match marshal m with
          | some b => b
          | none => "\x7b\x7d"), now⟩] ∧
    (deeplinkItem marshal clientID matchedTool contextId now false st (JSON.obj m)).selections =
      st.selections ∧
    (∀ liRaw, JSON.getObject m "lineItem" = some liRaw → JSON.getString liRaw "label" ≠ "" →
      0 < JSON.getNumber liRaw "scoreMaximum" → contextId ≠ "" →
      (deeplinkItem marshal clientID matchedTool contextId now true st (JSON.obj m)).items =
        st.items ++ [⟨nextRowID st.itemSeq (st.items.map (fun x => x.ID)), contextId,
          JSON.getString liRaw "label", "",
          FormatInt (nextRowID st.selSeq (st.selections.map (fun x => x.ID))), "",
          JSON.getNumber liRaw "scoreMaximum", none, none, now, now⟩] ∧
      (deeplinkItem marshal clientID matchedTool contextId now true st (JSON.obj m)).mappings =
        (CreateLineItemMapping st.mappings (nextRowID st.itemSeq (st.items.map (fun x => x.ID)))
          (FormatInt (nextRowID st.selSeq (st.selections.map (fun x => x.ID))))).2 ∧
      ((∀ p ∈ st.mappings, p.1 ≠ nextRowID st.itemSeq (st.items.map (fun x => x.ID)) ∧
          p.2 ≠ FormatInt (nextRowID st.selSeq (st.selections.map (fun x => x.ID)))) →
        (deeplinkItem marshal clientID matchedTool contextId now true st (JSON.obj m)).mappings =
          st.mappings ++ [(nextRowID st.itemSeq (st.items.map (fun x => x.ID)),
            FormatInt (nextRowID st.selSeq (st.selections.map (fun x => x.ID))))])) ∧
    (∀ ok : Bool,
      ¬ (ok = true ∧ contextId ≠ "" ∧ ∃ liRaw, JSON.getObject m "lineItem" = some liRaw ∧
        JSON.getString liRaw "label" ≠ "" ∧ 0 < JSON.getNumber liRaw "scoreMaximum") →
      (deeplinkItem marshal clientID matchedTool contextId now ok st (JSON.obj m)).items =
        st.items ∧
      (deeplinkItem marshal clientID matchedTool contextId now ok st (JSON.obj m)).mappings =
        st.mappings) ∧
    (∀ (insertOK : Nat → Bool) (xs : List JSON) (i : Nat), (∀ j, insertOK j = true) →
      (deeplinkItems marshal clientID matchedTool contextId now insertOK i st
        xs).selections.length = st.selections.length + countObjects xs) := by
  refine ⟨?_, ?_, ?_, ?_, ?_⟩
  · rw [deeplinkItem_selections]
    simp [CreateDeepLinkSelection]
  · rw [deeplinkItem_selections]
    simp [CreateDeepLinkSelection]
  · intro liRaw hli hlabel hmax hctx
    have hc := deeplinkItem_creates marshal clientID matchedTool contextId now st m liRaw hseq
      hli hlabel hmax hctx
    refine ⟨hc.1, hc.2, ?_⟩
    intro hfresh
    rw [hc.2]
    unfold CreateLineItemMapping
    have hany : st.mappings.any (fun p =>
        decide (p.1 = nextRowID st.itemSeq (st.items.map (fun x => x.ID))) ||
        decide (p.2 = FormatInt (nextRowID st.selSeq (st.selections.map (fun x => x.ID)))))
        = false := by
      rw [List.any_eq_false]
      intro p hp
      have := hfresh p hp
      simp [this.1, this.2]
    simp only [hany, Bool.false_eq_true, if_false]
  · intro ok hno
    exact deeplinkItem_skips marshal clientID matchedTool contextId now ok st m hno
  · intro insertOK xs i hok
    exact deeplinkItems_selections_length marshal clientID matchedTool contextId now insertOK hok
      xs i st

/-- Selections that agree up to the tool name have the same ids. -/
theorem ids_of_eraseTool (sa sb : List DeepLinkSelection)
    (h : sa.map DeepLinkSelection.eraseTool = sb.map DeepLinkSelection.eraseTool) :
    sa.map (fun x => x.ID) = sb.map (fun x => x.ID) := by
  have h2 := congrArg (List.map (fun x : DeepLinkSelection => x.ID)) h
  simpa [List.map_map, Function.comp, DeepLinkSelection.eraseTool] using h2

/-- One loop step on two stores that agree up to tool names, with two
matched tool names, gives stores that agree up to tool names. -/
theorem deeplinkItem_eraseTool (marshal : List (String × JSON) → Option String)
    (clientID t1 t2 contextId : String) (now : Nat) (ok : Bool) (a b : DLStore) (it : JSON)
    (hab : a.eraseTool = b.eraseTool) :
    (deeplinkItem marshal clientID t1 contextId now ok a it).eraseTool =
      (deeplinkItem marshal clientID t2 contextId now ok b it).eraseTool := by
  obtain ⟨sa, qa, ia, ja, ma⟩ := a
  obtain ⟨sb, qb, ib, jb, mb⟩ := b
  simp only [DLStore.eraseTool, DLStore.mk.injEq] at hab
  obtain ⟨hs, hq, hi, hj, hm⟩ := hab
  subst hq hi hj hm
  have hids := ids_of_eraseTool sa sb hs
  cases it with
  | obj m =>
    unfold deeplinkItem
    cases ok with
    | false =>
      simp only [CreateDeepLinkSelection, Bool.false_eq_true, if_false, ne_eq, not_true_eq_false,
        false_and, and_false]
      split <;> simp [DLStore.eraseTool, hs]
    | true =>
      simp only [CreateDeepLinkSelection, if_true, hids]
      split
      · split <;>
          simp [DLStore.eraseTool, hs, DeepLinkSelection.eraseTool, List.map_append]
      · simp [DLStore.eraseTool, hs, DeepLinkSelection.eraseTool, List.map_append]
  | null => simpa [deeplinkItem, DLStore.eraseTool] using hs
  | bool v => simpa [deeplinkItem, DLStore.eraseTool] using hs
  | num v => simpa [deeplinkItem, DLStore.eraseTool] using hs
  | str v => simpa [deeplinkItem, DLStore.eraseTool] using hs
  | arr v => simpa [deeplinkItem, DLStore.eraseTool] using hs

/-- The loop on two stores that agree up to tool names, with two matched tool
names, ends in stores that agree up to tool names. -/
theorem deeplinkItems_eraseTool (marshal : List (String × JSON) → Option String)
    (clientID t1 t2 contextId : String) (now : Nat) (insertOK : Nat → Bool) (xs : List JSON)
    (i : Nat) (a b : DLStore) (hab : a.eraseTool = b.eraseTool) :
    (deeplinkItems marshal clientID t1 contextId now insertOK i a xs).eraseTool =
      (deeplinkItems marshal clientID t2 contextId now insertOK i b xs).eraseTool := by
  induction xs generalizing i a b with
  | nil => simpa [deeplinkItems] using hab
  | cons it rest ih =>
    unfold deeplinkItems
    exact ih (i + 1) _ _
      (deeplinkItem_eraseTool marshal clientID t1 t2 contextId now (insertOK i) a b it hab)

/-- The loop appends to the selection table, and every appended row carries
the matched tool name. -/
theorem deeplinkItems_appends (marshal : List (String × JSON) → Option String)
    (clientID t contextId : String) (now : Nat) (insertOK : Nat → Bool) (xs : List JSON)
    (i : Nat) (st : DLStore) :
    ∃ added, (deeplinkItems marshal clientID t contextId now insertOK i st xs).selections =
        st.selections ++ added ∧ ∀ x ∈ added, x.ToolName = t := by
  induction xs generalizing i st with
  | nil => exact ⟨[], by simp [deeplinkItems], by simp⟩
  | cons it rest ih =>
    unfold deeplinkItems
    obtain ⟨added, h1, h2⟩ :=
      ih (i + 1) (deeplinkItem marshal clientID t contextId now (insertOK i) st it)
    cases it with
    | obj m =>
      rw [h1, deeplinkItem_selections]
      cases hok : insertOK i with
      | false => exact ⟨added, by simp [CreateDeepLinkSelection], h2⟩
      | true =>
        refine ⟨(⟨nextRowID st.selSeq (st.selections.map (fun r => r.ID)), clientID, t,
            JSON.getString m "url",
            (match marshal m with
              | some b => b
              | none => "\x7b\x7d"), now⟩ : DeepLinkSelection) :: added,
          by simp [CreateDeepLinkSelection], ?_⟩
        intro x hx
        rcases List.mem_cons.mp hx with hx | hx
        · rw [hx]
        · exact h2 x hx
    | null => exact ⟨added, by rw [h1]; simp [deeplinkItem], h2⟩
    | bool v => exact ⟨added, by rw [h1]; simp [deeplinkItem], h2⟩
    | num v => exact ⟨added, by rw [h1]; simp [deeplinkItem], h2⟩
    | str v => exact ⟨added, by rw [h1]; simp [deeplinkItem], h2⟩
    | arr v => exact ⟨added, by rw [h1]; simp [deeplinkItem], h2⟩

/-- The persisting part of the handler, run with two matched tool names,
ends in stores that agree up to tool names. -/
theorem deeplinkPersist_eraseTool (decodePayload : String → Option JSON)
    (marshal : List (String × JSON) → Option String) (now : Nat) (insertOK : Nat → Bool)
    (t1 t2 idToken : String) (st : DLStore) :
    (deeplinkPersist decodePayload marshal now insertOK t1 idToken st).eraseTool =
      (deeplinkPersist decodePayload marshal now insertOK t2 idToken st).eraseTool := by
  unfold deeplinkPersist
  simp only
  split
  · exact deeplinkItems_eraseTool marshal _ t1 t2 _ now insertOK _ 0 st st rfl
  · rfl

/-- The persisting part of the handler appends to the selection table. -/
theorem deeplinkPersist_appends (decodePayload : String → Option JSON)
    (marshal : List (String × JSON) → Option String) (now : Nat) (insertOK : Nat → Bool)
    (t idToken : String) (st : DLStore) :
    ∃ added, (deeplinkPersist decodePayload marshal now insertOK t idToken st).selections =
      st.selections ++ added ∧ ∀ x ∈ added, x.ToolName = t := by
  unfold deeplinkPersist
  simp only
  split
  · exact deeplinkItems_appends marshal _ t _ now insertOK _ 0 st
  · exact ⟨[], by simp, by simp⟩

/-- An unverified response is persisted: with no JWKS reachable the sample
response is answered 200 with an empty tool name, and both content items are
stored with their line items. -/
theorem deeplink_unverified_persists :
    deeplinkReturn (wireOf (sampleAssertion "x")) (fun _ => none) sampleDecodePayload
        sampleMarshal [sampleTool] 500 (fun _ => true) sampleDLStore sampleDeepLinkRequest =
      (⟨200, "", ""⟩,
       ⟨[⟨1, "c1", "", "https://tool/a", "item https://tool/a", 500⟩,
         ⟨2, "c1", "", "https://tool/b", "item https://tool/b", 500⟩], 2,
        [⟨1, "ctx", "Quiz A", "", "1", "", 10, none, none, 500, 500⟩,
         ⟨2, "ctx", "Quiz B", "", "2", "", 20, none, none, 500, 500⟩], 2,
        [(99, "1"), (2, "2")]⟩) := by
  decide

/-- C29: two runs of `deeplinkReturn` on the same request and the same stores
that differ only in what the JWKS verification loop finds (the token decoder
and the JWKS fetches are arbitrary in both) leave the same line items, the same
line-item mappings and the same sequence values, and their selection tables
are the old table followed by new rows that agree in every field but
`tool_name`. -/
theorem C29_persistence_ignores_verification (wire1 wire2 : String → Option JWT)
    (fetch1 fetch2 : String → Option (List String)) (decodePayload : String → Option JSON)
    (marshal : List (String × JSON) → Option String) (tools : List Tool) (now : Nat)
    (insertOK : Nat → Bool) (st : DLStore) (r : Request) :
    (deeplinkReturn wire1 fetch1 decodePayload marshal tools now insertOK st r).2.items =
      (deeplinkReturn wire2 fetch2 decodePayload marshal tools now insertOK st r).2.items ∧
    (deeplinkReturn wire1 fetch1 decodePayload marshal tools now insertOK st r).2.mappings =
      (deeplinkReturn wire2 fetch2 decodePayload marshal tools now insertOK st r).2.mappings ∧
    (deeplinkReturn wire1 fetch1 decodePayload marshal tools now insertOK st r).2.itemSeq =
      (deeplinkReturn wire2 fetch2 decodePayload marshal tools now insertOK st r).2.itemSeq ∧
    (deeplinkReturn wire1 fetch1 decodePayload marshal tools now insertOK st r).2.selSeq =
      (deeplinkReturn wire2 fetch2 decodePayload marshal tools now insertOK st r).2.selSeq ∧
    ∃ added1 added2,
      (deeplinkReturn wire1 fetch1 decodePayload marshal tools now insertOK st r).2.selections =
        st.selections ++ added1 ∧
      (deeplinkReturn wire2 fetch2 decodePayload marshal tools now insertOK st r).2.selections =
        st.selections ++ added2 ∧
      added1.map DeepLinkSelection.eraseTool = added2.map DeepLinkSelection.eraseTool := by
  unfold deeplinkReturn
  simp only
  split
  · exact ⟨rfl, rfl, rfl, rfl, [], [], by simp, by simp, rfl⟩
  · rename_i hne
    have he := deeplinkPersist_eraseTool decodePayload marshal now insertOK
      (matchTool wire1 fetch1 now (firstNonEmpty [valuesGet r.form "JWT",
        valuesGet r.form "id_token", valuesGet r.query "JWT", valuesGet r.query "id_token"])
        tools)
      (matchTool wire2 fetch2 now (firstNonEmpty [valuesGet r.form "JWT",
        valuesGet r.form "id_token", valuesGet r.query "JWT", valuesGet r.query "id_token"])
        tools)
      (firstNonEmpty [valuesGet r.form "JWT", valuesGet r.form "id_token",
        valuesGet r.query "JWT", valuesGet r.query "id_token"]) st
    simp only [DLStore.eraseTool, DLStore.mk.injEq] at he
    obtain ⟨hs, hq, hi, hj, hm⟩ := he
    obtain ⟨a1, ha1, _⟩ := deeplinkPersist_appends decodePayload marshal now insertOK
      (matchTool wire1 fetch1 now (firstNonEmpty [valuesGet r.form "JWT",
        valuesGet r.form "id_token", valuesGet r.query "JWT", valuesGet r.query "id_token"])
        tools)
      (firstNonEmpty [valuesGet r.form "JWT", valuesGet r.form "id_token",
        valuesGet r.query "JWT", valuesGet r.query "id_token"]) st
    obtain ⟨a2, ha2, _⟩ := deeplinkPersist_appends decodePayload marshal now insertOK
      (matchTool wire2 fetch2 now (firstNonEmpty [valuesGet r.form "JWT",
        valuesGet r.form "id_token", valuesGet r.query "JWT", valuesGet r.query "id_token"])
        tools)
      (firstNonEmpty [valuesGet r.form "JWT", valuesGet r.form "id_token",
        valuesGet r.query "JWT", valuesGet r.query "id_token"]) st
    refine ⟨hi, hm, hj, hq, a1, a2, ha1, ha2, ?_⟩
    rw [ha1, ha2, List.map_append, List.map_append] at hs
    exact List.append_cancel_left hs

/-! ## Decimal rendering and parsing -/

/-- The character of a decimal digit is a digit and has the digit as value. -/
theorem digitChar_spec (d : Nat) (hd : d < 10) :
    (Nat.digitChar d).isDigit = true ∧ (Nat.digitChar d).toNat - 48 = d := by
  interval_cases d <;> exact ⟨by decide, by decide⟩

/-- The digits that `Nat.toDigitsCore` puts in front of `ds` are decimal
digits. -/
theorem toDigitsCore_isDigit (fuel n : Nat) (ds : List Char)
    (hds : ∀ c ∈ ds, c.isDigit = true) :
    ∀ c ∈ Nat.toDigitsCore 10 fuel n ds, c.isDigit = true := by
  induction fuel generalizing n ds with
  | zero => simpa [Nat.toDigitsCore] using hds
  | succ fuel ih =>
    have hd := (digitChar_spec (n % 10) (Nat.mod_lt n (by decide))).1
    have hcons : ∀ c ∈ Nat.digitChar (n % 10) :: ds, c.isDigit = true := by
      intro c hc
      rcases List.mem_cons.mp hc with h | h
      · rw [h]
        exact hd
      · exact hds c h
    unfold Nat.toDigitsCore
    simp only
    split
    · exact hcons
    · exact ih (n / 10) _ hcons

/-- With enough fuel the digits that `Nat.toDigitsCore` puts in front of `ds`
have the value `n`. -/
theorem toDigitsCore_value (fuel n : Nat) (ds : List Char) (hn : n < fuel) :
    (Nat.toDigitsCore 10 fuel n ds).foldl (fun k c => 10 * k + (c.toNat - 48)) 0 =
      ds.foldl (fun k c => 10 * k + (c.toNat - 48)) n := by
  induction fuel generalizing n ds with
  | zero => omega
  | succ fuel ih =>
    have hd := (digitChar_spec (n % 10) (Nat.mod_lt n (by decide))).2
    unfold Nat.toDigitsCore
    simp only
    split
    · rename_i h0
      simp only [List.foldl_cons, hd, Nat.mul_zero, Nat.zero_add]
      have : n % 10 = n := by omega
      rw [this]
    · rename_i h0
      rw [ih (n / 10) _ (by omega)]
      simp only [List.foldl_cons, hd]
      have : 10 * (n / 10) + n % 10 = n := Nat.div_add_mod n 10
      rw [this]

/-- The digits that `Nat.toDigitsCore` returns are not the empty list when
`ds` is not. -/
theorem toDigitsCore_ne_nil (fuel n : Nat) (ds : List Char) (hds : ds ≠ []) :
    Nat.toDigitsCore 10 fuel n ds ≠ [] := by
  induction fuel generalizing n ds with
  | zero => simpa [Nat.toDigitsCore] using hds
  | succ fuel ih =>
    unfold Nat.toDigitsCore
    simp only
    split
    · simp
    · exact ih _ _ (by simp)

/-- The decimal digits of a natural number are read back by `digitsValue`. -/
theorem digitsValue_toDigits (n : Nat) : digitsValue (Nat.toDigits 10 n) = some n := by
  have hall := toDigitsCore_isDigit (n + 1) n [] (by simp)
  have hval := toDigitsCore_value (n + 1) n [] (by omega)
  have hne : Nat.toDigits 10 n ≠ [] := by
    unfold Nat.toDigits Nat.toDigitsCore
    simp only
    split
    · simp
    · exact toDigitsCore_ne_nil _ _ _ (by simp)
  unfold Nat.toDigits at hne ⊢
  cases hds : Nat.toDigitsCore 10 (n + 1) n [] with
  | nil => exact absurd hds hne
  | cons c cs =>
    rw [hds] at hall hval
    unfold digitsValue
    have hall2 : (c :: cs).all Char.isDigit = true := by
      rw [List.all_eq_true]
      exact hall
    simp only [hall2, if_true]
    simp only [List.foldl_nil] at hval
    rw [hval]

/-- The decimal rendering of a non-negative 64-bit integer is parsed back by
`strconv.Atoi`. -/
theorem atoi_formatInt (x : Int) (h0 : 0 ≤ x) (h1 : x < 2 ^ 63) : Atoi (FormatInt x) = some x := by
  have hdv := digitsValue_toDigits x.toNat
  have hall := toDigitsCore_isDigit (x.toNat + 1) x.toNat [] (by simp)
  have hlt : x.toNat < 2 ^ 63 := by omega
  have hx : ((x.toNat : Nat) : Int) = x := Int.toNat_of_nonneg h0
  unfold Atoi ParseInt FormatInt
  have hneg : ¬ x < 0 := by omega
  simp only [hneg, if_false, Nat.repr, List.asString]
  unfold Nat.toDigits at hdv ⊢
  cases hds : Nat.toDigitsCore 10 (x.toNat + 1) x.toNat [] with
  | nil =>
    rw [hds] at hdv
    simp [digitsValue] at hdv
  | cons c cs =>
    rw [hds] at hdv hall
    have hc : c.isDigit = true := hall c (by simp)
    have hminus : c ≠ '-' := by
      intro h
      rw [h] at hc
      exact absurd hc (by decide)
    have hplus : c ≠ '+' := by
      intro h
      rw [h] at hc
      exact absurd hc (by decide)
    split
    · rename_i ds heq
      simp only [List.cons.injEq] at heq
      exact absurd heq.1 hminus
    · rename_i ds heq
      simp only [List.cons.injEq] at heq
      exact absurd heq.1 hplus
    · simp only [hdv, hlt, if_true, hx]

/-! ## Roster paging -/

/-- A value that `strconv.ParseInt` returns lies in the range of `int64`. -/
theorem parseInt_range (str : String) (v : Int) (h : ParseInt str = some v) :
    -(2 ^ 63) ≤ v ∧ v < 2 ^ 63 := by
  unfold ParseInt at h
  split at h
  · split at h
    · split at h
      · simp only [Option.some.injEq] at h
        omega
      · cases h
    · cases h
  · split at h
    · split at h
      · simp only [Option.some.injEq] at h
        omega
      · cases h
    · cases h
  · split at h
    · split at h
      · simp only [Option.some.injEq] at h
        omega
      · cases h
    · cases h

/-- The effective limit is a positive `int`. -/
theorem pageLimit_range (q : List (String × String)) :
    0 < pageLimit q ∧ pageLimit q < 2 ^ 63 := by
  unfold pageLimit
  simp only
  split
  · cases hA : Atoi (valuesGet q "limit") with
    | none => simp
    | some v =>
      have hr := parseInt_range _ v hA
      simp only
      split
      · exact ⟨by omega, hr.2⟩
      · simp
  · simp

/-- The effective offset is a non-negative `int`. -/
theorem pageOffset_range (q : List (String × String)) :
    0 ≤ pageOffset q ∧ pageOffset q < 2 ^ 63 := by
  unfold pageOffset
  simp only
  split
  · cases hA : Atoi (valuesGet q "offset") with
    | none => simp
    | some v =>
      have hr := parseInt_range _ v hA
      simp only
      split
      · exact ⟨by omega, hr.2⟩
      · simp
  · simp

/-- The decimal rendering of an integer that `Atoi` reads back is not
empty. -/
theorem formatInt_ne_empty (x : Int) (h0 : 0 ≤ x) (h1 : x < 2 ^ 63) : FormatInt x ≠ "" := by
  intro h
  have := atoi_formatInt x h0 h1
  rw [h] at this
  have hnone : Atoi "" = none := by decide
  rw [hnone] at this
  cases this

/-- The query of the next URL carries the new offset and the limit as its
effective values. -/
theorem page_params_of_next (r : NRPSRequest) (o l : Int) (ho : 0 ≤ o) (ho2 : o < 2 ^ 63)
    (hl : 0 < l) (hl2 : l < 2 ^ 63) :
    pageOffset (buildPageURL r o l).query = o ∧ pageLimit (buildPageURL r o l).query = l := by
  have hgo : valuesGet (buildPageURL r o l).query "offset" = FormatInt o := by
    unfold buildPageURL
    simp only
    rw [valuesGet_set_other _ "limit" "offset" _ (by decide), valuesGet_set_same]
  have hgl : valuesGet (buildPageURL r o l).query "limit" = FormatInt l := by
    unfold buildPageURL
    simp only
    rw [valuesGet_set_same]
  constructor
  · unfold pageOffset
    simp only [hgo, atoi_formatInt o ho ho2, formatInt_ne_empty o ho ho2, ne_eq,
      not_false_eq_true, if_true, ge_iff_le, ho]
  · unfold pageLimit
    simp only [hgl, atoi_formatInt l (by omega) hl2, formatInt_ne_empty l (by omega) hl2, ne_eq,
      not_false_eq_true, if_true, gt_iff_lt, hl]

/-- Every query parameter other than `offset` and `limit` is kept in the
next URL, with all its values. -/
theorem next_keeps_other_params (r : NRPSRequest) (o l : Int) (k : String)
    (hk1 : k ≠ "offset") (hk2 : k ≠ "limit") :
    (buildPageURL r o l).query.filter (fun p => decide (p.1 = k)) =
      r.query.filter (fun p => decide (p.1 = k)) := by
  unfold buildPageURL valuesSet
  simp only [List.filter_append, List.filter_filter]
  have h1 : ("limit" = k) = False := by
    simp only [eq_iff_iff, iff_false]
    exact fun h => hk2 h.symm
  have h2 : ("offset" = k) = False := by
    simp only [eq_iff_iff, iff_false]
    exact fun h => hk1 h.symm
  simp only [List.filter_cons, h1, h2, decide_False, Bool.false_eq_true, if_false,
    List.filter_nil, List.append_nil, Bool.false_and]
  apply List.filter_congr
  intro p _
  by_cases hp : p.1 = k
  · have ha : ¬ p.1 = "offset" := fun h => hk1 (hp.symm.trans h)
    have hb : ¬ p.1 = "limit" := fun h => hk2 (hp.symm.trans h)
    simp [hp, ha, hb, hk1, hk2]
  · simp [hp]

/-- Insertion by id is a permutation of the list with the row added. -/
theorem insertRowByID_perm (x : MemberRow) (l : List MemberRow) :
    (insertRowByID x l).Perm (x :: l) := by
  induction l with
  | nil => exact List.Perm.refl _
  | cons y ys ih =>
    unfold insertRowByID
    split
    · exact List.Perm.refl _
    · exact (List.Perm.cons y ih).trans (List.Perm.swap x y ys)

/-- The rows of a context in id order are a permutation of the rows of the
context in the table: each row occurs once. -/
theorem contextRows_perm (rows : List MemberRow) (contextID : String) :
    (contextRows rows contextID).Perm
      (rows.filter (fun r => decide (r.context_id = contextID))) := by
  unfold contextRows
  induction rows.filter (fun r => decide (r.context_id = contextID)) with
  | nil => exact List.Perm.refl _
  | cons y ys ih =>
    simp only [List.foldr_cons]
    exact (insertRowByID_perm y _).trans (List.Perm.cons y ih)

/-- Insertion by id keeps a list ordered by id. -/
theorem insertRowByID_sorted (x : MemberRow) (l : List MemberRow)
    (hl : l.Pairwise (fun a b => a.id ≤ b.id)) :
    (insertRowByID x l).Pairwise (fun a b => a.id ≤ b.id) := by
  induction l with
  | nil => simp [insertRowByID]
  | cons y ys ih =>
    unfold insertRowByID
    have hy := List.pairwise_cons.mp hl
    split
    · rename_i hxy
      refine List.pairwise_cons.mpr ⟨?_, hl⟩
      intro b hb
      rcases List.mem_cons.mp hb with h | h
      · rw [h]
        exact hxy
      · exact le_trans hxy (hy.1 b h)
    · rename_i hxy
      refine List.pairwise_cons.mpr ⟨?_, ih hy.2⟩
      intro b hb
      have hb2 := (insertRowByID_perm x ys).subset hb
      rcases List.mem_cons.mp hb2 with h | h
      · rw [h]
        omega
      · exact hy.1 b h

/-- The rows of a context come in ascending id order. -/
theorem contextRows_sorted (rows : List MemberRow) (contextID : String) :
    (contextRows rows contextID).Pairwise (fun a b => a.id ≤ b.id) := by
  unfold contextRows
  induction rows.filter (fun r => decide (r.context_id = contextID)) with
  | nil => exact List.Pairwise.nil
  | cons y ys ih =>
    simp only [List.foldr_cons]
    exact insertRowByID_sorted y _ ih

/-- The total that `ListMembersPage` counts is the number of rows of the
context. -/
theorem contextRows_length (rows : List MemberRow) (contextID : String) :
    (contextRows rows contextID).length =
      (rows.filter (fun r => decide (r.context_id = contextID))).length :=
  (contextRows_perm rows contextID).length_eq

/-- The response of `nrpsListMembers` when the sum of the effective offset
and limit fits an `int`: the link is present exactly when the sum is below the
total, it is the request URL with the two parameters set, and the page is the
slice of the context rows in id order. -/
theorem nrps_response (rows : List MemberRow) (r : NRPSRequest)
    (hfit : pageOffset r.query + pageLimit r.query < 2 ^ 63) :
    nrpsListMembers rows r =
      ⟨200,
        if pageOffset r.query + pageLimit r.query <
            ((rows.filter (fun x => decide (x.context_id = r.contextId))).length : Int) then
          some (buildPageURL r (pageOffset r.query + pageLimit r.query) (pageLimit r.query))
        else none,
        absoluteURL r, r.contextId,
        some ((((contextRows rows r.contextId).map (fun x => x.member)).drop
          (pageOffset r.query).toNat).take (pageLimit r.query).toNat)⟩ := by
  have hl := pageLimit_range r.query
  have ho := pageOffset_range r.query
  have hw := wrapInt64_of_fits (pageOffset r.query + pageLimit r.query) (by omega) hfit
  have hneg : ¬ pageLimit r.query < 0 := by omega
  unfold nrpsListMembers ListMembersPage
  simp only [hw, hneg, if_false]
  congr 1
  split
  · rename_i heq
    split at heq
    · rename_i hempty
      rw [List.isEmpty_iff] at hempty
      rw [hempty]
    · cases heq
  · rename_i p heq
    split at heq
    · cases heq
    · simp only [Option.some.injEq] at heq
      rw [heq]

/-- C26 at a concrete request: `?offset=9223372036854775807&limit=1` on an
empty roster has effective offset 9223372036854775807 and limit 1, the total
is 0, so offset + limit is not below the total, and yet the response carries a
next link, whose offset parameter is −9223372036854775808. -/
theorem C26_next_link_on_overflow :
    pageOffset sampleOverflowRequest.query = 9223372036854775807 ∧
    pageLimit sampleOverflowRequest.query = 1 ∧
    (ListMembersPage [] "ctx" 9223372036854775807 1).2 = 0 ∧
    ¬ ((9223372036854775807 : Int) + 1 < 0) ∧
    nrpsListMembers [] sampleOverflowRequest =
      ⟨200,
        some ⟨"https", "platform.example", "/api/nrps/contexts/ctx/members",
          [("offset", "-9223372036854775808"), ("limit", "1")]⟩,
        "https://platform.example/api/nrps/contexts/ctx/members", "ctx", some []⟩ := by
  decide

/-- When the sum of the effective offset and limit fits an `int`, the next
link is added exactly when the sum is below the total, its URL is the request
URL with `offset` set to the sum and `limit` to the limit and every other
parameter kept, and `members` is a list, the empty one for an empty page. -/
theorem nrps_link_in_range (rows : List MemberRow) (r : NRPSRequest)
    (hfit : pageOffset r.query + pageLimit r.query < 2 ^ 63) :
    ((nrpsListMembers rows r).link ≠ none ↔
      pageOffset r.query + pageLimit r.query <
        (ListMembersPage rows r.contextId (pageOffset r.query) (pageLimit r.query)).2) ∧
    (∀ u, (nrpsListMembers rows r).link = some u →
      u.Scheme = (schemeHost r).1 ∧ u.Host = (schemeHost r).2 ∧ u.Path = r.path ∧
      valuesGet u.query "offset" = FormatInt (pageOffset r.query + pageLimit r.query) ∧
      valuesGet u.query "limit" = FormatInt (pageLimit r.query) ∧
      ∀ k, k ≠ "offset" → k ≠ "limit" →
        u.query.filter (fun p => decide (p.1 = k)) = r.query.filter (fun p => decide (p.1 = k))) ∧
    (nrpsListMembers rows r).members ≠ none ∧
    ((ListMembersPage rows r.contextId (pageOffset r.query) (pageLimit r.query)).1 = none →
      (nrpsListMembers rows r).members = some []) := by
  have hl := pageLimit_range r.query
  have ho := pageOffset_range r.query
  have hw := wrapInt64_of_fits (pageOffset r.query + pageLimit r.query) (by omega) hfit
  refine ⟨?_, ?_, ?_, ?_⟩
  · unfold nrpsListMembers
    simp only [hw]
    split <;> simp_all
  · intro u hu
    unfold nrpsListMembers at hu
    simp only [hw] at hu
    split at hu
    · simp only [Option.some.injEq] at hu
      subst hu
      refine ⟨rfl, rfl, rfl, ?_, ?_, ?_⟩
      · unfold buildPageURL
        simp only
        rw [valuesGet_set_other _ "limit" "offset" _ (by decide), valuesGet_set_same]
      · unfold buildPageURL
        simp only
        rw [valuesGet_set_same]
      · intro k hk1 hk2
        exact next_keeps_other_params r _ _ k hk1 hk2
    · cases hu
  · simp [nrpsListMembers]
  · intro hnone
    simp [nrpsListMembers, hnone]

/-- The page count when another page follows. -/
theorem pages_step (T o L : Nat) (hL : 0 < L) (h : o + L < T) :
    max 1 ((T - o + L - 1) / L) = 1 + max 1 ((T - (o + L) + L - 1) / L) := by
  have hsplit : T - o + L - 1 = (T - (o + L) + L - 1) + L := by omega
  have hpos : 0 < (T - (o + L) + L - 1) / L := Nat.div_pos (by omega) hL
  rw [hsplit, Nat.add_div_right _ hL]
  rw [max_eq_right (by omega), max_eq_right (by omega)]
  omega

/-- The page count at the last page. -/
theorem pages_last (T o L : Nat) (hL : 0 < L) (h : ¬ o + L < T) :
    max 1 ((T - o + L - 1) / L) = 1 := by
  have hlt : (T - o + L - 1) / L < 2 := (Nat.div_lt_iff_lt_mul hL).mpr (by omega)
  exact max_eq_left (by omega)

/-- Following the links from a request whose effective offset `o` is 0 or
a multiple step inside the roster: with enough fuel the client makes
`max 1 ⌈(T − o) / L⌉` requests, the last response has no link, and the pages
are the members from position `o` on. -/
theorem followPages_from (rows : List MemberRow) (all : List Member) (L : Nat) (ctx : String)
    (hall : all = (contextRows rows ctx).map (fun x => x.member))
    (hT : all.length < 2 ^ 62) (hL : 0 < L) (fuel : Nat) :
    ∀ (r : NRPSRequest) (o : Nat), r.contextId = ctx → pageOffset r.query = (o : Int) →
      pageLimit r.query = (L : Int) → (o = 0 ∨ (L ≤ o ∧ o < all.length)) →
      1 ≤ fuel → all.length ≤ o + fuel * L →
      (followPages rows fuel r).length = max 1 ((all.length - o + L - 1) / L) ∧
      (∃ last, (followPages rows fuel r).getLast? = some last ∧ last.link = none) ∧
      pagesMembers (followPages rows fuel r) = all.drop o := by
  induction fuel with
  | zero =>
    intro r o _ _ _ _ h1 _
    omega
  | succ fuel ih =>
    intro r o hctx ho hl hinv _ hfuel
    have hlr := pageLimit_range r.query
    have hfit : pageOffset r.query + pageLimit r.query < 2 ^ 63 := by
      rw [ho, hl]
      rcases hinv with h | h
      · subst h
        rw [hl] at hlr
        omega
      · have : (o : Int) + (L : Int) < 2 ^ 63 := by
          have h3 : o + L < 2 ^ 63 := by omega
          exact_mod_cast h3
        exact this
    have hresp := nrps_response rows r hfit
    have hlen : ((rows.filter (fun x => decide (x.context_id = r.contextId))).length : Int)
        = (all.length : Int) := by
      rw [hall, List.length_map, hctx, contextRows_length]
    rw [hlen, ho, hl, hctx, ← hall] at hresp
    simp only [Int.toNat_ofNat] at hresp
    have hmul : (fuel + 1) * L = fuel * L + L := Nat.succ_mul fuel L
    by_cases hmore : o + L < all.length
    · have hmoreZ : (o : Int) + (L : Int) < (all.length : Int) := by exact_mod_cast hmore
      rw [if_pos hmoreZ] at hresp
      have hnext := page_params_of_next r ((o : Int) + (L : Int)) (L : Int) (by omega)
        (by
          have h3 : o + L < 2 ^ 63 := by omega
          exact_mod_cast h3)
        (by exact_mod_cast hL)
        (by
          rw [hl] at hlr
          exact hlr.2)
      have hfuel1 : 1 ≤ fuel := by
        by_contra hcon
        have h0 : fuel = 0 := by omega
        subst h0
        simp only [Nat.zero_mul] at hmul
        omega
      have hih := ih { r with query := (buildPageURL r ((o : Int) + (L : Int)) (L : Int)).query }
        (o + L) hctx (by rw [hnext.1]; push_cast; rfl) hnext.2
        (Or.inr ⟨by omega, hmore⟩) hfuel1 (by omega)
      have hfp : followPages rows (fuel + 1) r =
          nrpsListMembers rows r ::
            followPages rows fuel
              { r with query := (buildPageURL r ((o : Int) + (L : Int)) (L : Int)).query } := by
        conv_lhs => unfold followPages
        simp only [hresp]
      rw [hfp]
      obtain ⟨hlen2, ⟨last, hlast, hlink⟩, hmem⟩ := hih
      refine ⟨?_, ?_, ?_⟩
      · rw [List.length_cons, hlen2, pages_step all.length o L hL hmore]
        omega
      · refine ⟨last, ?_, hlink⟩
        cases hrest : followPages rows fuel
            { r with query := (buildPageURL r ((o : Int) + (L : Int)) (L : Int)).query } with
        | nil =>
          rw [hrest] at hlast
          cases hlast
        | cons a as =>
          rw [hrest] at hlast
          rw [List.getLast?_cons_cons]
          exact hlast
      · unfold pagesMembers
        rw [hmem, hresp]
        simp only
        rw [← List.drop_drop, List.take_append_drop]
    · have hmoreZ : ¬ ((o : Int) + (L : Int) < (all.length : Int)) := by
        intro hcon
        exact hmore (by exact_mod_cast hcon)
      rw [if_neg hmoreZ] at hresp
      have hfp : followPages rows (fuel + 1) r = [nrpsListMembers rows r] := by
        conv_lhs => unfold followPages
        simp only [hresp]
      rw [hfp]
      refine ⟨?_, ?_, ?_⟩
      · rw [List.length_singleton, pages_last all.length o L hL hmore]
      · exact ⟨nrpsListMembers rows r, rfl, by rw [hresp]⟩
      · unfold pagesMembers
        rw [hresp]
        simp only [pagesMembers, List.append_nil]
        exact List.take_of_length_le (by rw [List.length_drop]; omega)

/-- The quotient `(T + L − 1) / L` is the least number of pages of size `L`
that hold `T` members. -/
theorem pages_is_ceil (T L : Nat) (hL : 0 < L) :
    T ≤ (T + L - 1) / L * L ∧ (T = 0 ∨ ((T + L - 1) / L - 1) * L < T) := by
  have h1 : (T + L - 1) / L * L ≤ T + L - 1 := Nat.div_mul_le_self _ _
  have h2 : T + L - 1 < ((T + L - 1) / L + 1) * L := by
    have := Nat.lt_succ_self ((T + L - 1) / L)
    exact (Nat.div_lt_iff_lt_mul hL).mp this
  rw [Nat.succ_mul] at h2
  constructor
  · omega
  · by_cases hT : T = 0
    · exact Or.inl hT
    · right
      have hc : 0 < (T + L - 1) / L := Nat.div_pos (by omega) hL
      have h3 : ((T + L - 1) / L - 1) * L + L = (T + L - 1) / L * L := by
        rw [← Nat.succ_mul]
        congr 1
        omega
      omega

/-- C30: for a context holding T members (fewer than 2^62) and a first
request with effective offset 0 and effective limit L, a client that follows
each `Link rel="next"` URL of `nrpsListMembers` on an unchanged roster, with
fuel for at least max(1, ⌈T / L⌉) requests, makes exactly max(1, ⌈T / L⌉)
requests (⌈T / L⌉ written (T + L − 1) / L), the last response carries no link,
and the pages put together are the members of the context in ascending id
order, which holds every row of the context once. -/
theorem C30_paging_visits_every_member_once (rows : List MemberRow) (r : NRPSRequest)
    (fuel : Nat) (hoff : pageOffset r.query = 0)
    (hT : (rows.filter (fun x => decide (x.context_id = r.contextId))).length < 2 ^ 62)
    (hfuel : max 1 (((rows.filter (fun x => decide (x.context_id = r.contextId))).length +
      (pageLimit r.query).toNat - 1) / (pageLimit r.query).toNat) ≤ fuel) :
    (followPages rows fuel r).length =
      max 1 (((rows.filter (fun x => decide (x.context_id = r.contextId))).length +
        (pageLimit r.query).toNat - 1) / (pageLimit r.query).toNat) ∧
    (∃ last, (followPages rows fuel r).getLast? = some last ∧ last.link = none) ∧
    pagesMembers (followPages rows fuel r) =
      (contextRows rows r.contextId).map (fun x => x.member) ∧
    (contextRows rows r.contextId).Perm
      (rows.filter (fun x => decide (x.context_id = r.contextId))) ∧
    (contextRows rows r.contextId).Pairwise (fun a b => a.id ≤ b.id) := by
  have hlr := pageLimit_range r.query
  have hLpos : 0 < (pageLimit r.query).toNat := by omega
  have hLcast : pageLimit r.query = ((pageLimit r.query).toNat : Int) :=
    (Int.toNat_of_nonneg (by omega)).symm
  have hlen : ((contextRows rows r.contextId).map (fun x => x.member)).length =
      (rows.filter (fun x => decide (x.context_id = r.contextId))).length := by
    rw [List.length_map, contextRows_length]
  have hceil := pages_is_ceil
    (rows.filter (fun x => decide (x.context_id = r.contextId))).length
    (pageLimit r.query).toNat hLpos
  have hfuel1 : 1 ≤ fuel := le_trans (le_max_left _ _) hfuel
  have hfuel2 : ((rows.filter (fun x => decide (x.context_id = r.contextId))).length +
      (pageLimit r.query).toNat - 1) / (pageLimit r.query).toNat ≤ fuel :=
    le_trans (le_max_right _ _) hfuel
  have hcover : (rows.filter (fun x => decide (x.context_id = r.contextId))).length ≤
      0 + fuel * (pageLimit r.query).toNat := by
    have := Nat.mul_le_mul_right (pageLimit r.query).toNat hfuel2
    omega
  have key := followPages_from rows ((contextRows rows r.contextId).map (fun x => x.member))
    (pageLimit r.query).toNat r.contextId rfl (by rw [hlen]; exact hT) hLpos fuel r 0 rfl
    (by rw [hoff]; rfl) hLcast (Or.inl rfl) hfuel1 (by rw [hlen]; exact hcover)
  rw [hlen] at key
  simp only [Nat.sub_zero, List.drop_zero] at key
  exact ⟨key.1, key.2.1, key.2.2, contextRows_perm rows r.contextId,
    contextRows_sorted rows r.contextId⟩

/-- C30 on a roster of three members of context `ctx` paged by two: two
requests, and the pages give amy, bob, cy, the order of their ids. -/
theorem C30_paging_visits_every_member_once_witness :
    (followPages sampleRoster 5 samplePageRequest).length = 2 ∧
    pagesMembers (followPages sampleRoster 5 samplePageRequest) =
      [sampleMember "amy", sampleMember "bob", sampleMember "cy"] ∧
    (followPages sampleRoster 5 samplePageRequest).map (fun x => x.link.map (fun u => u.query)) =
      [some [("offset", "2"), ("limit", "2")], none] :=
  ⟨(C30_paging_visits_every_member_once sampleRoster samplePageRequest 5 (by decide) (by decide)
      (by decide)).1.trans (by decide),
   (C30_paging_visits_every_member_once sampleRoster samplePageRequest 5 (by decide) (by decide)
      (by decide)).2.2.1.trans (by decide),
   by decide⟩

/-! ## The mapping table invariant -/

/-- The decimal rendering of an integer is never the empty string. -/
theorem formatInt_ne_empty_all (x : Int) : FormatInt x ≠ "" := by
  have hrepr : ∀ n : Nat, (Nat.repr n).data ≠ [] := by
    intro n
    show Nat.toDigits 10 n ≠ []
    unfold Nat.toDigits Nat.toDigitsCore
    simp only
    split
    · simp
    · exact toDigitsCore_ne_nil _ _ _ (by simp)
  unfold FormatInt
  split
  · intro h
    have h2 := congrArg String.data h
    simp [String.data_append] at h2
  · intro h
    exact hrepr _ (congrArg String.data h)

/-- A mapping insert of a positive line-item id keeps the mapping table well
formed. -/
theorem createMapping_wellFormed (mappings : List (Int × String)) (id sel : Int)
    (hm : mappingsWellFormed mappings = true) (hid : 0 < id) :
    mappingsWellFormed (CreateLineItemMapping mappings id (FormatInt sel)).2 = true := by
  unfold CreateLineItemMapping
  split
  · exact hm
  · unfold mappingsWellFormed at hm ⊢
    simp only [List.all_append, hm, List.all_cons, List.all_nil, Bool.and_true, Bool.true_and,
      Bool.and_eq_true, decide_eq_true_eq]
    exact ⟨hid, formatInt_ne_empty_all sel⟩

/-- One loop step of `deeplinkReturn` keeps the store invariant. -/
theorem deeplinkItem_wellFormed (marshal : List (String × JSON) → Option String)
    (clientID matchedTool contextId : String) (now : Nat) (ok : Bool) (st : DLStore) (it : JSON)
    (hst : st.wellFormed = true) :
    (deeplinkItem marshal clientID matchedTool contextId now ok st it).wellFormed = true := by
  unfold DLStore.wellFormed at hst ⊢
  simp only [Bool.and_eq_true, decide_eq_true_eq] at hst ⊢
  obtain ⟨⟨hm, hs⟩, hi⟩ := hst
  have hspos := nextRowID_pos (st.selections.map (fun x => x.ID)) st.selSeq hs
  have hipos := nextRowID_pos (st.items.map (fun x => x.ID)) st.itemSeq hi
  unfold deeplinkItem
  split
  · cases ok with
    | false =>
      simp only [CreateDeepLinkSelection, Bool.false_eq_true, if_false, ne_eq,
        not_true_eq_false, false_and, and_false]
      split <;> exact ⟨⟨hm, hs⟩, hi⟩
    | true =>
      simp only [CreateDeepLinkSelection, if_true]
      split
      · split
        · simp only [CreateLineItem]
          exact ⟨⟨createMapping_wellFormed _ _ _ hm hipos, le_of_lt hspos⟩, le_of_lt hipos⟩
        · exact ⟨⟨hm, le_of_lt hspos⟩, hi⟩
      · exact ⟨⟨hm, le_of_lt hspos⟩, hi⟩
  · exact ⟨⟨hm, hs⟩, hi⟩

/-- The loop of `deeplinkReturn` keeps the store invariant. -/
theorem deeplinkItems_wellFormed (marshal : List (String × JSON) → Option String)
    (clientID matchedTool contextId : String) (now : Nat) (insertOK : Nat → Bool)
    (xs : List JSON) (i : Nat) (st : DLStore) (hst : st.wellFormed = true) :
    (deeplinkItems marshal clientID matchedTool contextId now insertOK i st xs).wellFormed
      = true := by
  induction xs generalizing i st with
  | nil => simpa [deeplinkItems] using hst
  | cons it rest ih =>
    unfold deeplinkItems
    exact ih (i + 1) _ (deeplinkItem_wellFormed marshal clientID matchedTool contextId now
      (insertOK i) st it hst)

/-- Every run of `deeplinkReturn` keeps the store invariant, so the mapping
table that `oidcAuth` reads is well formed. -/
theorem deeplinkReturn_wellFormed (wire : String → Option JWT)
    (fetch : String → Option (List String)) (decodePayload : String → Option JSON)
    (marshal : List (String × JSON) → Option String) (tools : List Tool) (now : Nat)
    (insertOK : Nat → Bool) (st : DLStore) (r : Request) (hst : st.wellFormed = true) :
    (deeplinkReturn wire fetch decodePayload marshal tools now insertOK st r).2.wellFormed
      = true := by
  unfold deeplinkReturn
  simp only
  split
  · exact hst
  · unfold deeplinkPersist
    simp only
    split
    · exact deeplinkItems_wellFormed marshal _ _ _ now insertOK _ 0 st hst
    · exact hst

/-- The decimal rendering is injective on the non-negative integers. -/
theorem formatInt_inj_nonneg (a b : Int) (ha : 0 ≤ a) (hb : 0 ≤ b)
    (h : FormatInt a = FormatInt b) : a = b := by
  unfold FormatInt at h
  have hna : ¬ a < 0 := by omega
  have hnb : ¬ b < 0 := by omega
  simp only [hna, hnb, if_false] at h
  have hd : Nat.toDigits 10 a.toNat = Nat.toDigits 10 b.toNat := congrArg String.data h
  have hv := digitsValue_toDigits a.toNat
  rw [hd, digitsValue_toDigits] at hv
  simp only [Option.some.injEq] at hv
  omega

/-- In a tracked store the ids that the next selection and the next line item
get are not mapped yet. -/
theorem tracked_fresh (st : DLStore) (hst : st.tracked) :
    ∀ p ∈ st.mappings, p.1 ≠ nextRowID st.itemSeq (st.items.map (fun x => x.ID)) ∧
      p.2 ≠ FormatInt (nextRowID st.selSeq (st.selections.map (fun x => x.ID))) := by
  obtain ⟨hs, hi, hall⟩ := hst
  intro p hp
  obtain ⟨h1, sel, hsel0, hsel1, hsel2⟩ := hall p hp
  have hni := le_foldl_max (st.items.map (fun x => x.ID)) st.itemSeq
  have hns := le_foldl_max (st.selections.map (fun x => x.ID)) st.selSeq
  constructor
  · unfold nextRowID
    omega
  · intro heq
    rw [hsel2] at heq
    have := formatInt_inj_nonneg sel _ (by omega)
      (le_of_lt (nextRowID_pos (st.selections.map (fun x => x.ID)) st.selSeq hs)) heq
    unfold nextRowID at this
    omega

/-- In a tracked store a content item that meets the creation condition gets
its line item and its mapping row, and the store stays tracked. -/
theorem deeplinkItem_maps_when_tracked (marshal : List (String × JSON) → Option String)
    (clientID matchedTool contextId : String) (now : Nat) (st : DLStore)
    (m liRaw : List (String × JSON)) (hst : st.tracked)
    (hli : JSON.getObject m "lineItem" = some liRaw)
    (hlabel : JSON.getString liRaw "label" ≠ "")
    (hmax : 0 < JSON.getNumber liRaw "scoreMaximum") (hctx : contextId ≠ "") :
    (deeplinkItem marshal clientID matchedTool contextId now true st (JSON.obj m)).mappings =
      st.mappings ++ [(nextRowID st.itemSeq (st.items.map (fun x => x.ID)),
        FormatInt (nextRowID st.selSeq (st.selections.map (fun x => x.ID))))] := by
  have hc := deeplinkItem_creates marshal clientID matchedTool contextId now st m liRaw hst.1
    hli hlabel hmax hctx
  rw [hc.2]
  unfold CreateLineItemMapping
  have hany : st.mappings.any (fun p =>
      decide (p.1 = nextRowID st.itemSeq (st.items.map (fun x => x.ID))) ||
      decide (p.2 = FormatInt (nextRowID st.selSeq (st.selections.map (fun x => x.ID)))))
      = false := by
    rw [List.any_eq_false]
    intro p hp
    have := tracked_fresh st hst p hp
    simp [this.1, this.2]
  simp only [hany, Bool.false_eq_true, if_false]

/-- One loop step of `deeplinkReturn` keeps the store tracked. -/
theorem deeplinkItem_tracked (marshal : List (String × JSON) → Option String)
    (clientID matchedTool contextId : String) (now : Nat) (ok : Bool) (st : DLStore) (it : JSON)
    (hst : st.tracked) :
    (deeplinkItem marshal clientID matchedTool contextId now ok st it).tracked := by
  obtain ⟨hs, hi, hall⟩ := hst
  have hspos := nextRowID_pos (st.selections.map (fun x => x.ID)) st.selSeq hs
  have hipos := nextRowID_pos (st.items.map (fun x => x.ID)) st.itemSeq hi
  have hni := le_foldl_max (st.items.map (fun x => x.ID)) st.itemSeq
  have hns := le_foldl_max (st.selections.map (fun x => x.ID)) st.selSeq
  have hni2 : st.itemSeq ≤ nextRowID st.itemSeq (st.items.map (fun x => x.ID)) := by
    unfold nextRowID
    omega
  have hns2 : st.selSeq ≤ nextRowID st.selSeq (st.selections.map (fun x => x.ID)) := by
    unfold nextRowID
    omega
  have hold : ∀ p ∈ st.mappings, p.1 ≤ st.itemSeq ∧
      ∃ sel : Int, 0 < sel ∧
        sel ≤ nextRowID st.selSeq (st.selections.map (fun x => x.ID)) ∧ p.2 = FormatInt sel := by
    intro p hp
    obtain ⟨h1, sel, h2, h3, h4⟩ := hall p hp
    exact ⟨h1, sel, h2, le_trans h3 hns2, h4⟩
  unfold deeplinkItem
  split
  · cases ok with
    | false =>
      simp only [CreateDeepLinkSelection, Bool.false_eq_true, if_false, ne_eq,
        not_true_eq_false, false_and, and_false]
      split <;> exact ⟨hs, hi, hall⟩
    | true =>
      simp only [CreateDeepLinkSelection, if_true]
      split
      · split
        · simp only [CreateLineItem]
          refine ⟨le_of_lt hspos, le_of_lt hipos, ?_⟩
          intro p hp
          simp only at hp
          unfold CreateLineItemMapping at hp
          split at hp
          · obtain ⟨h1, hex⟩ := hold p hp
            exact ⟨le_trans h1 hni2, hex⟩
          · rcases List.mem_append.mp hp with h | h
            · obtain ⟨h1, hex⟩ := hold p h
              exact ⟨le_trans h1 hni2, hex⟩
            · simp only [List.mem_singleton] at h
              subst h
              exact ⟨le_refl _, _, hspos, le_refl _, rfl⟩
        · exact ⟨le_of_lt hspos, hi, hold⟩
      · exact ⟨le_of_lt hspos, hi, hold⟩
  · exact ⟨hs, hi, hall⟩

/-- The loop of `deeplinkReturn` keeps the store tracked. -/
theorem deeplinkItems_tracked (marshal : List (String × JSON) → Option String)
    (clientID matchedTool contextId : String) (now : Nat) (insertOK : Nat → Bool)
    (xs : List JSON) (i : Nat) (st : DLStore) (hst : st.tracked) :
    (deeplinkItems marshal clientID matchedTool contextId now insertOK i st xs).tracked := by
  induction xs generalizing i st with
  | nil => simpa [deeplinkItems] using hst
  | cons it rest ih =>
    unfold deeplinkItems
    exact ih (i + 1) _ (deeplinkItem_tracked marshal clientID matchedTool contextId now
      (insertOK i) st it hst)

/-- The loop on a list with one more element at its end: the loop on the list,
then the loop step on the element, with the insert outcome of its index. -/
theorem deeplinkItems_snoc (marshal : List (String × JSON) → Option String)
    (clientID matchedTool contextId : String) (now : Nat) (insertOK : Nat → Bool)
    (xs : List JSON) (x : JSON) (k : Nat) (st : DLStore) :
    deeplinkItems marshal clientID matchedTool contextId now insertOK k st (xs ++ [x]) =
      deeplinkItem marshal clientID matchedTool contextId now (insertOK (k + xs.length))
        (deeplinkItems marshal clientID matchedTool contextId now insertOK k st xs) x := by
  induction xs generalizing k st with
  | nil => simp [deeplinkItems]
  | cons y ys ih =>
    rw [List.cons_append]
    unfold deeplinkItems
    rw [ih, List.length_cons]
    congr 2
    omega

/-- The store when the loop has handled the element at index `i` is the loop
step on the store when the loop reaches that element. -/
theorem deeplinkItems_take_succ (marshal : List (String × JSON) → Option String)
    (clientID matchedTool contextId : String) (now : Nat) (insertOK : Nat → Bool)
    (xs : List JSON) (i : Nat) (it : JSON) (st : DLStore) (hit : xs[i]? = some it) :
    deeplinkItems marshal clientID matchedTool contextId now insertOK 0 st (xs.take (i + 1)) =
      deeplinkItem marshal clientID matchedTool contextId now (insertOK i)
        (deeplinkItems marshal clientID matchedTool contextId now insertOK 0 st (xs.take i))
        it := by
  have hlt : i < xs.length := by
    by_contra hge
    have : xs[i]? = none := List.getElem?_eq_none (by omega)
    rw [this] at hit
    cases hit
  rw [List.take_succ, hit, Option.toList_some, deeplinkItems_snoc]
  have hlen : (xs.take i).length = i := by
    rw [List.length_take]
    omega
  rw [hlen, Nat.zero_add]

/-- What `deeplinkReturn` leaves in the store for a request that carries a
token whose payload is an object with a `content_items` array: the result of
the loop over all the items, run with the client id of `aud`, the matched tool
and the context id of the data claim. -/
theorem deeplinkReturn_store (wire : String → Option JWT)
    (fetch : String → Option (List String)) (decodePayload : String → Option JSON)
    (marshal : List (String × JSON) → Option String) (tools : List Tool) (now : Nat)
    (insertOK : Nat → Bool) (st : DLStore) (r : Request) (payload : List (String × JSON))
    (xs : List JSON)
    (hne : firstNonEmpty [valuesGet r.form "JWT", valuesGet r.form "id_token",
      valuesGet r.query "JWT", valuesGet r.query "id_token"] ≠ "")
    (hpay : decodePayload (firstNonEmpty [valuesGet r.form "JWT", valuesGet r.form "id_token",
      valuesGet r.query "JWT", valuesGet r.query "id_token"]) = some (JSON.obj payload))
    (hitems : JSON.get payload "https://purl.imsglobal.org/spec/lti-dl/claim/content_items" =
      some (JSON.arr xs)) :
    deeplinkReturn wire fetch decodePayload marshal tools now insertOK st r =
      (⟨200, "", matchTool wire fetch now (firstNonEmpty [valuesGet r.form "JWT",
          valuesGet r.form "id_token", valuesGet r.query "JWT", valuesGet r.query "id_token"])
          tools⟩,
        deeplinkItems marshal (audClientID payload)
          (matchTool wire fetch now (firstNonEmpty [valuesGet r.form "JWT",
            valuesGet r.form "id_token", valuesGet r.query "JWT", valuesGet r.query "id_token"])
            tools)
          (JSON.getString payload "https://purl.imsglobal.org/spec/lti-dl/claim/data") now
          insertOK 0 st xs) := by
  unfold deeplinkReturn
  simp only [hne, if_false]
  unfold deeplinkPersist
  simp only [hpay, hitems]

/-- C22: `deeplinkReturn` on a request whose token payload is an object with
the content items `xs`, the client id `cid` in `aud` and the context id `ctx`
in the data claim leaves the store that results from handling every item in
order.  For every index `i`, with `b` the store when the loop reaches the item
and `a` the store after it: an item that is no JSON object changes nothing; for
an item that is the object `m` one selection holding `cid`, the matched tool,
the url and the full JSON of `m` is inserted (nothing when that insert fails);
the line item (`ctx`, label, resource_link_id = the selection id in decimal,
score_maximum) is created and the mapping from the new line item id to that
resource_link_id inserted exactly when `m` has a `lineItem` object with a
non-empty label and scoreMaximum > 0, `ctx` is not empty and the selection
insert gave an id; the mapping row is added when neither value is mapped yet,
as is always the case in a tracked store; and whatever happened to the mapping
of an earlier item, every later item is handled in the same way. -/
theorem C22_deeplink_return_persists_items (wire : String → Option JWT)
    (fetch : String → Option (List String)) (decodePayload : String → Option JSON)
    (marshal : List (String × JSON) → Option String) (tools : List Tool) (now : Nat)
    (insertOK : Nat → Bool) (st : DLStore) (r : Request) (idToken cid tool ctx : String)
    (payload : List (String × JSON)) (xs : List JSON)
    (hst : st.wellFormed = true)
    (hidt : idToken = firstNonEmpty [valuesGet r.form "JWT", valuesGet r.form "id_token",
      valuesGet r.query "JWT", valuesGet r.query "id_token"])
    (hne : idToken ≠ "")
    (hpay : decodePayload idToken = some (JSON.obj payload))
    (hitems : JSON.get payload "https://purl.imsglobal.org/spec/lti-dl/claim/content_items" =
      some (JSON.arr xs))
    (hcid : cid = audClientID payload)
    (hctx : ctx = JSON.getString payload "https://purl.imsglobal.org/spec/lti-dl/claim/data")
    (htool : tool = matchTool wire fetch now idToken tools) :
    (deeplinkReturn wire fetch decodePayload marshal tools now insertOK st r).2 =
      deeplinkItems marshal cid tool ctx now insertOK 0 st xs ∧
    deeplinkItems marshal cid tool ctx now insertOK 0 st (xs.take 0) = st ∧
    deeplinkItems marshal cid tool ctx now insertOK 0 st (xs.take xs.length) =
      deeplinkItems marshal cid tool ctx now insertOK 0 st xs ∧
    ∀ (i : Nat) (it : JSON) (b a : DLStore), xs[i]? = some it →
      b = deeplinkItems marshal cid tool ctx now insertOK 0 st (xs.take i) →
      a = deeplinkItems marshal cid tool ctx now insertOK 0 st (xs.take (i + 1)) →
      ((∀ m, it ≠ JSON.obj m) → a = b) ∧
      ∀ m, it = JSON.obj m →
        (insertOK i = true →
          a.selections = b.selections ++
            [⟨nextRowID b.selSeq (b.selections.map (fun x => x.ID)), cid, tool,
              JSON.getString m "url",
              (match marshal m with
                | some js => js
                | none => "\x7b\x7d"), now⟩]) ∧
        (insertOK i = false → a.selections = b.selections) ∧
        (∀ liRaw, insertOK i = true → JSON.getObject m "lineItem" = some liRaw →
          JSON.getString liRaw "label" ≠ "" → 0 < JSON.getNumber liRaw "scoreMaximum" →
          ctx ≠ "" →
          a.items = b.items ++
            [⟨nextRowID b.itemSeq (b.items.map (fun x => x.ID)), ctx,
              JSON.getString liRaw "label", "",
              FormatInt (nextRowID b.selSeq (b.selections.map (fun x => x.ID))), "",
              JSON.getNumber liRaw "scoreMaximum", none, none, now, now⟩] ∧
          a.mappings =
            (CreateLineItemMapping b.mappings (nextRowID b.itemSeq (b.items.map (fun x => x.ID)))
              (FormatInt (nextRowID b.selSeq (b.selections.map (fun x => x.ID))))).2 ∧
          ((∀ p ∈ b.mappings, p.1 ≠ nextRowID b.itemSeq (b.items.map (fun x => x.ID)) ∧
              p.2 ≠ FormatInt (nextRowID b.selSeq (b.selections.map (fun x => x.ID)))) →
            a.mappings = b.mappings ++
              [(nextRowID b.itemSeq (b.items.map (fun x => x.ID)),
                FormatInt (nextRowID b.selSeq (b.selections.map (fun x => x.ID))))]) ∧
          (st.tracked →
            a.mappings = b.mappings ++
              [(nextRowID b.itemSeq (b.items.map (fun x => x.ID)),
                FormatInt (nextRowID b.selSeq (b.selections.map (fun x => x.ID))))])) ∧
        (¬ (insertOK i = true ∧ ctx ≠ "" ∧
            ∃ liRaw, JSON.getObject m "lineItem" = some liRaw ∧
              JSON.getString liRaw "label" ≠ "" ∧ 0 < JSON.getNumber liRaw "scoreMaximum") →
          a.items = b.items ∧ a.mappings = b.mappings) := by
  subst hidt hcid hctx htool
  refine ⟨?_, by simp [deeplinkItems], by rw [List.take_length], ?_⟩
  · rw [deeplinkReturn_store wire fetch decodePayload marshal tools now insertOK st r payload xs
      hne hpay hitems]
  · intro i it b a hit hb ha
    have hstep := deeplinkItems_take_succ marshal (audClientID payload)
      (matchTool wire fetch now (firstNonEmpty [valuesGet r.form "JWT",
        valuesGet r.form "id_token", valuesGet r.query "JWT", valuesGet r.query "id_token"])
        tools)
      (JSON.getString payload "https://purl.imsglobal.org/spec/lti-dl/claim/data") now insertOK
      xs i it st hit
    rw [← hb] at hstep
    rw [hstep] at ha
    have hbwf : b.wellFormed = true := by
      rw [hb]
      exact deeplinkItems_wellFormed marshal _ _ _ now insertOK _ 0 st hst
    have hbseq : 0 ≤ b.selSeq := by
      unfold DLStore.wellFormed at hbwf
      simp only [Bool.and_eq_true, decide_eq_true_eq] at hbwf
      exact hbwf.1.2
    constructor
    · intro hno
      rw [ha]
      exact deeplinkItem_non_object marshal _ _ _ now (insertOK i) b it hno
    · intro m hm
      subst hm
      have hper := deeplinkItem_persisted marshal (audClientID payload)
        (matchTool wire fetch now (firstNonEmpty [valuesGet r.form "JWT",
          valuesGet r.form "id_token", valuesGet r.query "JWT", valuesGet r.query "id_token"])
          tools)
        (JSON.getString payload "https://purl.imsglobal.org/spec/lti-dl/claim/data") now b m
        hbseq
      refine ⟨?_, ?_, ?_, ?_⟩
      · intro hok
        rw [ha, hok]
        exact hper.1
      · intro hok
        rw [ha, hok]
        exact hper.2.1
      · intro liRaw hok hli hlabel hmax hc
        rw [ha, hok]
        have h3 := hper.2.2.1 liRaw hli hlabel hmax hc
        refine ⟨h3.1, h3.2.1, h3.2.2, ?_⟩
        intro htr
        have hbtr : b.tracked := by
          rw [hb]
          exact deeplinkItems_tracked marshal _ _ _ now insertOK _ 0 st htr
        exact deeplinkItem_maps_when_tracked marshal _ _ _ now b m liRaw hbtr hli hlabel hmax hc
      · intro hno
        rw [ha]
        exact hper.2.2.2.1 (insertOK i) hno

/-- C22 at a concrete response with two content items and a stray string
between them, posted to a store whose mapping table already binds resource
link `1`: the first item gets selection 1 and line item 1 while its mapping
insert is refused, and the item at index 2 still gets its selection, its line
item and its mapping. -/
theorem C22_deeplink_return_persists_items_witness :
    (deeplinkReturn (wireOf (sampleAssertion "x")) sampleJWKS sampleDecodePayload sampleMarshal
        [sampleTool] 500 (fun _ => true) sampleDLStore sampleDeepLinkRequest).2 =
      ⟨[⟨1, "c1", "Tool", "https://tool/a", "item https://tool/a", 500⟩,
        ⟨2, "c1", "Tool", "https://tool/b", "item https://tool/b", 500⟩], 2,
       [⟨1, "ctx", "Quiz A", "", "1", "", 10, none, none, 500, 500⟩,
        ⟨2, "ctx", "Quiz B", "", "2", "", 20, none, none, 500, 500⟩], 2,
       [(99, "1"), (2, "2")]⟩ ∧
    (deeplinkItems sampleMarshal "c1" "Tool" "ctx" 500 (fun _ => true) 0 sampleDLStore
        ([sampleContentItem "https://tool/a" "Quiz A" 10, JSON.str "stray",
          sampleContentItem "https://tool/b" "Quiz B" 20].take 3)).mappings =
      (deeplinkItems sampleMarshal "c1" "Tool" "ctx" 500 (fun _ => true) 0 sampleDLStore
        ([sampleContentItem "https://tool/a" "Quiz A" 10, JSON.str "stray",
          sampleContentItem "https://tool/b" "Quiz B" 20].take 2)).mappings ++ [(2, "2")] := by
  have h := C22_deeplink_return_persists_items (wireOf (sampleAssertion "x")) sampleJWKS
    sampleDecodePayload sampleMarshal [sampleTool] 500 (fun _ => true) sampleDLStore
    sampleDeepLinkRequest "tok" "c1" "Tool" "ctx"
    [("aud", JSON.str "c1"),
      ("https://purl.imsglobal.org/spec/lti-dl/claim/data", JSON.str "ctx"),
      ("https://purl.imsglobal.org/spec/lti-dl/claim/content_items",
        JSON.arr [sampleContentItem "https://tool/a" "Quiz A" 10, JSON.str "stray",
          sampleContentItem "https://tool/b" "Quiz B" 20])]
    [sampleContentItem "https://tool/a" "Quiz A" 10, JSON.str "stray",
      sampleContentItem "https://tool/b" "Quiz B" 20]
    (by decide) (by decide) (by decide) rfl rfl (by decide) (by decide) (by decide)
  refine ⟨h.1.trans (by decide), ?_⟩
  have h2 := (h.2.2.2 2 (sampleContentItem "https://tool/b" "Quiz B" 20) _ _ rfl rfl rfl).2
    [("type", JSON.str "ltiResourceLink"), ("url", JSON.str "https://tool/b"),
      ("lineItem", JSON.obj [("label", JSON.str "Quiz B"), ("scoreMaximum", JSON.num 20)])]
    rfl
  have h3 := h2.2.2.1 [("label", JSON.str "Quiz B"), ("scoreMaximum", JSON.num 20)] rfl rfl
    (by decide) (by decide) (by decide)
  exact (h3.2.2.1 (by decide)).trans (by decide)

/-! ## Key manager in the server -/

/-- A first `Init` that returns `nil` has stored the private key. -/
theorem init_nil_has_key (env : KeysEnv) (s : KeysState) (hd : s.onceDone = false)
    (hnil : (Init env s).1 = none) : PrivateKey (Init env s).2 ≠ none := by
  unfold Init at hnil ⊢
  simp only [hd, Bool.false_eq_true, if_false] at hnil ⊢
  cases hb : env.keyB64 <;> cases hp : env.keyPEM <;> cases hg : env.generated <;>
    cases hf : env.fromRawErr <;>
    simp_all [initWithKey, PrivateKey]

/-- Once the key is stored and `once` has run, every later `Init` returns `nil`
and leaves the key stored. -/
theorem initCalls_after_success (s : KeysState) (envs : List KeysEnv)
    (hd : s.onceDone = true) (hk : PrivateKey s ≠ none) :
    ∀ c ∈ initCalls s envs, c.1 = none ∧ PrivateKey c.2 ≠ none := by
  induction envs with
  | nil =>
    intro c hc
    cases hc
  | cons env envs ih =>
    intro c hc
    unfold initCalls at hc
    rw [init_after_once env s hd] at hc
    rcases List.mem_cons.mp hc with h | h
    · rw [h]
      exact ⟨rfl, hk⟩
    · exact ih c h

/-- C28: in a run of the server, where `main` makes the first call to
`keys.Init` and exits when it fails, no call to `Init` returns a nil error
while the platform signing key is uninitialised, and when the first call fails
it is the only call of the run, so every call of the run reports the
initialisation error. -/
theorem C28_no_nil_error_without_key (env : KeysEnv) (later : List KeysEnv) :
    (∀ c ∈ serverInitCalls env later, c.1 = none → PrivateKey c.2 ≠ none) ∧
    (∀ e, (Init env keysInitial).1 = some e →
      ∀ c ∈ serverInitCalls env later, c.1 = some e) := by
  constructor
  · intro c hc hnil
    unfold serverInitCalls at hc
    cases hfirst : (Init env keysInitial).1 with
    | some e =>
      rw [hfirst] at hc
      simp only [List.mem_singleton] at hc
      rw [hc, hfirst] at hnil
      cases hnil
    | none =>
      rw [hfirst] at hc
      have hkey := init_nil_has_key env keysInitial rfl hfirst
      rcases List.mem_cons.mp hc with h | h
      · rw [h]
        exact hkey
      · exact (initCalls_after_success _ later (init_sets_once env keysInitial) hkey c h).2
  · intro e he c hc
    unfold serverInitCalls at hc
    rw [he] at hc
    simp only [List.mem_singleton] at hc
    rw [hc]
    exact he

/-- C28 at concrete runs: with a key generated by the first call, the call of
`main` and two later calls all return nil with the key stored; with a failing
key generation the run consists of the failing call of `main` alone. -/
theorem C28_no_nil_error_without_key_witness :
    PrivateKey (Init sampleKeysEnvOK (Init sampleKeysEnvOK keysInitial).2).2 ≠ none ∧
    (serverInitCalls sampleKeysEnvOK [sampleKeysEnvOK, sampleKeysEnv]).map (fun c => c.1) =
      [none, none, none] ∧
    (serverInitCalls sampleKeysEnv [sampleKeysEnv, sampleKeysEnvOK]).map (fun c => c.1) =
      [some "entropy source failed"] :=
  ⟨(C28_no_nil_error_without_key sampleKeysEnvOK [sampleKeysEnvOK, sampleKeysEnv]).1
      (Init sampleKeysEnvOK (Init sampleKeysEnvOK keysInitial).2) (by decide) (by decide),
   by decide, by decide⟩

end Edugoes
